import Mathlib

/-!
k8s-agent control plane: shallow embedding and verified properties

The Go sources of `agent-manager`, `orchestrator-service` and `collect-agent`
are embedded as pure Lean functions over explicit state.

* Go maps (`pendingCommands`, `commandTimeouts`, database tables keyed by a
  primary key) are functions `String → Option α`; insertion and deletion are
  `Function.update`.
* Calls into the outside world (database, message bus, clock, uuid source,
  step handlers) take their outcome from an explicit environment argument, so
  every failure path of the source can be exercised.
* `time.Duration` is an `Int` number of nanoseconds.  The `int64` metric
  counters start at zero and grow by one per call; they are natural numbers
  here (the wrap at `2^63` is out of reach of any run).
* Logging has no effect on state and is left out.
-/

namespace Go

/-- Go `time.Duration`: a signed count of nanoseconds. -/
abbrev Duration := Int

/-- Go `time.Millisecond`. -/
abbrev Millisecond : Duration := 1000000

/-- Go `time.Second`. -/
abbrev Second : Duration := 1000000000

/-- Go `time.Minute`. -/
abbrev Minute : Duration := 60 * Second

/-- Go `time.Hour`. -/
abbrev Hour : Duration := 60 * Minute

/-- A decoded JSON value, the model of Go `interface{}` inside a
`map[string]interface{}`; such a map is an association list. -/
inductive Value where
  | null : Value
  | str : String → Value
  | num : Int → Value
  | obj : List (String × Value) → Value
  | arr : List Value → Value
  | bool : Bool → Value

/-- Go `a == b` on two interface values: values of different dynamic types
are unequal, and comparing two maps or two slices is a run-time panic
(`none`). -/
def Value.goEq : Value → Value → Option Bool
  | .null, .null => some true
  | .str a, .str b => some (a == b)
  | .num a, .num b => some (a == b)
  | .bool a, .bool b => some (a == b)
  | .obj _, .obj _ => none
  | .arr _, .arr _ => none
  | _, _ => some false

/-- Go `s, _ := m[key].(string)`: the string under the key, and the empty
string when the key is absent or holds a value of another type. -/
def Value.asString : Option Value → String
  | some (.str s) => s
  | _ => ""

/-- Assignment `m[key] = value` on a Go map held as an association list. -/
def mapSet (m : List (String × Value)) (key : String) (value : Value) : List (String × Value) :=
  m.filter (fun kv => kv.1 != key) ++ [(key, value)]

end Go

namespace AgentManager

open Go

/-! ## `agent-manager/pkg/types/types.go` -/

/-- Go `type AgentStatus string`. -/
abbrev AgentStatus := String

abbrev AgentStatusOnline : AgentStatus := "online"
abbrev AgentStatusOffline : AgentStatus := "offline"
abbrev AgentStatusRegistering : AgentStatus := "registering"
abbrev AgentStatusError : AgentStatus := "error"

/-- Go `types.ConnectionInfo`. -/
structure ConnectionInfo where
  Endpoint : String := ""
  ConnectedAt : Int := 0
  LastSeen : Int := 0
  ReconnectCount : Int := 0
deriving DecidableEq, Repr

/-- Go `types.Agent`.  Instants (`time.Time`) are integers, in nanoseconds
like durations; the metadata and capabilities columns are left out. -/
structure Agent where
  ID : String
  ClusterID : String
  Status : AgentStatus
  LastHeartbeat : Int
  ClusterName : String := ""
  Version : String := ""
  RegisteredAt : Int := 0
  UpdatedAt : Int := 0
  ConnectionInfo : Option ConnectionInfo := none
deriving DecidableEq, Repr

/-- Go `types.Cluster`, with the fields the event pipeline reads. -/
structure Cluster where
  ID : String
  Name : String
  Environment : String
  Region : String
deriving DecidableEq, Repr

/-- Go `type CommandStatus string`. -/
abbrev CommandStatus := String

abbrev CommandStatusPending : CommandStatus := "pending"
abbrev CommandStatusSent : CommandStatus := "sent"
abbrev CommandStatusExecuting : CommandStatus := "executing"
abbrev CommandStatusCompleted : CommandStatus := "completed"
abbrev CommandStatusFailed : CommandStatus := "failed"
abbrev CommandStatusTimeout : CommandStatus := "timeout"

/-- Go `types.Command`.  The field `Type` of the source is `Type_` here. -/
structure Command where
  ID : String
  ClusterID : String
  Type_ : String
  Tool : String
  Action : String
  Args : List String
  Namespace : String
  Timeout : Duration
  IssuedBy : String
  CorrelationID : String
  Status : CommandStatus
  CreatedAt : Int
  UpdatedAt : Int
deriving DecidableEq, Repr

/-- Go `types.CommandResult`. -/
structure CommandResult where
  ID : String
  CommandID : String
  ClusterID : String
  Status : String
  ExitCode : Int
  Output : String
  Error : String
  ExecutionTime : Duration
  Timestamp : Int
deriving DecidableEq, Repr

/-- Go `types.Event`, with labels and raw data as association lists. -/
structure Event where
  ID : String
  ClusterID : String
  Timestamp : Int
  Type_ : String
  Source : String
  Severity : String
  Reason : String
  Message : String
  Namespace : String
  Labels : List (String × String)
  RawData : List (String × Value) := []
  ProcessedAt : Int := 0

/-- Go `types.InternalEvent`. -/
structure InternalEvent where
  Type_ : String
  ClusterID : String
  Severity : String
  Payload : List (String × Value)
  Timestamp : Int

/-- Go `InternalEventTypeCritical`. -/
abbrev InternalEventTypeCritical : String := "critical"

/-! ## Outside world -/

/-- Outcome of the external calls made during one dispatcher operation:
the clock, the uuid source, and whether each database or bus call fails. -/
structure Env where
  now : Int
  uuid : String
  saveCommandErr : Bool
  updateStatusErr : Bool
  saveResultErr : Bool
  marshalErr : Bool
  publishErr : Bool
deriving DecidableEq, Repr

/-! ## `agent-manager/internal/storage/postgres.go` -/

/-- The tables of the durable store: `commands` keyed by primary key `id`,
`command_results`, `agents`, `events` and `clusters` as lists of rows (the
order of the rows carries no meaning: every query that depends on an order
states it). -/
structure PostgresStore where
  agents : List Agent
  commands : String → Option Command
  commandResults : List CommandResult
  events : List Event := []
  clusters : List Cluster := []

namespace PostgresStore

/-- The row that gorm `First` selects among `rows`: `ORDER BY id LIMIT 1`,
the row with the least primary key. -/
def firstByID (rows : List Agent) : Option Agent :=
  rows.foldl
    (fun best a =>
      match best with
      | none => some a
      | some b => if a.ID < b.ID then some a else some b)
    none

/-- Go `PostgresStore.GetAgentByClusterID`: `First` over the rows with the
cluster id. -/
def GetAgentByClusterID (s : PostgresStore) (clusterID : String) : Except String Agent :=
  match firstByID (s.agents.filter (fun a => a.ClusterID == clusterID)) with
  | some a => .ok a
  | none => .error "record not found"

/-- Go `PostgresStore.SaveAgent`: gorm `Save` inserts when the primary key is
the zero value (and then fails on an existing key), and otherwise writes the
row under its primary key, replacing the row that has it.  `fail` is an error
of the database itself. -/
def SaveAgent (s : PostgresStore) (fail : Bool) (agent : Agent) : Except String PostgresStore :=
  if fail then .error "database error"
  else if agent.ID = "" then
    if s.agents.any (fun a => a.ID == "") then
      .error "duplicate key value violates unique constraint"
    else .ok { s with agents := s.agents ++ [agent] }
  else .ok { s with agents := s.agents.filter (fun a => a.ID != agent.ID) ++ [agent] }

/-- Go `PostgresStore.GetAgent`. -/
def GetAgent (s : PostgresStore) (id : String) : Except String Agent :=
  match s.agents.find? (fun a => a.ID == id) with
  | some a => .ok a
  | none => .error "record not found"

/-- Go `PostgresStore.ListAgents`: the rows with the status (all rows for
`none`), `ORDER BY registered_at DESC`. -/
def ListAgents (s : PostgresStore) (status : Option AgentStatus) : List Agent :=
  let rows := match status with
    | some st => s.agents.filter (fun a => a.Status == st)
    | none => s.agents
  List.insertionSort (fun a b : Agent => a.RegisteredAt ≥ b.RegisteredAt) rows

/-- Go `PostgresStore.UpdateAgentStatus`: an UPDATE of `status` and
`updated_at` on the rows with the id. -/
def UpdateAgentStatus (s : PostgresStore) (fail : Bool) (now : Int) (id : String)
    (status : AgentStatus) : PostgresStore × Option String :=
  if fail then (s, some "database error")
  else
    let rows := s.agents.map
      (fun a => if a.ID = id then { a with Status := status, UpdatedAt := now } else a)
    ({ s with agents := rows }, none)

/-- Go `PostgresStore.UpdateAgentHeartbeat`: an UPDATE of the column
`last_heartbeat` alone on the rows with the id. -/
def UpdateAgentHeartbeat (s : PostgresStore) (fail : Bool) (now : Int) (id : String) :
    PostgresStore × Option String :=
  if fail then (s, some "database error")
  else
    let rows := s.agents.map (fun a => if a.ID = id then { a with LastHeartbeat := now } else a)
    ({ s with agents := rows }, none)

/-- Go `PostgresStore.SaveEvent`: an INSERT keyed by the event id. -/
def SaveEvent (s : PostgresStore) (fail : Bool) (event : Event) : Except String PostgresStore :=
  if fail then .error "database error"
  else if s.events.any (fun e => e.ID == event.ID) then
    .error "duplicate key value violates unique constraint"
  else .ok { s with events := s.events ++ [event] }

/-- Go `PostgresStore.GetCluster`. -/
def GetCluster (s : PostgresStore) (fail : Bool) (id : String) : Except String Cluster :=
  if fail then .error "database error"
  else match s.clusters.find? (fun c => c.ID == id) with
    | some c => .ok c
    | none => .error "record not found"

/-- Go `PostgresStore.SaveCommand`: `Create` is an INSERT, which fails on an
existing primary key. -/
def SaveCommand (s : PostgresStore) (env : Env) (cmd : Command) : Except String PostgresStore :=
  if env.saveCommandErr then .error "database error"
  else match s.commands cmd.ID with
    | some _ => .error "duplicate key value violates unique constraint"
    | none => .ok { s with commands := Function.update s.commands cmd.ID (some cmd) }

/-- Go `PostgresStore.GetCommand`. -/
def GetCommand (s : PostgresStore) (id : String) : Except String Command :=
  match s.commands id with
  | some c => .ok c
  | none => .error "record not found"

/-- Go `PostgresStore.UpdateCommandStatus`: an UPDATE of `status` and
`updated_at` on the rows with the id; no row is not an error. -/
def UpdateCommandStatus (s : PostgresStore) (env : Env) (id : String) (status : CommandStatus) :
    PostgresStore × Option String :=
  if env.updateStatusErr then (s, some "database error")
  else match s.commands id with
    | some c =>
      ({ s with commands :=
          Function.update s.commands id (some { c with Status := status, UpdatedAt := env.now }) },
        none)
    | none => (s, none)

/-- Go `PostgresStore.SaveCommandResult`: an INSERT keyed by the result id. -/
def SaveCommandResult (s : PostgresStore) (env : Env) (result : CommandResult) :
    Except String PostgresStore :=
  if env.saveResultErr then .error "database error"
  else if s.commandResults.any (fun r => r.ID == result.ID) then
    .error "duplicate key value violates unique constraint"
  else .ok { s with commandResults := s.commandResults ++ [result] }

/-- Go `PostgresStore.GetCommandResult`: first row with the command id. -/
def GetCommandResult (s : PostgresStore) (commandID : String) : Except String CommandResult :=
  match s.commandResults.find? (fun r => r.CommandID == commandID) with
  | some r => .ok r
  | none => .error "record not found"

end PostgresStore

/-! ## `agent-manager/internal/storage/redis.go` -/

/-- A value held under a Redis key: a string, a counter, or the JSON encoding
of an agent. -/
inductive RedisValue where
  | str : String → RedisValue
  | int : Int → RedisValue
  | agent : Agent → RedisValue
deriving DecidableEq, Repr

/-- A Redis entry: its value and the instant at which it expires (`none` for
a key without TTL). -/
structure RedisEntry where
  value : RedisValue
  expiresAt : Option Int
deriving DecidableEq, Repr

/-- The Redis keyspace behind `storage.RedisStore`. -/
structure RedisStore where
  data : String → Option RedisEntry

namespace RedisStore

/-- The value of a key at instant `now`: an entry whose expiry has been
reached is gone. -/
def get (s : RedisStore) (now : Int) (key : String) : Option RedisValue :=
  match s.data key with
  | some e =>
    match e.expiresAt with
    | none => some e.value
    | some t => if now < t then some e.value else none
  | none => none

/-- The expiry of an entry written at `now` with time-to-live `ttl`; a zero
`ttl` means no expiry. -/
def expiry (now : Int) (ttl : Duration) : Option Int :=
  if ttl = 0 then none else some (now + ttl)

/-- Redis `SET key value` with expiry. -/
def set (s : RedisStore) (now : Int) (key : String) (value : RedisValue) (ttl : Duration) :
    RedisStore :=
  { s with data := Function.update s.data key (some { value := value, expiresAt := expiry now ttl }) }

/-- Redis `SET key value NX` with expiry: writes only if the key does not
exist, and tells whether it wrote. -/
def setNX (s : RedisStore) (now : Int) (key : String) (value : RedisValue) (ttl : Duration) :
    RedisStore × Bool :=
  match s.get now key with
  | some _ => (s, false)
  | none => (s.set now key value ttl, true)

/-- Redis `INCR key`: a missing key counts from zero and gets no expiry; a
key holding something else than a counter is an error. -/
def incr (s : RedisStore) (now : Int) (key : String) : RedisStore × Except String Int :=
  match s.get now key with
  | none =>
    let entry : RedisEntry := { value := RedisValue.int 1, expiresAt := none }
    ({ s with data := Function.update s.data key (some entry) }, .ok 1)
  | some (RedisValue.int n) =>
    let entry : RedisEntry :=
      { value := RedisValue.int (n + 1), expiresAt := (s.data key).bind (fun e => e.expiresAt) }
    ({ s with data := Function.update s.data key (some entry) }, .ok (n + 1))
  | some _ => (s, .error "value is not an integer or out of range")

/-- Redis `DEL key`. -/
def del (s : RedisStore) (key : String) : RedisStore :=
  { s with data := Function.update s.data key none }

/-- Go `RedisStore.agentKey`. -/
def agentKey (id : String) : String := "agent:" ++ id

/-- Go `RedisStore.agentStatusKey`. -/
def agentStatusKey (id : String) : String := "agent:status:" ++ id

/-- Go `RedisStore.eventCounterKey`. -/
def eventCounterKey (clusterID severity : String) : String :=
  "event:count:" ++ clusterID ++ ":" ++ severity

/-- Go `RedisStore.lockKey`. -/
def lockKey (lockKey : String) : String := "lock:" ++ lockKey

/-- Go `RedisStore.CacheAgent`.  `fail` is an error of the cache call. -/
def CacheAgent (s : RedisStore) (now : Int) (fail : Bool) (agent : Agent) (ttl : Duration) :
    RedisStore × Option String :=
  if fail then (s, some "cache error")
  else (s.set now (agentKey agent.ID) (RedisValue.agent agent) ttl, none)

/-- Go `RedisStore.DeleteCachedAgent`. -/
def DeleteCachedAgent (s : RedisStore) (fail : Bool) (id : String) : RedisStore × Option String :=
  if fail then (s, some "cache error") else (s.del (agentKey id), none)

/-- Go `RedisStore.SetAgentOnline`. -/
def SetAgentOnline (s : RedisStore) (now : Int) (fail : Bool) (agentID : String) (ttl : Duration) :
    RedisStore × Option String :=
  if fail then (s, some "cache error")
  else (s.set now (agentStatusKey agentID) (RedisValue.str "online") ttl, none)

/-- Go `RedisStore.IncrementEventCounter`. -/
def IncrementEventCounter (s : RedisStore) (now : Int) (fail : Bool) (clusterID severity : String) :
    RedisStore × Option String :=
  if fail then (s, some "cache error")
  else
    let r := s.incr now (eventCounterKey clusterID severity)
    match r.2 with
    | .ok _ => (r.1, none)
    | .error err => (r.1, some err)

/-- Go `RedisStore.AcquireLock`: `SetNX` of `lock:<lockKey>` to `"locked"` with
the TTL; the boolean tells whether the key was newly set. -/
def AcquireLock (s : RedisStore) (now : Int) (fail : Bool) (lockKey : String) (ttl : Duration) :
    RedisStore × Except String Bool :=
  if fail then (s, .error "cache error")
  else
    let r := s.setNX now (RedisStore.lockKey lockKey) (RedisValue.str "locked") ttl
    (r.1, .ok r.2)

end RedisStore

/-! ## `agent-manager/internal/agent/registry.go` -/

/-- Go `agent.Registry`: the in-memory agent map, as the list of its values
(each under the key that is its id), the configuration and the metric
counters.  The store and the cache it points to are passed to its methods. -/
structure Registry where
  agents : List Agent
  heartbeatTimeout : Duration := 60 * Second
  cleanupInterval : Duration := 30 * Second
  registrationCount : Nat := 0
  heartbeatCount : Nat := 0

/-- Go `Registry.GetAgentByClusterID`: search the memory map, then fall back
to the database. -/
def Registry.GetAgentByClusterID (r : Registry) (store : PostgresStore) (clusterID : String) :
    Except String Agent :=
  match r.agents.find? (fun a => a.ClusterID == clusterID) with
  | some a => .ok a
  | none => store.GetAgentByClusterID clusterID

/-- Outcome of the external calls made during one registry operation: the
clock, and whether each store or cache call fails.  The sweeper updates the
status of several agents in one run, so that outcome is per agent id. -/
structure RegistryEnv where
  now : Int
  getAgentErr : Bool
  saveAgentErr : Bool
  cacheAgentErr : Bool
  setOnlineErr : Bool
  updateHeartbeatErr : Bool
  updateStatusErr : String → Bool

/-- The registry together with the store and the cache it points to. -/
structure RegistryState where
  registry : Registry
  store : PostgresStore
  cache : RedisStore

namespace Registry

/-- Go `NewRegistry`: an empty agent map and a heartbeat timeout of 60 s. -/
def NewRegistry (store : PostgresStore) (cache : RedisStore) : RegistryState :=
  { registry := { agents := [], heartbeatTimeout := 60 * Second, cleanupInterval := 30 * Second },
    store := store, cache := cache }

/-- Assignment `r.agents[agent.ID] = agent` on the agent map. -/
def put (agents : List Agent) (agent : Agent) : List Agent :=
  agents.filter (fun a => a.ID != agent.ID) ++ [agent]

/-- The block of `RegisterAgent` before the save (source lines 81 to 111):
set status and heartbeat, look the cluster up in the store, and either take
over id and registration instant of the existing row or fill in a new agent
and count the registration.  A lookup that fails for any reason counts as no
existing agent. -/
def RegisterAgent.prepare (s : RegistryState) (env : RegistryEnv) (agent : Agent) :
    Agent × Registry :=
  let agent := { agent with Status := AgentStatusOnline, LastHeartbeat := env.now }
  let existing :=
    if env.getAgentErr then .error "database error"
    else s.store.GetAgentByClusterID agent.ClusterID
  match existing with
  | .ok existing =>
    ({ agent with ID := existing.ID, RegisteredAt := existing.RegisteredAt, UpdatedAt := env.now },
      s.registry)
  | .error _ =>
    let info : ConnectionInfo := agent.ConnectionInfo.getD {}
    let info := { info with ConnectedAt := env.now, LastSeen := env.now }
    ({ agent with RegisteredAt := env.now, UpdatedAt := env.now, ConnectionInfo := some info },
      { s.registry with registrationCount := s.registry.registrationCount + 1 })

/-- Go `Registry.RegisterAgent`.  Returns the state, the agent as mutated
through the pointer, and the error (`none` is `nil`). -/
def RegisterAgent (s : RegistryState) (env : RegistryEnv) (agent : Agent) :
    RegistryState × Agent × Option String :=
  let p := RegisterAgent.prepare s env agent
  let agent := p.1
  match s.store.SaveAgent env.saveAgentErr agent with
  | .error err => ({ s with registry := p.2 }, agent, some ("failed to save agent: " ++ err))
  | .ok store1 =>
    let cache := (s.cache.CacheAgent env.now env.cacheAgentErr agent (30 * Minute)).1
    let cache := (cache.SetAgentOnline env.now env.setOnlineErr agent.ID (2 * Minute)).1
    ({ registry := { p.2 with agents := put p.2.agents agent }, store := store1, cache := cache },
      agent, none)

/-- Go `Registry.UpdateHeartbeat`. -/
def UpdateHeartbeat (s : RegistryState) (env : RegistryEnv) (agentID : String) :
    RegistryState × Option String :=
  let r := s.store.UpdateAgentHeartbeat env.updateHeartbeatErr env.now agentID
  match r.2 with
  | some err => (s, some ("failed to update heartbeat: " ++ err))
  | none =>
    let agents := s.registry.agents.map (fun a =>
      if a.ID = agentID then
        { a with LastHeartbeat := env.now, Status := AgentStatusOnline,
                 ConnectionInfo := a.ConnectionInfo.map (fun ci => { ci with LastSeen := env.now }) }
      else a)
    let cache := (s.cache.SetAgentOnline env.now env.setOnlineErr agentID (2 * Minute)).1
    ({ registry := { s.registry with agents := agents,
                                     heartbeatCount := s.registry.heartbeatCount + 1 },
       store := r.1, cache := cache }, none)

/-- Go `Registry.ListAgents`: the memory snapshot without a filter, the store
with one. -/
def ListAgents (s : RegistryState) (status : Option AgentStatus) : List Agent :=
  match status with
  | none => s.registry.agents
  | some st => s.store.ListAgents (some st)

/-- The body of the loop of `checkHeartbeats` for one agent: an online agent
whose heartbeat is older than the timeout becomes offline in memory, and the
store is told (an error of the store is logged and nothing else). -/
def checkHeartbeats.visit (timeout : Duration) (env : RegistryEnv) (agent : Agent)
    (store : PostgresStore) : Agent × PostgresStore :=
  if env.now - agent.LastHeartbeat > timeout then
    if agent.Status = AgentStatusOnline then
      let agent := { agent with Status := AgentStatusOffline, UpdatedAt := env.now }
      let store :=
        (store.UpdateAgentStatus (env.updateStatusErr agent.ID) env.now agent.ID
          AgentStatusOffline).1
      (agent, store)
    else (agent, store)
  else (agent, store)

/-- What the sweeper is to leave in memory for one agent, in the words of the
specification: an online agent whose heartbeat is older than the timeout is
marked offline at `now`, any other agent is left as it is. -/
def sweptAgent (timeout : Duration) (now : Int) (agent : Agent) : Agent :=
  if now - agent.LastHeartbeat > timeout ∧ agent.Status = AgentStatusOnline then
    { agent with Status := AgentStatusOffline, UpdatedAt := now }
  else agent

/-- The loop of `checkHeartbeats` over the agent map. -/
def checkHeartbeats.loop (timeout : Duration) (env : RegistryEnv) :
    List Agent → PostgresStore → List Agent × PostgresStore
  | [], store => ([], store)
  | agent :: rest, store =>
    let r := checkHeartbeats.visit timeout env agent store
    let rr := checkHeartbeats.loop timeout env rest r.2
    (r.1 :: rr.1, rr.2)

/-- Go `Registry.checkHeartbeats`, run at instant `env.now`. -/
def checkHeartbeats (s : RegistryState) (env : RegistryEnv) : RegistryState :=
  let r := checkHeartbeats.loop s.registry.heartbeatTimeout env s.registry.agents s.store
  { s with registry := { s.registry with agents := r.1 }, store := r.2 }

end Registry

/-! ## `agent-manager/internal/nats/server.go` -/

/-- A bus message: subject and raw payload. -/
structure Msg where
  Subject : String
  Data : String
deriving DecidableEq, Repr

/-- Go `nats.Server`: the metric counters, and the log of messages handed to
the connection (subject and command), which stands for the bus. -/
structure Server where
  messagesReceived : Nat
  messagesSent : Nat
  errorCount : Nat
  published : List (String × Command)
deriving DecidableEq, Repr

namespace Server

/-- Go `Server.handleResult`: count the message, decode it, count a decode
error; a decoded result is logged and nothing else (`TODO: Process command
result` in the source).  `unmarshal` is `json.Unmarshal` into a
`CommandResult`. -/
def handleResult (s : Server) (unmarshal : String → Option CommandResult) (msg : Msg) : Server :=
  let s := { s with messagesReceived := s.messagesReceived + 1 }
  match unmarshal msg.Data with
  | none => { s with errorCount := s.errorCount + 1 }
  | some _ => s

/-- Go `Server.PublishCommand`. -/
def PublishCommand (s : Server) (env : Env) (clusterID : String) (cmd : Command) :
    Server × Option String :=
  let subject := "aetherius.agent." ++ clusterID ++ ".command"
  if env.marshalErr then (s, some "failed to marshal command")
  else if env.publishErr then
    ({ s with errorCount := s.errorCount + 1 }, some "failed to publish command")
  else
    ({ s with messagesSent := s.messagesSent + 1, published := s.published ++ [(subject, cmd)] },
      none)

end Server

/-! ## `agent-manager/internal/event/processor.go` -/

/-- Outcome of the external calls made during one `ProcessEvent`: those of
`Env` (clock and bus), and whether the lock, counter, cluster lookup and event
insert calls fail. -/
structure PipelineEnv extends Env where
  lockErr : Bool
  incrErr : Bool
  getClusterErr : Bool
  saveEventErr : Bool
deriving DecidableEq, Repr

/-- Go `event.SeverityFilter`. -/
structure SeverityFilter where
  MinSeverity : String
deriving DecidableEq, Repr

/-- Go `event.DuplicateFilter`; the cache it points to is passed to its
method. -/
structure DuplicateFilter where
  ttl : Duration
deriving DecidableEq, Repr

/-- The implementations of the Go interface `EventFilter`. -/
inductive EventFilter where
  | severity : SeverityFilter → EventFilter
  | duplicate : DuplicateFilter → EventFilter
deriving DecidableEq, Repr

/-- The implementations of the Go interface `EventEnricher`. -/
inductive EventEnricher where
  | cluster : EventEnricher
deriving DecidableEq, Repr

/-- Go `event.EventGroup`. -/
structure EventGroup where
  Key : String
  Events : List Event
  FirstSeen : Int
  LastSeen : Int
  Count : Nat

/-- Go `event.Aggregator`. -/
structure Aggregator where
  groups : String → Option EventGroup

/-- Go `event.Processor`.  `bus` is the log of internal events handed to the
connection by the publisher. -/
structure Processor where
  store : PostgresStore
  cache : RedisStore
  bus : List (String × InternalEvent)
  filters : List EventFilter
  enrichers : List EventEnricher
  aggregator : Aggregator
  eventsProcessed : Nat
  eventsFiltered : Nat
  eventsFailed : Nat

/-- The `severityLevels` map literal of `SeverityFilter.ShouldProcess`. -/
def SeverityFilter.severityLevels : List (String × Int) :=
  [("low", 1), ("medium", 2), ("high", 3), ("critical", 4)]

/-- The rank of a severity in the words of the specification: low 1, medium
2, high 3, critical 4, and 0 for any other string. -/
def SeverityFilter.rank (severity : String) : Int :=
  if severity = "low" then 1
  else if severity = "medium" then 2
  else if severity = "high" then 3
  else if severity = "critical" then 4
  else 0

/-- Go `SeverityFilter.ShouldProcess`: a key that is not in the map reads as 0. -/
def SeverityFilter.ShouldProcess (f : SeverityFilter) (event : Event) : Bool :=
  let minLevel := (SeverityFilter.severityLevels.lookup f.MinSeverity).getD 0
  let eventLevel := (SeverityFilter.severityLevels.lookup event.Severity).getD 0
  decide (eventLevel ≥ minLevel)

/-- The key built in `DuplicateFilter.ShouldProcess`:
`event:seen:<clusterID>:<reason>:<labels["name"]>`, a missing label reading as
the empty string. -/
def DuplicateFilter.key (event : Event) : String :=
  "event:seen:" ++ event.ClusterID ++ ":" ++ event.Reason ++ ":" ++
    (event.Labels.lookup "name").getD ""

/-- Go `DuplicateFilter.ShouldProcess`: the cache after the call and the
answer. -/
def DuplicateFilter.ShouldProcess (f : DuplicateFilter) (cache : RedisStore) (env : PipelineEnv)
    (event : Event) : RedisStore × Bool :=
  let key := DuplicateFilter.key event
  let r := cache.AcquireLock env.now env.lockErr key f.ttl
  match r.2 with
  | .error _ => (r.1, true)
  | .ok existed => (r.1, existed)

/-- The method `ShouldProcess` of the interface `EventFilter`. -/
def EventFilter.ShouldProcess (f : EventFilter) (cache : RedisStore) (env : PipelineEnv)
    (event : Event) : RedisStore × Bool :=
  match f with
  | .severity sf => (cache, sf.ShouldProcess event)
  | .duplicate df => df.ShouldProcess cache env event

/-- Go `ClusterEnricher.Enrich`: a cluster that is not found leaves the event
as it is; the method never returns an error. -/
def ClusterEnricher.Enrich (store : PostgresStore) (env : PipelineEnv) (event : Event) : Event :=
  match store.GetCluster env.getClusterErr event.ClusterID with
  | .error _ => event
  | .ok cluster =>
    let raw := mapSet event.RawData "cluster_name" (Value.str cluster.Name)
    let raw := mapSet raw "cluster_environment" (Value.str cluster.Environment)
    let raw := mapSet raw "cluster_region" (Value.str cluster.Region)
    { event with RawData := raw }

/-- The method `Enrich` of the interface `EventEnricher`. -/
def EventEnricher.Enrich (en : EventEnricher) (store : PostgresStore) (env : PipelineEnv)
    (event : Event) : Event :=
  match en with
  | .cluster => ClusterEnricher.Enrich store env event

/-- Go `NewAggregator`. -/
def NewAggregator : Aggregator :=
  { groups := fun _ => none }

/-- Go `Aggregator.Add`. -/
def Aggregator.Add (a : Aggregator) (event : Event) : Aggregator :=
  let key := event.ClusterID ++ ":" ++ event.Namespace ++ ":" ++
    (event.Labels.lookup "name").getD ""
  let group : EventGroup :=
    match a.groups key with
    | some g => g
    | none => { Key := key, Events := [], FirstSeen := event.Timestamp, LastSeen := 0, Count := 0 }
  let events := group.Events ++ [event]
  let events := if events.length > 10 then events.drop (events.length - 10) else events
  let group := { group with Events := events, LastSeen := event.Timestamp, Count := group.Count + 1 }
  { a with groups := Function.update a.groups key (some group) }

namespace Processor

/-- The `criticalReasons` map literal of `isCriticalEvent`. -/
def criticalReasons : List (String × Bool) :=
  [("CrashLoopBackOff", true), ("OOMKilling", true), ("FailedScheduling", true),
   ("NodeNotReady", true), ("VolumeBindingFailed", true), ("ImagePullBackOff", true),
   ("DeadlineExceeded", true)]

/-- Go `Processor.isCriticalEvent`. -/
def isCriticalEvent (event : Event) : Bool :=
  event.Severity == "critical" || (criticalReasons.lookup event.Reason).getD false

/-- The `internalEvent` value built in the body of `handleCriticalEvent`;
`now` is the reading of `time.Now()`. -/
def handleCriticalEvent.internalEvent (now : Int) (event : Event) : InternalEvent :=
  { Type_ := InternalEventTypeCritical,
    ClusterID := event.ClusterID,
    Severity := "critical",
    Payload :=
      [("event_id", Value.str event.ID),
       ("reason", Value.str event.Reason),
       ("message", Value.str event.Message),
       ("namespace", Value.str event.Namespace),
       ("labels", Value.obj (event.Labels.map (fun kv => (kv.1, Value.str kv.2))))],
    Timestamp := now }

/-- Go `InternalPublisher.Publish`: the event goes out on
`internal.event.<type>`; `bus` is the log of published internal events. -/
def InternalPublisher.Publish (bus : List (String × InternalEvent)) (env : Env)
    (event : InternalEvent) : List (String × InternalEvent) × Option String :=
  let subject := "internal.event." ++ event.Type_
  if env.marshalErr then (bus, some "failed to marshal internal event")
  else if env.publishErr then (bus, some "failed to publish internal event")
  else (bus ++ [(subject, event)], none)

/-- Go `Processor.handleCriticalEvent`. -/
def handleCriticalEvent (bus : List (String × InternalEvent)) (env : Env) (event : Event) :
    List (String × InternalEvent) × Option String :=
  InternalPublisher.Publish bus env (handleCriticalEvent.internalEvent env.now event)

/-- Go `NewProcessor`: the default filters are the severity filter with
minimum `medium` and the duplicate filter with a TTL of five minutes; the
default enricher is the cluster enricher. -/
def NewProcessor (store : PostgresStore) (cache : RedisStore) : Processor :=
  { store := store, cache := cache, bus := [],
    filters := [EventFilter.severity { MinSeverity := "medium" },
                EventFilter.duplicate { ttl := 5 * Minute }],
    enrichers := [EventEnricher.cluster],
    aggregator := NewAggregator,
    eventsProcessed := 0, eventsFiltered := 0, eventsFailed := 0 }

/-- The filter loop of `ProcessEvent`: the cache after the filters that ran,
and whether every filter accepted the event (the loop stops at the first
filter that rejects). -/
def applyFilters (env : PipelineEnv) (event : Event) :
    List EventFilter → RedisStore → RedisStore × Bool
  | [], cache => (cache, true)
  | f :: rest, cache =>
    let r := f.ShouldProcess cache env event
    if !r.2 then (r.1, false) else applyFilters env event rest r.1

/-- Go `Processor.ProcessEvent`.  Returns the processor, the event as mutated
through the pointer, and the error (`none` is `nil`). -/
def ProcessEvent (p : Processor) (env : PipelineEnv) (event : Event) :
    Processor × Event × Option String :=
  let r := applyFilters env event p.filters p.cache
  let p := { p with cache := r.1 }
  if !r.2 then ({ p with eventsFiltered := p.eventsFiltered + 1 }, event, none)
  else
    let event := p.enrichers.foldl (fun ev en => en.Enrich p.store env ev) event
    let event := { event with ProcessedAt := env.now }
    match p.store.SaveEvent env.saveEventErr event with
    | .error err =>
      ({ p with eventsFailed := p.eventsFailed + 1 }, event, some ("failed to save event: " ++ err))
    | .ok store1 =>
      let p := { p with store := store1 }
      let p := { p with cache :=
                  (p.cache.IncrementEventCounter env.now env.incrErr event.ClusterID event.Severity).1 }
      let p := if isCriticalEvent event then
                 { p with bus := (handleCriticalEvent p.bus env.toEnv event).1 }
               else p
      let p := { p with aggregator := p.aggregator.Add event }
      ({ p with eventsProcessed := p.eventsProcessed + 1 }, event, none)

end Processor

/-! ## `agent-manager/internal/command/dispatcher.go` -/

/-- State of a Go `*time.Timer` created by `time.AfterFunc`: waiting for its
deadline (armed), stopped before the deadline, past the deadline with the
callback started in its own goroutine but not yet run (expired), or with the
callback run (fired). -/
inductive TimerState where
  | armed : TimerState
  | stopped : TimerState
  | expired : TimerState
  | fired : TimerState
deriving DecidableEq, Repr

/-- A timer created by `setupCommandTimeout`: its duration, and the command
id its callback passes to `handleCommandTimeout`. -/
structure Timer where
  commandID : String
  d : Duration
  state : TimerState
deriving DecidableEq, Repr

/-- Go `command.Dispatcher`.  `timers` is the heap of timers created so far;
`commandTimeouts` holds indices into it (the `*time.Timer` pointers). -/
structure Dispatcher where
  store : PostgresStore
  registry : Registry
  nats : Server
  timers : List Timer
  pendingCommands : String → Option Command
  commandTimeouts : String → Option Nat
  commandsIssued : Nat
  commandsCompleted : Nat
  commandsFailed : Nat
  commandsTimeout : Nat

namespace Dispatcher

/-- Go `NewDispatcher`: empty tracking maps, zero counters. -/
def NewDispatcher (store : PostgresStore) (registry : Registry) (natsServer : Server) : Dispatcher :=
  { store := store, registry := registry, nats := natsServer, timers := [],
    pendingCommands := fun _ => none, commandTimeouts := fun _ => none,
    commandsIssued := 0, commandsCompleted := 0, commandsFailed := 0, commandsTimeout := 0 }

/-- The `allowedTools` map literal of `validateCommand`. -/
def allowedTools : List (String × Bool) :=
  [("kubectl", true), ("ps", true), ("df", true), ("netstat", true), ("curl", true),
   ("ping", true), ("top", true)]

/-- Go `Dispatcher.validateCommand`; `none` is the `nil` error. -/
def validateCommand (cmd : Command) : Option String :=
  if cmd.ClusterID = "" then some "cluster_id is required"
  else if cmd.Type_ = "" then some "command type is required"
  else if cmd.Tool = "" then some "tool is required"
  else if cmd.Action = "" then some "action is required"
  else if !((allowedTools.lookup cmd.Tool).getD false) then
    some ("tool " ++ cmd.Tool ++ " is not allowed")
  else none

/-- Go `Dispatcher.updateCommandStatus`. -/
def updateCommandStatus (d : Dispatcher) (env : Env) (commandID : String) (status : CommandStatus) :
    Dispatcher × Option String :=
  let r := d.store.UpdateCommandStatus env commandID status
  ({ d with store := r.1 }, r.2)

/-- Go `Dispatcher.setupCommandTimeout`: create a timer for `cmd.Timeout`
whose callback is `handleCommandTimeout(cmd.ID)` and record it under the id. -/
def setupCommandTimeout (d : Dispatcher) (cmd : Command) : Dispatcher :=
  { d with
    timers := d.timers ++ [{ commandID := cmd.ID, d := cmd.Timeout, state := TimerState.armed }],
    commandTimeouts := Function.update d.commandTimeouts cmd.ID (some d.timers.length) }

/-- Go `timer.Stop()`: an armed timer becomes stopped, any other is left; in
particular `Stop` does not hold back a callback that has been started.  The
dispatcher ignores the boolean that `Stop` returns. -/
def stopTimer (timers : List Timer) (h : Nat) : List Timer :=
  match timers[h]? with
  | some t => if t.state = TimerState.armed then timers.set h { t with state := TimerState.stopped }
              else timers
  | none => timers

/-- Go `Dispatcher.cancelCommandTimeout`. -/
def cancelCommandTimeout (d : Dispatcher) (commandID : String) : Dispatcher :=
  match d.commandTimeouts commandID with
  | some h =>
    { d with timers := stopTimer d.timers h,
             commandTimeouts := Function.update d.commandTimeouts commandID none }
  | none => d

/-- Go `Dispatcher.handleCommandTimeout`. -/
def handleCommandTimeout (d : Dispatcher) (env : Env) (commandID : String) : Dispatcher :=
  let d := (d.updateCommandStatus env commandID CommandStatusTimeout).1
  { d with pendingCommands := Function.update d.pendingCommands commandID none,
           commandsTimeout := d.commandsTimeout + 1 }

/-- The block of `DispatchCommand` that fills in the command (source lines
64 to 77): generate the id if blank, default the timeout to 30 s if zero, set
status pending and the two timestamps. -/
def DispatchCommand.prepare (env : Env) (cmd : Command) : Command :=
  let cmd := if cmd.ID = "" then { cmd with ID := env.uuid } else cmd
  let cmd := if cmd.Timeout = 0 then { cmd with Timeout := 30 * Second } else cmd
  { cmd with Status := CommandStatusPending, CreatedAt := env.now, UpdatedAt := env.now }

/-- Go `Dispatcher.DispatchCommand`.  Returns the new dispatcher, the command
as mutated through the pointer, and the error (`none` is `nil`). -/
def DispatchCommand (d : Dispatcher) (env : Env) (cmd : Command) :
    Dispatcher × Command × Option String :=
  match validateCommand cmd with
  | some err => (d, cmd, some ("command validation failed: " ++ err))
  | none =>
    let cmd := DispatchCommand.prepare env cmd
    match d.registry.GetAgentByClusterID d.store cmd.ClusterID with
    | .error err => (d, cmd, some ("target cluster not found: " ++ err))
    | .ok targetAgent =>
      if targetAgent.Status ≠ AgentStatusOnline then (d, cmd, some "target agent is offline")
      else
        match d.store.SaveCommand env cmd with
        | .error err => (d, cmd, some ("failed to save command: " ++ err))
        | .ok store1 =>
          let d := { d with store := store1,
                            pendingCommands := Function.update d.pendingCommands cmd.ID (some cmd) }
          match d.nats.PublishCommand env cmd.ClusterID cmd with
          | (nats1, some err) =>
            let d := { d with nats := nats1 }
            let d := (d.updateCommandStatus env cmd.ID CommandStatusFailed).1
            (d, cmd, some ("failed to publish command: " ++ err))
          | (nats1, none) =>
            let d := { d with nats := nats1 }
            let d := (d.updateCommandStatus env cmd.ID CommandStatusSent).1
            let d := d.setupCommandTimeout cmd
            let d := { d with commandsIssued := d.commandsIssued + 1 }
            (d, cmd, none)

/-- Go `Dispatcher.HandleCommandResult`. -/
def HandleCommandResult (d : Dispatcher) (env : Env) (result : CommandResult) :
    Dispatcher × Option String :=
  match d.store.SaveCommandResult env result with
  | .error err => (d, some ("failed to save command result: " ++ err))
  | .ok store1 =>
    let d := { d with store := store1 }
    let status : CommandStatus :=
      if result.Status = "success" then CommandStatusCompleted else CommandStatusFailed
    let d :=
      if result.Status = "success" then { d with commandsCompleted := d.commandsCompleted + 1 }
      else { d with commandsFailed := d.commandsFailed + 1 }
    let d := (d.updateCommandStatus env result.CommandID status).1
    let d := d.cancelCommandTimeout result.CommandID
    let d := { d with pendingCommands := Function.update d.pendingCommands result.CommandID none }
    (d, none)

/-- The Go runtime reaching the deadline of timer `h`: an armed timer expires,
that is, its callback is started in a goroutine of its own and has not run
yet; any other timer is left. -/
def timerExpires (d : Dispatcher) (h : Nat) : Dispatcher :=
  match d.timers[h]? with
  | some t =>
    if t.state = TimerState.armed then
      { d with timers := d.timers.set h { t with state := TimerState.expired } }
    else d
  | none => d

/-- The started callback of timer `h` running: `handleCommandTimeout(cmd.ID)`.
It is a step of its own, which other calls on the dispatcher may precede:
the callback takes no lock before its status write and checks nothing. -/
def timerCallback (d : Dispatcher) (env : Env) (h : Nat) : Dispatcher :=
  match d.timers[h]? with
  | some t =>
    if t.state = TimerState.expired then
      handleCommandTimeout { d with timers := d.timers.set h { t with state := TimerState.fired } }
        env t.commandID
    else d
  | none => d

/-- Timer `h` firing with nothing in between: an armed timer reaches its
deadline and its callback `handleCommandTimeout(cmd.ID)` runs at once; a timer
that is not armed is left. -/
def timerFires (d : Dispatcher) (env : Env) (h : Nat) : Dispatcher :=
  match d.timers[h]? with
  | some t =>
    if t.state = TimerState.armed then
      handleCommandTimeout { d with timers := d.timers.set h { t with state := TimerState.fired } }
        env t.commandID
    else d
  | none => d

/-- The router delivering a message from `aetherius.agent.<clusterID>.result`:
the subscription callback is `Server.handleResult`, which acts on the server
only. -/
def deliverResult (d : Dispatcher) (unmarshal : String → Option CommandResult) (msg : Msg) :
    Dispatcher :=
  { d with nats := d.nats.handleResult unmarshal msg }

/-- One event on a dispatcher: a `DispatchCommand` call, a
`HandleCommandResult` call, a timer firing with its callback at once, a timer
reaching its deadline, or the started callback of a timer running. -/
inductive Op where
  | dispatch : Env → Command → Op
  | result : Env → CommandResult → Op
  | timer : Env → Nat → Op
  | expire : Nat → Op
  | callback : Env → Nat → Op

/-- The dispatcher after one event. -/
def step (d : Dispatcher) : Op → Dispatcher
  | .dispatch env cmd => (d.DispatchCommand env cmd).1
  | .result env r => (d.HandleCommandResult env r).1
  | .timer env h => d.timerFires env h
  | .expire h => d.timerExpires h
  | .callback env h => d.timerCallback env h

/-- The dispatcher after a sequence of events. -/
def run (d : Dispatcher) (ops : List Op) : Dispatcher :=
  ops.foldl step d

/-- The status of a command in the `commands` table, if the row exists. -/
def storedStatus (d : Dispatcher) (id : String) : Option CommandStatus :=
  (d.store.commands id).map (fun c => c.Status)

/-- The terminal statuses: completed, failed, timeout. -/
def isTerminal (s : CommandStatus) : Bool :=
  s == CommandStatusCompleted || s == CommandStatusFailed || s == CommandStatusTimeout

end Dispatcher

/-! ## Sample inputs -/

namespace Sample

/-- An environment in which no external call fails. -/
def env : Env :=
  { now := 1000, uuid := "3f2c1a9e-5b7d-4c8e-9f10-a1b2c3d4e5f6", saveCommandErr := false,
    updateStatusErr := false, saveResultErr := false, marshalErr := false, publishErr := false }

/-- An environment in which the bus publish fails. -/
def envPublishFails : Env :=
  { env with publishErr := true }

/-- The command of the dispatch scenario: `kubectl get pods` on cluster `c1`
with a timeout of two seconds. -/
def cmd : Command :=
  { ID := "cmd-1", ClusterID := "c1", Type_ := "diagnostic", Tool := "kubectl", Action := "get",
    Args := ["pods"], Namespace := "default", Timeout := 2 * Second, IssuedBy := "operator",
    CorrelationID := "", Status := "", CreatedAt := 0, UpdatedAt := 0 }

/-- A fresh dispatcher whose registry holds an online agent for cluster `c1`. -/
def dispatcher : Dispatcher :=
  Dispatcher.NewDispatcher
    { agents := [], commands := fun _ => none, commandResults := [] }
    { agents := [{ ID := "a1", ClusterID := "c1", Status := AgentStatusOnline, LastHeartbeat := 0 }] }
    { messagesReceived := 0, messagesSent := 0, errorCount := 0, published := [] }

/-- A successful result for the sample command. -/
def result : CommandResult :=
  { ID := "res-1", CommandID := "cmd-1", ClusterID := "c1", Status := "success", ExitCode := 0,
    Output := "pod-a Running", Error := "", ExecutionTime := 5 * Millisecond, Timestamp := 1500 }

/-- A JSON decoder for result messages that decodes the sample payload. -/
def unmarshal (data : String) : Option CommandResult :=
  if data = "sample-result-json" then some result else none

/-- The sample result as a bus message on the result subject of cluster `c1`. -/
def resultMsg : Msg :=
  { Subject := "aetherius.agent.c1.result", Data := "sample-result-json" }

/-- The sample dispatcher after the sample command was dispatched. -/
def dispatched : Dispatcher :=
  Dispatcher.run dispatcher [Dispatcher.Op.dispatch env cmd]

/-- The sample dispatcher after the command was dispatched and its timer
(timer 0) fired. -/
def timedOut : Dispatcher :=
  Dispatcher.run dispatcher [Dispatcher.Op.dispatch env cmd, Dispatcher.Op.timer env 0]

/-- The sample dispatcher after the command was dispatched and its result was
handled. -/
def resultHandled : Dispatcher :=
  Dispatcher.run dispatcher [Dispatcher.Op.dispatch env cmd, Dispatcher.Op.result env result]

/-- The sample dispatcher after the command was dispatched and its timer
reached the deadline: the callback is started and has not run. -/
def timerExpired : Dispatcher :=
  Dispatcher.run dispatcher [Dispatcher.Op.dispatch env cmd, Dispatcher.Op.expire 0]

/-- The sample dispatcher after the command was dispatched, its timer reached
the deadline, and the result was handled before the callback ran. -/
def resultAfterExpiry : Dispatcher :=
  Dispatcher.run dispatcher
    [Dispatcher.Op.dispatch env cmd, Dispatcher.Op.expire 0, Dispatcher.Op.result env result]

/-- An environment of the event pipeline in which no external call fails. -/
def pipelineEnv : PipelineEnv :=
  { env with lockErr := false, incrErr := false, getClusterErr := false, saveEventErr := false }

/-- The pipeline environment one second later. -/
def pipelineEnvLater : PipelineEnv :=
  { pipelineEnv with now := 1000 + 1 * Second }

/-- An empty durable store. -/
def emptyStore : PostgresStore :=
  { agents := [], commands := fun _ => none, commandResults := [] }

/-- An empty cache. -/
def emptyCache : RedisStore :=
  { data := fun _ => none }

/-- The event of the deduplication scenario: reason `CrashLoopBackOff`,
severity high, label name `p1`. -/
def crashEvent : Event :=
  { ID := "e1", ClusterID := "c1", Timestamp := 900, Type_ := "Warning", Source := "kubelet",
    Severity := "high", Reason := "CrashLoopBackOff", Message := "back-off restarting",
    Namespace := "default", Labels := [("name", "p1")] }

/-- The same observation arriving a second time under another event id. -/
def crashEventAgain : Event :=
  { crashEvent with ID := "e2", Timestamp := 901 }

/-- An event whose severity is not one of the four known ones. -/
def infoEvent : Event :=
  { crashEvent with ID := "e3", Severity := "info", Reason := "Pulled" }

/-- A registry environment at instant `now` in which no external call fails. -/
def registryEnv (now : Int) : RegistryEnv :=
  { now := now, getAgentErr := false, saveAgentErr := false, cacheAgentErr := false,
    setOnlineErr := false, updateHeartbeatErr := false, updateStatusErr := fun _ => false }

/-- A registry environment at instant `now` in which the status update of the
store fails. -/
def registryEnvStatusFails (now : Int) : RegistryEnv :=
  { registryEnv now with updateStatusErr := fun _ => true }

/-- The registration request of agent `a1` for cluster `c1`. -/
def agentA1 : Agent :=
  { ID := "a1", ClusterID := "c1", Status := AgentStatusRegistering, LastHeartbeat := 0 }

/-- A second registration request for cluster `c1`, carrying another id. -/
def agentA2 : Agent :=
  { ID := "a2", ClusterID := "c1", Status := AgentStatusRegistering, LastHeartbeat := 0,
    RegisteredAt := 77 }

/-- The registry after `a1` registered at instant 0. -/
def registered : RegistryState :=
  (Registry.RegisterAgent (Registry.NewRegistry emptyStore emptyCache) (registryEnv 0) agentA1).1

/-- The registry after `a1` registered at instant 0 and the sweeper ran at
61 s. -/
def swept : RegistryState :=
  Registry.checkHeartbeats registered (registryEnv (61 * Second))

/-- An event with reason `OOMKilling`. -/
def oomEvent : Event :=
  { ID := "e1", ClusterID := "c1", Timestamp := 900, Type_ := "Warning", Source := "kubelet",
    Severity := "high", Reason := "OOMKilling", Message := "container killed",
    Namespace := "default", Labels := [("name", "p1")] }

end Sample

end AgentManager

namespace Orchestrator

open Go

/-! ## `orchestrator-service/pkg/types/types.go` -/

/-- Go `type StepType string`. -/
abbrev StepType := String

abbrev StepTypeCommand : StepType := "command"
abbrev StepTypeAIAnalysis : StepType := "ai_analysis"
abbrev StepTypeDecision : StepType := "decision"
abbrev StepTypeRemediation : StepType := "remediation"
abbrev StepTypeNotification : StepType := "notification"
abbrev StepTypeWait : StepType := "wait"
abbrev StepTypeParallel : StepType := "parallel"

/-- Go `type ExecutionStatus string`. -/
abbrev ExecutionStatus := String

abbrev ExecutionStatusPending : ExecutionStatus := "pending"
abbrev ExecutionStatusRunning : ExecutionStatus := "running"
abbrev ExecutionStatusCompleted : ExecutionStatus := "completed"
abbrev ExecutionStatusFailed : ExecutionStatus := "failed"
abbrev ExecutionStatusCancelled : ExecutionStatus := "cancelled"
abbrev ExecutionStatusTimeout : ExecutionStatus := "timeout"

/-- Go `types.Condition`. -/
structure Condition where
  Field : String
  Operator : String
  Value : Value

/-- Go `types.RetryPolicy`.  `BackoffFactor` is a `float64` in the source; the
model carries whole-number factors, on which `float64(delay) * factor` followed
by the conversion back to a duration is exact integer multiplication (for
values below `2^53`). -/
structure RetryPolicy where
  MaxRetries : Int
  InitialDelay : Duration
  MaxDelay : Duration
  BackoffFactor : Int
deriving DecidableEq, Repr

/-- Go `types.WorkflowStep`. -/
structure WorkflowStep where
  ID : String
  Type_ : StepType
  Name : String
  Config : List (String × Value)
  Conditions : List Condition
  Timeout : Duration
  RetryPolicy : Option RetryPolicy
  OnSuccess : List String
  OnFailure : List String

/-- Go `types.StepExecution` (without the wall-clock fields). -/
structure StepExecution where
  StepID : String
  Status : ExecutionStatus
  Input : List (String × Value)
  Output : Option (List (String × Value))
  Error : String
  RetryCount : Int

/-- Go `types.WorkflowExecution` (without the wall-clock fields). -/
structure WorkflowExecution where
  ID : String
  WorkflowID : String
  TriggerEvent : List (String × Value)
  Status : ExecutionStatus
  StepExecutions : List StepExecution
  Context : List (String × Value)
  Error : String

/-- Go `types.Symptom`. -/
structure Symptom where
  Type_ : String
  Pattern : String
  Conditions : List (String × Value)

/-- Go `types.Strategy`. -/
structure Strategy where
  ID : String
  Name : String
  Category : String
  Symptoms : List Symptom
  WorkflowID : String
  Priority : Int
  Enabled : Bool

/-- Go `types.InternalEvent` of the orchestrator. -/
structure InternalEvent where
  Type_ : String
  ClusterID : String
  Severity : String
  Payload : List (String × Value)
  Timestamp : Int

/-! ## `orchestrator-service/internal/workflow/engine.go` -/

/-- Outcome of the step handlers of `workflow.Executor`, which call external
services.  The first argument is the number of handler invocations made before
this one, so a handler may fail on some attempts and succeed on others. -/
structure Executor where
  ExecuteCommand : Nat → WorkflowExecution → WorkflowStep → Except String (List (String × Value))
  ExecuteAIAnalysis : Nat → WorkflowExecution → WorkflowStep → Except String (List (String × Value))
  ExecuteDecision : Nat → WorkflowExecution → WorkflowStep → Except String (List (String × Value))
  ExecuteRemediation : Nat → WorkflowExecution → WorkflowStep → Except String (List (String × Value))
  ExecuteNotification : Nat → WorkflowExecution → WorkflowStep → Except String (List (String × Value))
  ExecuteWait : Nat → WorkflowExecution → WorkflowStep → Except String (List (String × Value))

namespace Engine

/-- Go `Engine.prepareStepInput`: the step config, then the three execution
entries (a later entry for a key replaces an earlier one). -/
def prepareStepInput (execution : WorkflowExecution) (step : WorkflowStep) :
    List (String × Value) :=
  let input := step.Config.filter
    (fun kv => kv.1 != "execution_id" && kv.1 != "workflow_id" && kv.1 != "trigger_event")
  input ++ [("execution_id", Value.str execution.ID), ("workflow_id", Value.str execution.WorkflowID),
            ("trigger_event", Value.obj execution.TriggerEvent)]

/-- The loop of `calculateRetryDelay`: `n` iterations are left and `delay` is
the current value. -/
def calculateRetryDelay.loop (policy : RetryPolicy) : Nat → Duration → Duration
  | 0, delay => delay
  | n + 1, delay =>
    let delay := delay * policy.BackoffFactor
    if delay > policy.MaxDelay then policy.MaxDelay
    else calculateRetryDelay.loop policy n delay

/-- Go `Engine.calculateRetryDelay`: the loop `for i := 1; i < retryCount; i++`
runs `retryCount - 1` times (not at all when `retryCount ≤ 1`). -/
def calculateRetryDelay (policy : RetryPolicy) (retryCount : Int) : Duration :=
  calculateRetryDelay.loop policy (retryCount - 1).toNat policy.InitialDelay

/-- The `switch step.Type` of `executeStep`: the handler outcome and whether a
handler was invoked (an unknown type fails without one). -/
def dispatchStep (ex : Executor) (calls : Nat) (execution : WorkflowExecution)
    (step : WorkflowStep) : Except String (List (String × Value)) × Nat :=
  if step.Type_ = StepTypeCommand then (ex.ExecuteCommand calls execution step, calls + 1)
  else if step.Type_ = StepTypeAIAnalysis then (ex.ExecuteAIAnalysis calls execution step, calls + 1)
  else if step.Type_ = StepTypeDecision then (ex.ExecuteDecision calls execution step, calls + 1)
  else if step.Type_ = StepTypeRemediation then (ex.ExecuteRemediation calls execution step, calls + 1)
  else if step.Type_ = StepTypeNotification then
    (ex.ExecuteNotification calls execution step, calls + 1)
  else if step.Type_ = StepTypeWait then (ex.ExecuteWait calls execution step, calls + 1)
  else (.error ("unknown step type: " ++ step.Type_), calls)

/-- What a run of `executeStep` did: the value it returned (the step execution
and the error), if it returned within the recursion budget; the number of
handler invocations made; the delays slept before retries, in order. -/
structure StepRun where
  returned : Option (StepExecution × Option String)
  calls : Nat
  sleeps : List Duration

/-- Go `Engine.executeStep`.  The source recurses for a retry; `fuel` bounds
the recursion depth and `calls` counts the handler invocations made so far.
Every activation builds its own `stepExec`, whose `RetryCount` starts at 0. -/
def executeStep (ex : Executor) (execution : WorkflowExecution) (step : WorkflowStep) :
    Nat → Nat → StepRun
  | 0, calls => { returned := none, calls := calls, sleeps := [] }
  | fuel + 1, calls =>
    let stepExec : StepExecution :=
      { StepID := step.ID, Status := ExecutionStatusRunning,
        Input := prepareStepInput execution step, Output := none, Error := "", RetryCount := 0 }
    let r := dispatchStep ex calls execution step
    match r.1 with
    | .error err =>
      let stepExec := { stepExec with Status := ExecutionStatusFailed, Error := err }
      match step.RetryPolicy with
      | some policy =>
        if stepExec.RetryCount < policy.MaxRetries then
          let stepExec := { stepExec with RetryCount := stepExec.RetryCount + 1 }
          let delay := calculateRetryDelay policy stepExec.RetryCount
          let rest := executeStep ex execution step fuel r.2
          { rest with sleeps := delay :: rest.sleeps }
        else { returned := some (stepExec, some err), calls := r.2, sleeps := [] }
      | none => { returned := some (stepExec, some err), calls := r.2, sleeps := [] }
    | .ok output =>
      { returned :=
          some ({ stepExec with Output := some output, Status := ExecutionStatusCompleted }, none),
        calls := r.2, sleeps := [] }

end Engine

/-- Go `type WorkflowStatus string`. -/
abbrev WorkflowStatus := String

abbrev WorkflowStatusActive : WorkflowStatus := "active"
abbrev WorkflowStatusInactive : WorkflowStatus := "inactive"
abbrev WorkflowStatusDraft : WorkflowStatus := "draft"

/-- Go `types.Workflow`. -/
structure Workflow where
  ID : String
  Name : String
  TriggerType : String
  Steps : List WorkflowStep
  Status : WorkflowStatus
  Priority : Int
  Timeout : Duration

/-- A call made to the durable store by the engine.  The engine drops the
error of every such call, so the calls themselves are what is recorded. -/
inductive StoreCall where
  | SaveWorkflowExecution : WorkflowExecution → StoreCall
  | UpdateWorkflowExecutionStatus : String → ExecutionStatus → StoreCall

/-- Go `workflow.Engine`: the in-memory executions, the metric counters, and
the log of the calls made to the store. -/
structure Engine where
  executions : String → Option WorkflowExecution
  executionsStarted : Nat
  executionsCompleted : Nat
  executionsFailed : Nat
  storeCalls : List StoreCall

namespace Engine

/-- Go `contains` of `engine.go`: `len(s) >= len(substr) && s[:len(substr)]
== substr`.  The source compares bytes; for well-formed UTF-8 strings the test
holds for the bytes exactly when it holds for the characters, which the model
compares. -/
def contains (s substr : String) : Bool :=
  decide (s.data.length ≥ substr.data.length) && (s.data.take substr.data.length == substr.data)

/-- Go `Engine.evaluateCondition`; `none` is the run-time panic of `==` on
uncomparable values. -/
def evaluateCondition (execution : WorkflowExecution) (condition : Condition) : Option Bool :=
  match execution.Context.lookup condition.Field with
  | none => some false
  | some value =>
    if condition.Operator = "eq" then value.goEq condition.Value
    else if condition.Operator = "ne" then (value.goEq condition.Value).map (fun b => !b)
    else if condition.Operator = "gt" then
      match value, condition.Value with
      | Value.num v, Value.num cv => some (decide (v > cv))
      | _, _ => some false
    else if condition.Operator = "lt" then
      match value, condition.Value with
      | Value.num v, Value.num cv => some (decide (v < cv))
      | _, _ => some false
    else if condition.Operator = "contains" then
      match value, condition.Value with
      | Value.str v, Value.str cv => some (contains v cv)
      | _, _ => some false
    else some false

/-- The loop of `shouldExecuteStep` over the conditions: it stops at the first
condition that is false. -/
def shouldExecuteStep.loop (execution : WorkflowExecution) : List Condition → Option Bool
  | [] => some true
  | condition :: rest =>
    match evaluateCondition execution condition with
    | none => none
    | some false => some false
    | some true => shouldExecuteStep.loop execution rest

/-- Go `Engine.shouldExecuteStep`. -/
def shouldExecuteStep (execution : WorkflowExecution) (step : WorkflowStep) : Option Bool :=
  shouldExecuteStep.loop execution step.Conditions

/-- The context key under which `executeWorkflow` stores the entry `k` of the
output of step `stepID`: `fmt.Sprintf("step_%s_%s", step.ID, k)`. -/
def contextKey (stepID k : String) : String :=
  "step_" ++ stepID ++ "_" ++ k

/-- The block of `executeWorkflow` that merges a step output into the
context. -/
def mergeOutput (context : List (String × Value)) (stepID : String)
    (output : List (String × Value)) : List (String × Value) :=
  output.foldl (fun ctx kv => mapSet ctx (contextKey stepID kv.1) kv.2) context

/-- Go `Engine.completeExecution`. -/
def completeExecution (e : Engine) (execution : WorkflowExecution) (status : ExecutionStatus)
    (errorMsg : String) : Engine × WorkflowExecution :=
  let execution := { execution with Status := status }
  let execution := if errorMsg ≠ "" then { execution with Error := errorMsg } else execution
  let e := { e with storeCalls := e.storeCalls ++ [StoreCall.SaveWorkflowExecution execution] }
  let e :=
    if status = ExecutionStatusCompleted then
      { e with executionsCompleted := e.executionsCompleted + 1 }
    else { e with executionsFailed := e.executionsFailed + 1 }
  (e, execution)

/-- Go `Engine.handleStepFailure`. -/
def handleStepFailure (e : Engine) (execution : WorkflowExecution) (err : String) :
    Engine × WorkflowExecution :=
  completeExecution e execution ExecutionStatusFailed err

/-- Go `Engine.executeFailureBranch`. -/
def executeFailureBranch (e : Engine) (execution : WorkflowExecution) :
    Engine × WorkflowExecution :=
  completeExecution e execution ExecutionStatusFailed "Failure branch executed"

/-- How a run of `executeWorkflow` ended. -/
inductive Outcome where
  | returned : Outcome
  | stepDidNotReturn : Outcome
  | panicked : Outcome
deriving DecidableEq, Repr

/-- What a run of `executeWorkflow` did: the engine and the execution as they
are when the run ends, how it ended, and the handler invocations made. -/
structure WorkflowRun where
  engine : Engine
  execution : WorkflowExecution
  outcome : Outcome
  calls : Nat

/-- The step loop of `executeWorkflow` with what follows it.  `fuel` is the
recursion budget given to each `executeStep`. -/
def executeWorkflow.loop (ex : Executor) (fuel : Nat) :
    List WorkflowStep → Engine → WorkflowExecution → Nat → WorkflowRun
  | [], e, execution, calls =>
    let r := completeExecution e execution ExecutionStatusCompleted ""
    { engine := r.1, execution := r.2, outcome := Outcome.returned, calls := calls }
  | step :: rest, e, execution, calls =>
    match shouldExecuteStep execution step with
    | none => { engine := e, execution := execution, outcome := Outcome.panicked, calls := calls }
    | some false => executeWorkflow.loop ex fuel rest e execution calls
    | some true =>
      let run := executeStep ex execution step fuel calls
      match run.returned with
      | none =>
        { engine := e, execution := execution, outcome := Outcome.stepDidNotReturn,
          calls := run.calls }
      | some (_, some err) =>
        let r := handleStepFailure e execution err
        { engine := r.1, execution := r.2, outcome := Outcome.returned, calls := run.calls }
      | some (stepExec, none) =>
        let execution := { execution with StepExecutions := execution.StepExecutions ++ [stepExec] }
        let execution :=
          match stepExec.Output with
          | some output => { execution with Context := mergeOutput execution.Context step.ID output }
          | none => execution
        let e := { e with storeCalls := e.storeCalls ++ [StoreCall.SaveWorkflowExecution execution] }
        if stepExec.Status = ExecutionStatusFailed then
          let r :=
            if step.OnFailure.length > 0 then executeFailureBranch e execution
            else completeExecution e execution ExecutionStatusFailed
              ("Step " ++ step.ID ++ " failed")
          { engine := r.1, execution := r.2, outcome := Outcome.returned, calls := run.calls }
        else executeWorkflow.loop ex fuel rest e execution run.calls

/-- Go `Engine.executeWorkflow`: set the status to running, walk the steps,
and on return remove the execution from the in-memory map (the deferred
function). -/
def executeWorkflow (e : Engine) (ex : Executor) (fuel : Nat) (workflow : Workflow)
    (execution : WorkflowExecution) : WorkflowRun :=
  let execution := { execution with Status := ExecutionStatusRunning }
  let e := { e with storeCalls := e.storeCalls ++
    [StoreCall.UpdateWorkflowExecutionStatus execution.ID ExecutionStatusRunning] }
  let run := executeWorkflow.loop ex fuel workflow.Steps e execution 0
  match run.outcome with
  | Outcome.returned =>
    { run with engine :=
        { run.engine with executions := Function.update run.engine.executions execution.ID none } }
  | _ => run

end Engine

/-! ## `orchestrator-service/internal/storage/postgres.go` -/

/-- The strategies table of the durable store of the orchestrator, as its rows
in table order. -/
structure PostgresStore where
  strategies : List Strategy

/-- Go `PostgresStore.ListStrategies`: the enabled rows (all rows without
`enabledOnly`), `ORDER BY priority DESC`.  SQL leaves the order among rows of
equal priority open; the model keeps their table order. -/
def PostgresStore.ListStrategies (s : PostgresStore) (fail : Bool) (enabledOnly : Bool) :
    Except String (List Strategy) :=
  if fail then .error "database error"
  else
    let rows := if enabledOnly then s.strategies.filter (fun x => x.Enabled) else s.strategies
    .ok (List.insertionSort (fun a b : Strategy => a.Priority ≥ b.Priority) rows)

/-! ## `orchestrator-service/internal/strategy/manager.go` -/

/-- The bus carrying an internal event from the agent manager to the
orchestrator: JSON encoding and decoding keep every field. -/
def decodeInternalEvent (e : AgentManager.InternalEvent) : InternalEvent :=
  { Type_ := e.Type_, ClusterID := e.ClusterID, Severity := e.Severity, Payload := e.Payload,
    Timestamp := e.Timestamp }

namespace Manager

/-- Go `Manager.symptomMatches`. -/
def symptomMatches (event : InternalEvent) (symptom : Symptom) : Bool :=
  match event.Payload.lookup "event" with
  | some (Value.obj payload) =>
    if symptom.Type_ = "event" then
      match payload.lookup "reason" with
      | some (Value.str reason) => reason == symptom.Pattern
      | _ => false
    else false
  | _ => false

/-- Go `Manager.calculateMatchScore`. -/
def calculateMatchScore (event : InternalEvent) (strategy : Strategy) : Int :=
  strategy.Symptoms.foldl (fun score symptom => if symptomMatches event symptom then score + 10 else score) 0

/-- The loop of `MatchStrategy` over the listed strategies: the state is
`bestMatch` and `bestScore`. -/
def MatchStrategy.loop (event : InternalEvent) (strategies : List Strategy) :
    Option Strategy × Int :=
  strategies.foldl
    (fun best strategy =>
      let score := calculateMatchScore event strategy
      if score > best.2 then (some strategy, score) else best)
    (none, 0)

/-- Go `Manager.MatchStrategy`; `listed` is the outcome of
`store.ListStrategies(ctx, true)`. -/
def MatchStrategy (listed : Except String (List Strategy)) (event : InternalEvent) :
    Except String Strategy :=
  match listed with
  | .error err => .error ("failed to list strategies: " ++ err)
  | .ok strategies =>
    match (MatchStrategy.loop event strategies).1 with
    | none => .error "no matching strategy found"
    | some bestMatch => .ok bestMatch

end Manager

/-! ## `orchestrator-service/internal/workflow/executor.go` -/

/-- Go `Executor.ExecuteNotification`, which never fails; `now` is the reading
of `time.Now()`, held in the output as a number. -/
def ExecuteNotification (now : Int) (step : WorkflowStep) : List (String × Value) :=
  let channel := Value.asString (step.Config.lookup "channel")
  let message := Value.asString (step.Config.lookup "message")
  [("channel", Value.str channel), ("message", Value.str message), ("sent_at", Value.num now),
   ("status", Value.str "sent")]

/-- Go `Executor.ExecuteRemediation`, which never fails. -/
def ExecuteRemediation (step : WorkflowStep) : List (String × Value) :=
  let actionType := Value.asString (step.Config.lookup "action_type")
  let action := Value.asString (step.Config.lookup "action")
  [("action_type", Value.str actionType), ("action", Value.str action),
   ("status", Value.str "completed"),
   ("message", Value.str ("Remediation action " ++ action ++ " executed"))]

/-! ## Sample inputs -/

namespace Sample

/-- A handler set in which every handler fails on every attempt. -/
def failingExecutor : Executor :=
  { ExecuteCommand := fun _ _ _ => .error "connection refused",
    ExecuteAIAnalysis := fun _ _ _ => .error "connection refused",
    ExecuteDecision := fun _ _ _ => .error "connection refused",
    ExecuteRemediation := fun _ _ _ => .error "connection refused",
    ExecuteNotification := fun _ _ _ => .error "connection refused",
    ExecuteWait := fun _ _ _ => .error "connection refused" }

/-- A retry policy with one retry, 100 ms initial delay, factor 2. -/
def policy : RetryPolicy :=
  { MaxRetries := 1, InitialDelay := 100 * Millisecond, MaxDelay := 10 * Second, BackoffFactor := 2 }

/-- A retry policy whose initial delay is above its maximum delay. -/
def policyInitialAboveMax : RetryPolicy :=
  { MaxRetries := 3, InitialDelay := 5 * Second, MaxDelay := 1 * Second, BackoffFactor := 2 }

/-- A command step with the sample retry policy. -/
def step : WorkflowStep :=
  { ID := "s1", Type_ := StepTypeCommand, Name := "get pods", Config := [], Conditions := [],
    Timeout := 30 * Second, RetryPolicy := some policy, OnSuccess := [], OnFailure := [] }

/-- A running execution with an empty context. -/
def execution : WorkflowExecution :=
  { ID := "x1", WorkflowID := "w1", TriggerEvent := [], Status := ExecutionStatusRunning,
    StepExecutions := [], Context := [], Error := "" }

/-- An execution whose context holds the string `pod OOMKilled` under
`analysis`. -/
def oomExecution : WorkflowExecution :=
  { execution with Context := [("analysis", Value.str "pod OOMKilled")] }

/-- The condition `analysis contains "OOM"`. -/
def containsCondition : Condition :=
  { Field := "analysis", Operator := "contains", Value := Value.str "OOM" }

/-- An engine with no executions and no store calls. -/
def engine : Engine :=
  { executions := fun _ => none, executionsStarted := 0, executionsCompleted := 0,
    executionsFailed := 0, storeCalls := [] }

/-- An analysis step with the given id and no retry policy. -/
def analysisStep (id : String) : WorkflowStep :=
  { ID := id, Type_ := StepTypeAIAnalysis, Name := id, Config := [], Conditions := [],
    Timeout := 30 * Second, RetryPolicy := none, OnSuccess := [], OnFailure := [] }

/-- A notification step with the given id and no retry policy. -/
def notifyStep (id : String) : WorkflowStep :=
  { ID := id, Type_ := StepTypeNotification, Name := id, Config := [], Conditions := [],
    Timeout := 30 * Second, RetryPolicy := none, OnSuccess := [], OnFailure := [] }

/-- A workflow of two steps with the distinct ids `check` and `check_pod`: an
analysis step followed by a notification step. -/
def twoStepWorkflow : Workflow :=
  { ID := "w1", Name := "pod check", TriggerType := "event",
    Steps := [analysisStep "check", notifyStep "check_pod"], Status := WorkflowStatusActive,
    Priority := 1, Timeout := 60 * Second }

/-- The workflow of the first of the two steps alone. -/
def firstStepWorkflow : Workflow :=
  { twoStepWorkflow with Steps := [analysisStep "check"] }

/-- Handlers against a reasoning service that answers every analysis request
with `{pod_status: "CrashLoopBackOff"}` (`ExecuteAIAnalysis` returns the reply
of the service as it is); the notification handler is `ExecuteNotification`,
with the clock at `1000 + n` at the `n`-th invocation; the other handlers
fail. -/
def outputExecutor : Executor :=
  { failingExecutor with
    ExecuteAIAnalysis := fun _ _ _ => .ok [("pod_status", Value.str "CrashLoopBackOff")],
    ExecuteNotification := fun n _ step => .ok (ExecuteNotification (1000 + n) step) }

/-- An internal event whose payload carries the reason at
`payload.event.reason`, where `symptomMatches` reads it. -/
def nestedOomEvent : InternalEvent :=
  { Type_ := "critical", ClusterID := "c1", Severity := "critical",
    Payload := [("event", Value.obj [("reason", Value.str "OOMKilling")])], Timestamp := 1000 }

/-- A strategy with the given id, priority 1 and the symptom of type event
with pattern `OOMKilling`. -/
def oomStrategyWithID (id : String) : Strategy :=
  { ID := id, Name := "oom " ++ id, Category := "pod_failure",
    Symptoms := [{ Type_ := "event", Pattern := "OOMKilling", Conditions := [] }],
    WorkflowID := "W", Priority := 1, Enabled := true }

/-- A strategies table holding the strategy `b` before the strategy `a`. -/
def store : PostgresStore :=
  { strategies := [oomStrategyWithID "b", oomStrategyWithID "a"] }

/-- A strategy with the symptom of type event and pattern `OOMKilling`. -/
def oomStrategy : Strategy :=
  { ID := "S", Name := "oom", Category := "pod_failure",
    Symptoms := [{ Type_ := "event", Pattern := "OOMKilling", Conditions := [] }],
    WorkflowID := "W", Priority := 1, Enabled := true }

end Sample

end Orchestrator


/-! # `collect-agent` -/

namespace Go

/-- Go `strings.Join`. -/
def stringsJoin (elems : List String) (sep : String) : String :=
  sep.intercalate elems

/-- Go `strings.ToLower`.  Go maps every Unicode letter to its lower case; the
model maps the letters `A` to `Z` and leaves every other character, which is
the same function on ASCII text. -/
def stringsToLower (s : String) : String :=
  String.mk (s.data.map Char.toLower)

/-- Whether `sub` occurs in `s` as a run of consecutive characters. -/
def containsChars (sub : List Char) : List Char → Bool
  | [] => sub.isEmpty
  | c :: cs => sub.isPrefixOf (c :: cs) || containsChars sub cs

/-- Go `strings.Contains`. -/
def stringsContains (s substr : String) : Bool :=
  containsChars substr.data s.data

/-- A byte of a Go string. -/
abbrev Byte := Fin 256

/-- The bytes of a string literal of ASCII characters. -/
def asciiBytes (s : String) : List Byte :=
  s.data.map (fun c => Fin.ofNat c.toNat)

end Go

namespace CollectAgent

open Go

/-! ## `collect-agent/internal/types/types.go` -/

/-- Go `types.Command` of the collect agent (without the creation instant). -/
structure Command where
  ID : String
  Type_ : String
  Tool : String
  Action : String
  Args : List String
  Env : List (String × String) := []
  Timeout : Duration := 0
deriving DecidableEq, Repr

/-- Go `types.CommandResult` (without the wall-clock fields).  `Output` is a
Go string, a sequence of bytes. -/
structure CommandResult where
  CommandID : String
  ClusterID : String
  Status : String
  Output : List Byte
  Error : String
deriving DecidableEq, Repr

/-- Go `types.AgentConfig`. -/
structure AgentConfig where
  ClusterID : String
  CentralEndpoint : String
  ReconnectDelay : Duration
  HeartbeatInterval : Duration
  MetricsInterval : Duration
  BufferSize : Int
  MaxRetries : Int
  LogLevel : String
  EnableMetrics : Bool
  EnableEvents : Bool
deriving DecidableEq, Repr

/-- Go `types.DefaultConfig`. -/
def DefaultConfig : AgentConfig :=
  { ClusterID := "", CentralEndpoint := "nats://localhost:4222", ReconnectDelay := 5 * Second,
    HeartbeatInterval := 30 * Second, MetricsInterval := 60 * Second, BufferSize := 1000,
    MaxRetries := 10, LogLevel := "info", EnableMetrics := true, EnableEvents := true }

/-! ## `collect-agent/internal/config/config.go` -/

/-- The `validLogLevels` map literal of `validateConfig`. -/
def validLogLevels : List (String × Bool) :=
  [("debug", true), ("info", true), ("warn", true), ("error", true), ("fatal", true)]

/-- Go `validateConfig`; `none` is the `nil` error. -/
def validateConfig (config : AgentConfig) : Option String :=
  if config.CentralEndpoint = "" then some "central_endpoint is required"
  else if config.ReconnectDelay < Second then some "reconnect_delay must be at least 1 second"
  else if config.HeartbeatInterval < 10 * Second then
    some "heartbeat_interval must be at least 10 seconds"
  else if config.MetricsInterval < 30 * Second then
    some "metrics_interval must be at least 30 seconds"
  else if config.BufferSize < 10 then some "buffer_size must be at least 10"
  else if config.MaxRetries < 1 then some "max_retries must be at least 1"
  else if !((validLogLevels.lookup config.LogLevel).getD false) then
    some ("invalid log_level: " ++ config.LogLevel ++
      ", must be one of: debug, info, warn, error, fatal")
  else none

/-! ## `collect-agent/internal/agent/command_executor.go` -/

/-- Go `agent.CommandExecutor`: the cluster id and the `allowedTools` table,
tool name to allowed actions. -/
structure CommandExecutor where
  clusterID : String
  allowedTools : List (String × List String)
deriving DecidableEq, Repr

/-- Go `NewCommandExecutor`. -/
def NewCommandExecutor (clusterID : String) : CommandExecutor :=
  { clusterID := clusterID,
    allowedTools :=
      [("kubectl", ["get", "describe", "logs", "top", "explain", "version", "cluster-info",
          "api-resources", "api-versions"]),
       ("ps", ["aux", "-ef"]),
       ("df", ["-h"]),
       ("free", ["-h"]),
       ("uptime", []),
       ("uname", ["-a"]),
       ("whoami", []),
       ("ping", ["-c", "3"]),
       ("nslookup", []),
       ("dig", []),
       ("curl", ["-I", "-s", "--connect-timeout", "5"]),
       ("wget", ["--spider", "-T", "5"])] }

/-- A process started through `exec.CommandContext`: the program, its
arguments, and the environment when one was set (`none` inherits it). -/
structure Process where
  name : String
  args : List String
  env : Option (List String)
deriving DecidableEq, Repr

/-- What `CombinedOutput` gives for a process: the bytes written, the error,
and whether the deadline of the context had passed. -/
structure ProcessOutcome where
  output : List Byte
  err : Option String
  deadlineExceeded : Bool
deriving DecidableEq, Repr

/-- The operating system as the executor sees it: the outcome of running a
process, and the environment of the agent. -/
structure ExecEnv where
  run : Process → ProcessOutcome
  environ : List String

namespace CommandExecutor

/-- The `dangerousPatterns` slice literal of `checkArgumentSafety`. -/
def dangerousPatterns : List String :=
  ["rm ", "delete", "destroy", "kill", "terminate",
   "sudo", "su", "chmod", "chown",
   "mount", "umount", "mkfs", "dd",
   "iptables", "ip route", "ifconfig",
   "systemctl", "service", "init.d",
   "crontab", "at ",
   "curl -X POST", "curl -X PUT", "curl -X DELETE",
   "wget -O", "wget --post",
   "ssh", "scp", "rsync",
   "docker run", "docker exec",
   "&&", "||", ";", "|", ">", ">>", "<",
   "$(", "\x60", "$\x7b"]

/-- Go `CommandExecutor.checkArgumentSafety`; `none` is the `nil` error. -/
def checkArgumentSafety (args : List String) : Option String :=
  let argString := stringsJoin args " "
  let argStringLower := stringsToLower argString
  match dangerousPatterns.find? (fun pattern =>
      stringsContains argStringLower (stringsToLower pattern)) with
  | some pattern => some ("dangerous pattern detected in arguments: '" ++ pattern ++ "'")
  | none => none

/-- The loop over the arguments in the `logs` case of
`validateKubectlCommand`. -/
def validateKubectlCommand.logsLoop : List String → Option String
  | [] => none
  | arg :: rest =>
    if arg = "--follow" ∨ arg = "-f" then
      some "following logs is not allowed for safety reasons"
    else validateKubectlCommand.logsLoop rest

/-- Go `CommandExecutor.validateKubectlCommand`. -/
def validateKubectlCommand (cmd : Command) (allowedActions : List String) : Option String :=
  if !(allowedActions.any (fun allowedAction => cmd.Action == allowedAction)) then
    some ("kubectl action '" ++ cmd.Action ++ "' is not allowed")
  else if cmd.Action = "logs" then validateKubectlCommand.logsLoop cmd.Args
  else none

/-- Go `CommandExecutor.validateCommand`. -/
def validateCommand (ce : CommandExecutor) (cmd : Command) : Option String :=
  match ce.allowedTools.lookup cmd.Tool with
  | none => some ("tool '" ++ cmd.Tool ++ "' is not allowed")
  | some allowedActions =>
    if cmd.Tool = "kubectl" then validateKubectlCommand cmd allowedActions
    else if allowedActions.length > 0 ∧
        !(allowedActions.any (fun allowedAction => cmd.Action == allowedAction)) then
      some ("action '" ++ cmd.Action ++ "' is not allowed for tool '" ++ cmd.Tool ++ "'")
    else checkArgumentSafety cmd.Args

/-- The `maxOutputSize` of `executeDiagnosticCommand`: 1 MiB. -/
def maxOutputSize : Nat := 1024 * 1024

/-- The marker appended to a truncated output. -/
def truncationMarker : List Byte := asciiBytes "\n... (output truncated)"

/-- The process built by `executeDiagnosticCommand`. -/
def executeDiagnosticCommand.process (env : ExecEnv) (cmd : Command) : Process :=
  let args :=
    if cmd.Tool = "kubectl" then cmd.Action :: cmd.Args
    else if cmd.Action ≠ "" then cmd.Action :: cmd.Args
    else cmd.Args
  let name := if cmd.Tool = "kubectl" then "kubectl" else cmd.Tool
  let environ :=
    if cmd.Env.length > 0 then some (env.environ ++ cmd.Env.map (fun kv => kv.1 ++ "=" ++ kv.2))
    else none
  { name := name, args := args, env := environ }

/-- Go `CommandExecutor.executeDiagnosticCommand`: the result after the call
and the process that was run. -/
def executeDiagnosticCommand (env : ExecEnv) (cmd : Command) (result : CommandResult) :
    CommandResult × Process :=
  let p := executeDiagnosticCommand.process env cmd
  let outcome := env.run p
  let result :=
    match outcome.err with
    | some err =>
      if outcome.deadlineExceeded then
        { result with Status := "timeout", Error := "Command execution timed out" }
      else { result with Status := "failed", Error := err }
    | none => result
  let result := { result with Output := outcome.output }
  let result :=
    if result.Output.length > maxOutputSize then
      { result with Output := result.Output.take maxOutputSize ++ truncationMarker }
    else result
  (result, p)

/-- Go `CommandExecutor.executeInfoCommand`. -/
def executeInfoCommand (env : ExecEnv) (cmd : Command) (result : CommandResult) :
    CommandResult × Process :=
  executeDiagnosticCommand env cmd result

/-- Go `CommandExecutor.Execute`: the result, and the processes that were
run. -/
def Execute (ce : CommandExecutor) (env : ExecEnv) (cmd : Command) :
    CommandResult × List Process :=
  let result : CommandResult :=
    { CommandID := cmd.ID, ClusterID := ce.clusterID, Status := "success", Output := [],
      Error := "" }
  match ce.validateCommand cmd with
  | some err =>
    ({ result with Status := "failed", Error := "Command validation failed: " ++ err }, [])
  | none =>
    if cmd.Type_ = "diagnostic" then
      let r := executeDiagnosticCommand env cmd result
      (r.1, [r.2])
    else if cmd.Type_ = "info" then
      let r := executeInfoCommand env cmd result
      (r.1, [r.2])
    else ({ result with Status := "failed", Error := "Unknown command type: " ++ cmd.Type_ }, [])

end CommandExecutor

/-! ## `collect-agent/internal/utils/errors.go` -/

/-- A Go `error` value as this package builds it: a value of `errors.New`
(the package-level values are told apart by their text), a `*AgentError`
around an inner error or around `nil`, or a value of `fmt.Errorf` with `%w`
around an inner error. -/
inductive GoError where
  | new : String → GoError
  | agent : String → GoError → Bool → GoError
  | agentNil : String → Bool → GoError
  | wrap : String → GoError → GoError
deriving DecidableEq, Repr

/-- Go `errors.As(err, &agentErr)` followed by `agentErr.IsRetryable()`: the
flag of the first `*AgentError` of the chain, if there is one. -/
def GoError.asAgentError : GoError → Option Bool
  | .new _ => none
  | .agent _ _ retryable => some retryable
  | .agentNil _ retryable => some retryable
  | .wrap _ err => err.asAgentError

/-- Go `errors.Is(err, target)` for a target made by `errors.New` with the
text `target`. -/
def GoError.is : GoError → String → Bool
  | .new text, target => text == target
  | .agent _ err _, target => err.is target
  | .agentNil _ _, _ => false
  | .wrap _ err, target => err.is target

/-- Go `ErrNATSConnectionFailed`. -/
def ErrNATSConnectionFailed : GoError := .new "failed to connect to NATS"

/-- Go `ErrNATSDisconnected`. -/
def ErrNATSDisconnected : GoError := .new "NATS connection lost"

/-- Go `ErrPublishFailed`. -/
def ErrPublishFailed : GoError := .new "failed to publish message"

/-- Go `ErrInvalidConfig`. -/
def ErrInvalidConfig : GoError := .new "invalid configuration"

/-- Go `IsRetryableError`. -/
def IsRetryableError (err : GoError) : Bool :=
  match err.asAgentError with
  | some retryable => retryable
  | none =>
    err.is "failed to connect to NATS" || err.is "NATS connection lost" ||
      err.is "failed to publish message"

/-- Go `utils.RetryConfig`.  `BackoffFactor` is a `float64` in the source; the
model carries whole-number factors, as for the retry policy of a step. -/
structure RetryConfig where
  MaxRetries : Int
  InitialDelay : Duration
  MaxDelay : Duration
  BackoffFactor : Int
deriving DecidableEq, Repr

/-- Go `DefaultRetryConfig`. -/
def DefaultRetryConfig : RetryConfig :=
  { MaxRetries := 3, InitialDelay := 1 * Second, MaxDelay := 30 * Second, BackoffFactor := 2 }

/-- What a run of `RetryWithBackoff` did: the error returned (`none` is
`nil`), the number of invocations of `fn`, and the delays slept, in order. -/
structure RetryRun where
  result : Option GoError
  calls : Nat
  sleeps : List Duration
deriving DecidableEq, Repr

/-- The loop `for attempt := 0; attempt <= config.MaxRetries; attempt++` of
`RetryWithBackoff` with the return that follows it.  `remaining` iterations
are left; `fn k` is the outcome of the invocation of `fn` after `k` earlier
ones. -/
def RetryWithBackoff.loop (config : RetryConfig) (fn : Nat → Option GoError) :
    Nat → Nat → Duration → Option GoError → List Duration → RetryRun
  | 0, attempt, _, lastErr, sleeps =>
    match lastErr with
    | some err =>
      { result := some (.wrap "max retries exceeded" err), calls := attempt, sleeps := sleeps }
    | none =>
      { result := some (.new "max retries exceeded: %!w(<nil>)"), calls := attempt,
        sleeps := sleeps }
  | remaining + 1, attempt, delay, _, sleeps =>
    let sleeps := if attempt > 0 then sleeps ++ [delay] else sleeps
    let delay :=
      if attempt > 0 then
        if delay * config.BackoffFactor > config.MaxDelay then config.MaxDelay
        else delay * config.BackoffFactor
      else delay
    match fn attempt with
    | none => { result := none, calls := attempt + 1, sleeps := sleeps }
    | some err =>
      if !IsRetryableError err then { result := some err, calls := attempt + 1, sleeps := sleeps }
      else RetryWithBackoff.loop config fn remaining (attempt + 1) delay (some err) sleeps

/-- Go `RetryWithBackoff`. -/
def RetryWithBackoff (config : RetryConfig) (fn : Nat → Option GoError) : RetryRun :=
  RetryWithBackoff.loop config fn (config.MaxRetries + 1).toNat 0 config.InitialDelay none []

/-! ## `collect-agent/internal/agent/communication.go` -/

namespace CommunicationManager

/-- The subject of `register`: `fmt.Sprintf("agent.register.%s", clusterID)`. -/
def register.subject (clusterID : String) : String := "agent.register." ++ clusterID

/-- The subject of `subscribeToCommands`. -/
def subscribeToCommands.subject (clusterID : String) : String := "agent.command." ++ clusterID

/-- The subject of `handleEvents`. -/
def handleEvents.subject (clusterID : String) : String := "agent.event." ++ clusterID

/-- The subject of `handleMetrics`. -/
def handleMetrics.subject (clusterID : String) : String := "agent.metrics." ++ clusterID

/-- The subject of `handleResults`. -/
def handleResults.subject (clusterID : String) : String := "agent.result." ++ clusterID

/-- The subject of `handleHeartbeat`. -/
def handleHeartbeat.subject (clusterID : String) : String := "agent.heartbeat." ++ clusterID

/-- The subjects the agent publishes on, with the kind of message. -/
def publishSubjects (clusterID : String) : List (String × String) :=
  [("register", register.subject clusterID), ("heartbeat", handleHeartbeat.subject clusterID),
   ("event", handleEvents.subject clusterID), ("metrics", handleMetrics.subject clusterID),
   ("result", handleResults.subject clusterID)]

end CommunicationManager

/-! ## Sample inputs -/

namespace Sample

/-- An operating system on which every process prints nothing and succeeds. -/
def quietEnv : ExecEnv :=
  { run := fun _ => { output := [], err := none, deadlineExceeded := false }, environ := [] }

/-- The command `kubectl get pods && rm -rf /`, the first case of
`TestCheckArgumentSafety_DangerousPatterns` as a whole command. -/
def kubectlInjection : Command :=
  { ID := "cmd-1", Type_ := "diagnostic", Tool := "kubectl", Action := "get",
    Args := ["pods", "&&", "rm", "-rf", "/"] }

/-- The command `free -h`. -/
def freeCommand : Command :=
  { ID := "cmd-2", Type_ := "diagnostic", Tool := "free", Action := "-h", Args := [] }

/-- The command `ps aux | grep x`. -/
def psPipe : Command :=
  { ID := "cmd-3", Type_ := "diagnostic", Tool := "ps", Action := "aux", Args := ["|", "grep", "x"] }

/-- An `fn` that fails with a retryable error on every invocation. -/
def alwaysDisconnected : Nat → Option GoError :=
  fun _ => some ErrNATSDisconnected

/-- An `fn` that fails twice with a retryable error and then succeeds. -/
def thirdTimeLucky : Nat → Option GoError :=
  fun k => if k < 2 then some ErrNATSDisconnected else none

/-- An `fn` that fails once with a retryable error and then with one that is
not. -/
def thenInvalidConfig : Nat → Option GoError :=
  fun k => if k < 1 then some ErrPublishFailed else some ErrInvalidConfig

end Sample

end CollectAgent

/-! # The bus -/

namespace Nats

/-- The tokens of a subject: the pieces between the dots.  `cur` holds the
characters of the current token, last first. -/
def splitTokens : List Char → List Char → List (List Char)
  | [], cur => [cur.reverse]
  | c :: cs, cur => if c = '.' then cur.reverse :: splitTokens cs [] else splitTokens cs (c :: cur)

/-- Token-wise matching of a subscription against the tokens of a subject: `*`
stands for exactly one token, `>` for one or more remaining tokens. -/
def matchTokens : List (List Char) → List (List Char) → Bool
  | [], [] => true
  | p :: ps, t :: ts =>
    if p = ['>'] then true
    else if p = ['*'] then matchTokens ps ts
    else p == t && matchTokens ps ts
  | _, _ => false

/-- Whether a message published on `subject` is delivered to a subscription
on `pattern`, by the subject rules of NATS. -/
def subjectMatches (pattern subject : String) : Bool :=
  matchTokens (splitTokens pattern.data []) (splitTokens subject.data [])

end Nats

namespace AgentManager

namespace Server

/-- The subject of `subscribeRegister`. -/
def subscribeRegister.subject : String := "aetherius.agent.*.register"

/-- The subject of `subscribeHeartbeat`. -/
def subscribeHeartbeat.subject : String := "aetherius.agent.*.heartbeat"

/-- The subject of `subscribeEvents`. -/
def subscribeEvents.subject : String := "aetherius.agent.*.event"

/-- The subject of `subscribeMetrics`. -/
def subscribeMetrics.subject : String := "aetherius.agent.*.metrics"

/-- The subject of `subscribeResults`. -/
def subscribeResults.subject : String := "aetherius.agent.*.result"

/-- The subscriptions of the control plane, with the kind of message. -/
def subscriptions : List (String × String) :=
  [("register", subscribeRegister.subject), ("heartbeat", subscribeHeartbeat.subject),
   ("event", subscribeEvents.subject), ("metrics", subscribeMetrics.subject),
   ("result", subscribeResults.subject)]

end Server

/-- The key under which `Aggregator.Add` files an event:
`<clusterID>:<namespace>:<labels["name"]>`. -/
def Aggregator.groupKey (event : Event) : String :=
  event.ClusterID ++ ":" ++ event.Namespace ++ ":" ++ (event.Labels.lookup "name").getD ""

namespace Sample

/-- The pipeline environment in which the event insert fails. -/
def pipelineEnvSaveFails : PipelineEnv :=
  { pipelineEnv with saveEventErr := true }

/-- The pipeline environment six minutes later. -/
def pipelineEnvAfterWindow : PipelineEnv :=
  { pipelineEnv with now := 1000 + 6 * Go.Minute }

/-- Twelve events of the same pod, with the ids 0 to 11. -/
def twelveEvents : List Event :=
  (List.range 12).map (fun i => { crashEvent with ID := toString i, Timestamp := 900 + i })

end Sample

end AgentManager

namespace Orchestrator

open Go

/-! ## Decision steps of `executor.go` -/

/-- Go `Executor.evaluateDecisionCondition`. -/
def evaluateDecisionCondition (execution : WorkflowExecution) (condition : String) : Bool :=
  if condition = "analysis.root_cause == 'OOM'" then
    match execution.Context.lookup "analysis_root_cause" with
    | some (.str rootCause) => rootCause == "OOM"
    | _ => false
  else if condition = "analysis.root_cause == 'Config'" then
    match execution.Context.lookup "analysis_root_cause" with
    | some (.str rootCause) => rootCause == "Config"
    | _ => false
  else if condition = "severity == 'critical'" then
    match execution.TriggerEvent.lookup "payload" with
    | some (.obj payload) =>
      match payload.lookup "severity" with
      | some (.str severity) => severity == "critical"
      | _ => false
    | _ => false
  else false

/-- The loop of `ExecuteDecision` over the entries of `conditions`: the output
of the first entry that matches, if any.  An entry that is not a map is passed
over. -/
def ExecuteDecision.loop (execution : WorkflowExecution) :
    List Value → Option (List (String × Value))
  | [] => none
  | cond :: rest =>
    match cond with
    | .obj condMap =>
      let ifCondition := Value.asString (condMap.lookup "if")
      let thenAction := Value.asString (condMap.lookup "then")
      if evaluateDecisionCondition execution ifCondition then
        some [("decision", .str thenAction), ("condition", .str ifCondition),
              ("matched", .bool true)]
      else ExecuteDecision.loop execution rest
    | _ => ExecuteDecision.loop execution rest

/-- Go `Executor.ExecuteDecision`. -/
def ExecuteDecision (execution : WorkflowExecution) (step : WorkflowStep) :
    Except String (List (String × Value)) :=
  match step.Config.lookup "conditions" with
  | some (.arr conditions) =>
    match ExecuteDecision.loop execution conditions with
    | some output => .ok output
    | none => .ok [("decision", .str "default"), ("matched", .bool false)]
  | _ => .error "invalid decision conditions"

/-! ## The iterations of `executeWorkflow` -/

namespace Engine

/-- One pass through the body of the `for` loop of `executeWorkflow`: the step,
the execution when the step was reached, the value of `shouldExecuteStep`
there (`none` is the panic), and the execution when the pass ended, whether by
`continue`, by reaching the end of the body, or by `return`. -/
structure Iteration where
  step : WorkflowStep
  reached : WorkflowExecution
  satisfied : Option Bool
  left : WorkflowExecution

/-- The passes that `executeWorkflow.loop` makes through the loop body, in
order; it follows `executeWorkflow.loop` case by case. -/
def executeWorkflow.iterations (ex : Executor) (fuel : Nat) :
    List WorkflowStep → Engine → WorkflowExecution → Nat → List Iteration
  | [], _, _, _ => []
  | step :: rest, e, execution, calls =>
    match shouldExecuteStep execution step with
    | none => [{ step := step, reached := execution, satisfied := none, left := execution }]
    | some false =>
      { step := step, reached := execution, satisfied := some false, left := execution } ::
        executeWorkflow.iterations ex fuel rest e execution calls
    | some true =>
      let run := executeStep ex execution step fuel calls
      match run.returned with
      | none =>
        [{ step := step, reached := execution, satisfied := some true, left := execution }]
      | some (_, some err) =>
        [{ step := step, reached := execution, satisfied := some true,
           left := (handleStepFailure e execution err).2 }]
      | some (stepExec, none) =>
        let execution1 :=
          { execution with StepExecutions := execution.StepExecutions ++ [stepExec] }
        let execution1 :=
          match stepExec.Output with
          | some output =>
            { execution1 with Context := mergeOutput execution1.Context step.ID output }
          | none => execution1
        let e := { e with storeCalls := e.storeCalls ++ [StoreCall.SaveWorkflowExecution execution1] }
        if stepExec.Status = ExecutionStatusFailed then
          let r :=
            if step.OnFailure.length > 0 then executeFailureBranch e execution1
            else completeExecution e execution1 ExecutionStatusFailed
              ("Step " ++ step.ID ++ " failed")
          [{ step := step, reached := execution, satisfied := some true, left := r.2 }]
        else
          { step := step, reached := execution, satisfied := some true, left := execution1 } ::
            executeWorkflow.iterations ex fuel rest e execution1 run.calls

/-- The execution with which `executeWorkflow` enters its loop. -/
def executeWorkflow.start (execution : WorkflowExecution) : WorkflowExecution :=
  { execution with Status := ExecutionStatusRunning }

/-- The engine with which `executeWorkflow` enters its loop. -/
def executeWorkflow.startEngine (e : Engine) (execution : WorkflowExecution) : Engine :=
  { e with storeCalls := e.storeCalls ++
    [StoreCall.UpdateWorkflowExecutionStatus execution.ID ExecutionStatusRunning] }

/-- The execution after the first `n` passes through the loop body. -/
def executeWorkflow.after (start : WorkflowExecution) (passes : List Iteration) (n : Nat) :
    WorkflowExecution :=
  match (passes.take n).getLast? with
  | some pass => pass.left
  | none => start

/-- The ids of the steps, among those of the given passes, whose conditions
were satisfied when they were reached. -/
def satisfiedIDs (passes : List Iteration) : List String :=
  (passes.filter (fun pass => pass.satisfied == some true)).map (fun pass => pass.step.ID)

end Engine

/-! ## More sample inputs -/

namespace Sample

/-- A handler set whose decision handler is `ExecuteDecision`; the other
handlers fail. -/
def decisionExecutor : Executor :=
  { failingExecutor with ExecuteDecision := fun _ execution step => ExecuteDecision execution step }

/-- An execution whose context holds `analysis_root_cause = "OOM"`. -/
def rootCauseExecution : WorkflowExecution :=
  { execution with Context := [("analysis_root_cause", Value.str "OOM")] }

/-- A decision step whose first condition is `{if: "analysis.root_cause ==
'OOM'", then: "scale_up"}`, followed by a condition on the `Config` cause. -/
def decisionStep : WorkflowStep :=
  { ID := "decide", Type_ := StepTypeDecision, Name := "decide",
    Config :=
      [("conditions", Value.arr
        [Value.obj [("if", Value.str "analysis.root_cause == 'OOM'"),
                    ("then", Value.str "scale_up")],
         Value.obj [("if", Value.str "analysis.root_cause == 'Config'"),
                    ("then", Value.str "fix_config")]])],
    Conditions := [], Timeout := 30 * Second, RetryPolicy := none, OnSuccess := [],
    OnFailure := [] }

/-- A notification step that runs only when the context holds `never = 1`. -/
def skippedStep : WorkflowStep :=
  { notifyStep "skipped" with
    Conditions := [{ Field := "never", Operator := "eq", Value := Value.num 1 }] }

/-- A workflow of three steps of which the second is skipped by its
condition. -/
def skippingWorkflow : Workflow :=
  { twoStepWorkflow with Steps := [notifyStep "first", skippedStep, notifyStep "last"] }

end Sample

end Orchestrator
/-! # Theorems -/

namespace AgentManager

open Go

namespace Dispatcher

/-! ## Tool allow-list and validation -/

/-- The lookup in the `allowedTools` map is true exactly on its seven keys. -/
theorem allowedTools_lookup (tool : String) :
    (allowedTools.lookup tool).getD false = true ↔
      tool ∈ ["kubectl", "ps", "df", "netstat", "curl", "ping", "top"] := by
  unfold allowedTools
  by_cases h1 : tool = "kubectl"
  · subst h1; decide
  by_cases h2 : tool = "ps"
  · subst h2; decide
  by_cases h3 : tool = "df"
  · subst h3; decide
  by_cases h4 : tool = "netstat"
  · subst h4; decide
  by_cases h5 : tool = "curl"
  · subst h5; decide
  by_cases h6 : tool = "ping"
  · subst h6; decide
  by_cases h7 : tool = "top"
  · subst h7; decide
  have e1 : (tool == "kubectl") = false := beq_eq_false_iff_ne.mpr h1
  have e2 : (tool == "ps") = false := beq_eq_false_iff_ne.mpr h2
  have e3 : (tool == "df") = false := beq_eq_false_iff_ne.mpr h3
  have e4 : (tool == "netstat") = false := beq_eq_false_iff_ne.mpr h4
  have e5 : (tool == "curl") = false := beq_eq_false_iff_ne.mpr h5
  have e6 : (tool == "ping") = false := beq_eq_false_iff_ne.mpr h6
  have e7 : (tool == "top") = false := beq_eq_false_iff_ne.mpr h7
  simp [List.lookup, h1, h2, h3, h4, h5, h6, h7, e1, e2, e3, e4, e5, e6, e7]

/-- C7: `validateCommand` returns no error exactly when cluster id, type, tool
and action are non-empty and the tool is one of kubectl, ps, df, netstat, curl,
ping, top. -/
theorem validateCommand_eq_none_iff (cmd : Command) :
    validateCommand cmd = none ↔
      cmd.ClusterID ≠ "" ∧ cmd.Type_ ≠ "" ∧ cmd.Tool ≠ "" ∧ cmd.Action ≠ "" ∧
        cmd.Tool ∈ ["kubectl", "ps", "df", "netstat", "curl", "ping", "top"] := by
  rw [← allowedTools_lookup]
  unfold validateCommand
  by_cases h1 : cmd.ClusterID = ""
  · simp [h1]
  by_cases h2 : cmd.Type_ = ""
  · simp [h1, h2]
  by_cases h3 : cmd.Tool = ""
  · simp [h1, h2, h3]
  by_cases h4 : cmd.Action = ""
  · simp [h1, h2, h3, h4]
  by_cases h5 : (allowedTools.lookup cmd.Tool).getD false = true
  · simp [h1, h2, h3, h4, h5]
  · simp [h1, h2, h3, h4, h5]

/-! ## Result messages on the bus router -/

/-- C1: a message on the result subject never reaches the dispatcher.
Whatever the message decodes to, after `Server.handleResult` has run the
store (no result row, same command status), `pendingCommands`,
`commandTimeouts`, the timers and the completion counters are the same as
before; only the counters of the bus server move. -/
theorem deliverResult_leaves_dispatcher (d : Dispatcher)
    (unmarshal : String → Option CommandResult) (msg : Msg) :
    (d.deliverResult unmarshal msg).store = d.store ∧
      (d.deliverResult unmarshal msg).pendingCommands = d.pendingCommands ∧
      (d.deliverResult unmarshal msg).commandTimeouts = d.commandTimeouts ∧
      (d.deliverResult unmarshal msg).timers = d.timers ∧
      (d.deliverResult unmarshal msg).commandsCompleted = d.commandsCompleted ∧
      (d.deliverResult unmarshal msg).commandsFailed = d.commandsFailed ∧
      (d.deliverResult unmarshal msg).nats.messagesReceived = d.nats.messagesReceived + 1 :=
  ⟨rfl, rfl, rfl, rfl, rfl, rfl, by
    simp only [deliverResult, Server.handleResult]
    cases unmarshal msg.Data <;> rfl⟩

/-- The sample command is dispatched and its decodable success result arrives
on `aetherius.agent.c1.result`: the command is pending before and after, its
stored status stays `sent`, and no result row exists. -/
theorem deliverResult_sample :
    Sample.unmarshal Sample.resultMsg.Data = some Sample.result ∧
      Sample.dispatched.pendingCommands "cmd-1" ≠ none ∧
      storedStatus Sample.dispatched "cmd-1" = some CommandStatusSent ∧
      (Sample.dispatched.deliverResult Sample.unmarshal Sample.resultMsg).pendingCommands "cmd-1" ≠
        none ∧
      storedStatus (Sample.dispatched.deliverResult Sample.unmarshal Sample.resultMsg) "cmd-1" =
        some CommandStatusSent ∧
      (Sample.dispatched.deliverResult Sample.unmarshal Sample.resultMsg).store.commandResults =
        [] := by
  decide

/-! ## Dispatch -/

/-- C2: a valid command for a cluster whose agent is online, with a store and
a bus that do not fail (the insert included: the id is not yet a row of the
commands table), is dispatched without error; afterwards its id is non-empty,
its timeout is 30 s if it was zero and unchanged otherwise, its stored status
is sent, it is in `pendingCommands`, an armed timer of duration `cmd.Timeout`
is recorded for its id in `commandTimeouts`, and `commandsIssued` grew by 1. -/
theorem DispatchCommand_success (d : Dispatcher) (env : Env) (cmd : Command) (agent : Agent)
    (hvalid : validateCommand cmd = none)
    (hagent : d.registry.GetAgentByClusterID d.store cmd.ClusterID = .ok agent)
    (honline : agent.Status = AgentStatusOnline)
    (hstore : env.saveCommandErr = false ∧ env.updateStatusErr = false)
    (hfresh : d.store.commands (if cmd.ID = "" then env.uuid else cmd.ID) = none)
    (hbus : env.marshalErr = false ∧ env.publishErr = false)
    (huuid : env.uuid ≠ "") :
    ∃ d' cmd', d.DispatchCommand env cmd = (d', cmd', none) ∧
      cmd'.ID ≠ "" ∧
      cmd'.Timeout = (if cmd.Timeout = 0 then 30 * Second else cmd.Timeout) ∧
      storedStatus d' cmd'.ID = some CommandStatusSent ∧
      d'.pendingCommands cmd'.ID = some cmd' ∧
      (∃ h, d'.commandTimeouts cmd'.ID = some h ∧
        d'.timers[h]? = some { commandID := cmd'.ID, d := cmd'.Timeout, state := TimerState.armed }) ∧
      d'.commandsIssued = d.commandsIssued + 1 := by
  obtain ⟨hs1, hs2⟩ := hstore
  obtain ⟨hb1, hb2⟩ := hbus
  have hID : (DispatchCommand.prepare env cmd).ID = if cmd.ID = "" then env.uuid else cmd.ID := by
    unfold DispatchCommand.prepare
    by_cases hid : cmd.ID = "" <;> by_cases ht : cmd.Timeout = 0 <;> simp [hid, ht]
  have hTimeout : (DispatchCommand.prepare env cmd).Timeout =
      if cmd.Timeout = 0 then 30 * Second else cmd.Timeout := by
    unfold DispatchCommand.prepare
    by_cases hid : cmd.ID = "" <;> by_cases ht : cmd.Timeout = 0 <;> simp [hid, ht]
  have hCluster : (DispatchCommand.prepare env cmd).ClusterID = cmd.ClusterID := by
    unfold DispatchCommand.prepare
    by_cases hid : cmd.ID = "" <;> by_cases ht : cmd.Timeout = 0 <;> simp [hid, ht]
  have hne : (DispatchCommand.prepare env cmd).ID ≠ "" := by
    rw [hID]
    by_cases hid : cmd.ID = "" <;> simp [hid, huuid]
  rw [← hID] at hfresh
  rw [← hCluster] at hagent
  rw [← hTimeout]
  unfold DispatchCommand
  simp only [hvalid]
  generalize DispatchCommand.prepare env cmd = c at *
  simp [hagent, honline, PostgresStore.SaveCommand, hs1, hs2, hfresh, Server.PublishCommand,
    hb1, hb2, updateCommandStatus, setupCommandTimeout, PostgresStore.UpdateCommandStatus,
    storedStatus, hne]
  refine ⟨_, c, ⟨rfl, rfl⟩, hne, rfl, ?_⟩
  simp

/-- Witness for C2: the sample command on the sample dispatcher. -/
theorem DispatchCommand_success_witness :
    ∃ d' cmd', Sample.dispatcher.DispatchCommand Sample.env Sample.cmd = (d', cmd', none) ∧
      cmd'.ID ≠ "" ∧
      cmd'.Timeout = (if Sample.cmd.Timeout = 0 then 30 * Second else Sample.cmd.Timeout) ∧
      storedStatus d' cmd'.ID = some CommandStatusSent ∧
      d'.pendingCommands cmd'.ID = some cmd' ∧
      (∃ h, d'.commandTimeouts cmd'.ID = some h ∧
        d'.timers[h]? = some { commandID := cmd'.ID, d := cmd'.Timeout, state := TimerState.armed }) ∧
      d'.commandsIssued = Sample.dispatcher.commandsIssued + 1 :=
  DispatchCommand_success Sample.dispatcher Sample.env Sample.cmd
    { ID := "a1", ClusterID := "c1", Status := AgentStatusOnline, LastHeartbeat := 0 }
    (by decide) (by rfl) (by rfl) (by decide) (by rfl) (by decide) (by decide)

/-! ## Terminal commands and the tracking maps -/

/-- C3: the invariant fails on a reachable state.  The sample command is
dispatched and its timer fires: the stored status is timeout and the command
has left `pendingCommands`, but `commandTimeouts` still holds the entry of the
fired timer. -/
theorem timeout_keeps_commandTimeouts_entry :
    storedStatus Sample.timedOut "cmd-1" = some CommandStatusTimeout ∧
      Sample.timedOut.pendingCommands "cmd-1" = none ∧
      Sample.timedOut.commandTimeouts "cmd-1" = some 0 ∧
      Sample.timedOut.timers =
        [{ commandID := "cmd-1", d := 2 * Second, state := TimerState.fired }] := by
  decide

/-- Whenever the command is saved and the publish then fails, `DispatchCommand`
returns an error with the command still tracked in `pendingCommands`; no timer
is created and `commandsIssued` does not move. -/
theorem DispatchCommand_publish_failure (d : Dispatcher) (env : Env) (cmd : Command)
    (agent : Agent) (store1 : PostgresStore)
    (hvalid : validateCommand cmd = none)
    (hagent : d.registry.GetAgentByClusterID d.store (DispatchCommand.prepare env cmd).ClusterID =
      .ok agent)
    (honline : agent.Status = AgentStatusOnline)
    (hsave : d.store.SaveCommand env (DispatchCommand.prepare env cmd) = .ok store1)
    (hmarshal : env.marshalErr = false) (hpublish : env.publishErr = true) :
    (d.DispatchCommand env cmd).2.2 ≠ none ∧
      (d.DispatchCommand env cmd).2.1 = DispatchCommand.prepare env cmd ∧
      (d.DispatchCommand env cmd).1.pendingCommands (DispatchCommand.prepare env cmd).ID =
        some (DispatchCommand.prepare env cmd) ∧
      (d.DispatchCommand env cmd).1.commandTimeouts = d.commandTimeouts ∧
      (d.DispatchCommand env cmd).1.timers = d.timers ∧
      (d.DispatchCommand env cmd).1.commandsIssued = d.commandsIssued := by
  unfold DispatchCommand
  simp only [hvalid]
  generalize DispatchCommand.prepare env cmd = c at *
  simp [hagent, honline, hsave, Server.PublishCommand, hmarshal, hpublish, updateCommandStatus]

/-- C4: the publish of the sample command fails.  `DispatchCommand` returns an
error, the stored status is failed and no timer is recorded, but the command
is still in `pendingCommands`. -/
theorem publish_failure_keeps_pending :
    (Sample.dispatcher.DispatchCommand Sample.envPublishFails Sample.cmd).2.2 =
        some "failed to publish command: failed to publish command" ∧
      storedStatus (Sample.dispatcher.DispatchCommand Sample.envPublishFails Sample.cmd).1 "cmd-1" =
        some CommandStatusFailed ∧
      (Sample.dispatcher.DispatchCommand Sample.envPublishFails Sample.cmd).1.commandTimeouts "cmd-1" =
        none ∧
      (Sample.dispatcher.DispatchCommand Sample.envPublishFails Sample.cmd).1.pendingCommands "cmd-1" =
        some (DispatchCommand.prepare Sample.envPublishFails Sample.cmd) := by
  decide

/-! ## Status writes -/

/-- Status completed is terminal. -/
theorem isTerminal_completed : isTerminal CommandStatusCompleted = true := by
  decide

/-- Status failed is terminal. -/
theorem isTerminal_failed : isTerminal CommandStatusFailed = true := by
  decide

/-- Status timeout is terminal. -/
theorem isTerminal_timeout : isTerminal CommandStatusTimeout = true := by
  decide

/-- A status write for `id` leaves the stored status of a row as it was or
sets it to the written status. -/
theorem storedStatus_updateCommandStatus (d : Dispatcher) (env : Env) (id : String)
    (status : CommandStatus) (id' : String) (s : CommandStatus)
    (hs : storedStatus d id' = some s) :
    storedStatus (d.updateCommandStatus env id status).1 id' = some s ∨
      storedStatus (d.updateCommandStatus env id status).1 id' = some status := by
  unfold updateCommandStatus PostgresStore.UpdateCommandStatus storedStatus at *
  by_cases he : env.updateStatusErr = true
  · left; simpa [he] using hs
  · cases hc : d.store.commands id with
    | none => left; simpa [he, hc] using hs
    | some c =>
      by_cases hid : id' = id
      · right; subst hid; simp [he, hc]
      · left; simpa [he, hc, Function.update_noteq hid] using hs

/-- A stopped timer slot never reads as armed. -/
theorem stopTimer_not_armed (timers : List Timer) (h : Nat) (t : Timer)
    (ht : (stopTimer timers h)[h]? = some t) : t.state ≠ TimerState.armed := by
  unfold stopTimer at ht
  cases hc : timers[h]? with
  | none => simp [hc] at ht
  | some t0 =>
    simp only [hc] at ht
    by_cases ha : t0.state = TimerState.armed
    · simp only [ha, if_true] at ht
      have hlt : h < timers.length := by
        rcases List.getElem?_eq_some.mp hc with ⟨hlt, _⟩
        exact hlt
      simp [List.getElem?_set, hlt] at ht
      rw [← ht]
      simp
    · simp only [ha, if_false] at ht
      rw [hc] at ht
      cases ht
      exact ha

/-- Cancelling a timer does not touch the store. -/
theorem cancelCommandTimeout_store (d : Dispatcher) (id : String) :
    (d.cancelCommandTimeout id).store = d.store := by
  unfold cancelCommandTimeout
  split <;> rfl

/-- The stored status of a row after `HandleCommandResult`: as before, or
the status written for the result. -/
theorem storedStatus_HandleCommandResult (d : Dispatcher) (env : Env) (result : CommandResult)
    (id : String) (s : CommandStatus) (hs : storedStatus d id = some s) :
    storedStatus (d.HandleCommandResult env result).1 id = some s ∨
      storedStatus (d.HandleCommandResult env result).1 id = some CommandStatusCompleted ∨
      storedStatus (d.HandleCommandResult env result).1 id = some CommandStatusFailed := by
  unfold HandleCommandResult
  cases hsave : d.store.SaveCommandResult env result with
  | error err => left; simpa using hs
  | ok store1 =>
    have hcmds : store1.commands = d.store.commands := by
      unfold PostgresStore.SaveCommandResult at hsave
      split at hsave
      · cases hsave
      · split at hsave
        · cases hsave
        · cases hsave; rfl
    have hs1 : ∀ d1 : Dispatcher, d1.store = store1 → storedStatus d1 id = some s := by
      intro d1 h1
      unfold storedStatus at *
      rw [h1, hcmds]
      exact hs
    simp only []
    by_cases hok : result.Status = "success"
    · simp only [hok, if_true]
      rcases storedStatus_updateCommandStatus
        { d with store := store1, commandsCompleted := d.commandsCompleted + 1 } env
        result.CommandID CommandStatusCompleted id s (hs1 _ rfl) with h | h
      · left
        simpa [storedStatus, cancelCommandTimeout_store] using h
      · right; left
        simpa [storedStatus, cancelCommandTimeout_store] using h
    · simp only [hok, if_false]
      rcases storedStatus_updateCommandStatus
        { d with store := store1, commandsFailed := d.commandsFailed + 1 } env
        result.CommandID CommandStatusFailed id s (hs1 _ rfl) with h | h
      · left
        simpa [storedStatus, cancelCommandTimeout_store] using h
      · right; right
        simpa [storedStatus, cancelCommandTimeout_store] using h

/-- The stored status of a row after a timer firing: as before, or timeout. -/
theorem storedStatus_timerFires (d : Dispatcher) (env : Env) (h : Nat)
    (id : String) (s : CommandStatus) (hs : storedStatus d id = some s) :
    storedStatus (d.timerFires env h) id = some s ∨
      storedStatus (d.timerFires env h) id = some CommandStatusTimeout := by
  unfold timerFires
  cases ht : d.timers[h]? with
  | none => left; simpa using hs
  | some t =>
    simp only []
    by_cases ha : t.state = TimerState.armed
    · simp only [ha, if_true]
      unfold handleCommandTimeout
      rcases storedStatus_updateCommandStatus
        { d with timers := d.timers.set h { t with state := TimerState.fired } } env
        t.commandID CommandStatusTimeout id s hs with h1 | h1
      · left
        simpa [storedStatus] using h1
      · right
        simpa [storedStatus] using h1
    · left
      simpa [ha] using hs

/-- A timer that is not armed does not run when the runtime reaches it. -/
theorem timerFires_of_not_armed (d : Dispatcher) (env : Env) (h : Nat)
    (hna : ∀ t, d.timers[h]? = some t → t.state ≠ TimerState.armed) :
    d.timerFires env h = d := by
  unfold timerFires
  cases ht : d.timers[h]? with
  | none => rfl
  | some t => simp [hna t ht]

/-- The stored status of a row after the callback of a timer: as before, or
timeout. -/
theorem storedStatus_timerCallback (d : Dispatcher) (env : Env) (h : Nat)
    (id : String) (s : CommandStatus) (hs : storedStatus d id = some s) :
    storedStatus (d.timerCallback env h) id = some s ∨
      storedStatus (d.timerCallback env h) id = some CommandStatusTimeout := by
  unfold timerCallback
  cases ht : d.timers[h]? with
  | none => left; simpa using hs
  | some t =>
    simp only []
    by_cases ha : t.state = TimerState.expired
    · simp only [ha, if_true]
      unfold handleCommandTimeout
      rcases storedStatus_updateCommandStatus
        { d with timers := d.timers.set h { t with state := TimerState.fired } } env
        t.commandID CommandStatusTimeout id s hs with h1 | h1
      · left
        simpa [storedStatus] using h1
      · right
        simpa [storedStatus] using h1
    · left
      simpa [ha] using hs

/-- A timer that is not armed does not expire. -/
theorem timerExpires_of_not_armed (d : Dispatcher) (h : Nat)
    (hna : ∀ t, d.timers[h]? = some t → t.state ≠ TimerState.armed) :
    d.timerExpires h = d := by
  unfold timerExpires
  cases ht : d.timers[h]? with
  | none => rfl
  | some t => simp [hna t ht]

/-- The callback of a timer that has not expired does not run. -/
theorem timerCallback_of_not_expired (d : Dispatcher) (env : Env) (h : Nat)
    (hne : ∀ t, d.timers[h]? = some t → t.state ≠ TimerState.expired) :
    d.timerCallback env h = d := by
  unfold timerCallback
  cases ht : d.timers[h]? with
  | none => rfl
  | some t => simp [hne t ht]

/-- Stopping timer `k` leaves a slot as it is, or turns the armed slot `k`
into a stopped one. -/
theorem stopTimer_slot (timers : List Timer) (k h : Nat) (t : Timer)
    (ht : (stopTimer timers k)[h]? = some t) :
    timers[h]? = some t ∨ t.state = TimerState.stopped := by
  unfold stopTimer at ht
  cases hc : timers[k]? with
  | none =>
    left
    simpa [hc] using ht
  | some t0 =>
    simp only [hc] at ht
    by_cases ha : t0.state = TimerState.armed
    · simp only [ha, if_true] at ht
      by_cases hkh : k = h
      · subst hkh
        right
        have hlt : k < timers.length := (List.getElem?_eq_some.mp hc).1
        simp [List.getElem?_set, hlt] at ht
        rw [← ht]
      · left
        rwa [List.getElem?_set_ne hkh] at ht
    · left
      simpa [ha] using ht

/-- Stopping a timer leaves every slot that is not armed as it is. -/
theorem stopTimer_keeps (timers : List Timer) (k h : Nat) (t : Timer)
    (ht : timers[h]? = some t) (hna : t.state ≠ TimerState.armed) :
    (stopTimer timers k)[h]? = some t := by
  unfold stopTimer
  cases hc : timers[k]? with
  | none => simpa using ht
  | some t0 =>
    simp only []
    by_cases ha : t0.state = TimerState.armed
    · simp only [ha, if_true]
      by_cases hkh : k = h
      · subst hkh
        rw [hc] at ht
        cases ht
        exact absurd ha hna
      · rw [List.getElem?_set_ne hkh]
        exact ht
    · simpa [ha] using ht

/-- The timers after a `HandleCommandResult` that returns no error: the timer
recorded for the command is stopped, the others are left. -/
theorem HandleCommandResult_timers (d : Dispatcher) (env : Env) (result : CommandResult)
    (hok : (d.HandleCommandResult env result).2 = none) :
    (d.HandleCommandResult env result).1.timers =
      match d.commandTimeouts result.CommandID with
      | some k => stopTimer d.timers k
      | none => d.timers := by
  unfold HandleCommandResult at hok ⊢
  cases hsave : d.store.SaveCommandResult env result with
  | error err => simp [hsave] at hok
  | ok store1 =>
    simp only []
    have hcancel : ∀ d1 : Dispatcher, d1.timers = d.timers →
        d1.commandTimeouts = d.commandTimeouts →
        (d1.cancelCommandTimeout result.CommandID).timers =
          match d.commandTimeouts result.CommandID with
          | some k => stopTimer d.timers k
          | none => d.timers := by
      intro d1 h1 h2
      unfold cancelCommandTimeout
      rw [h2]
      cases d.commandTimeouts result.CommandID with
      | none => exact h1
      | some k => simp only [h1]
    by_cases hsucc : result.Status = "success"
    · simp only [hsucc, if_true]
      exact hcancel _ rfl rfl
    · simp only [hsucc, if_false]
      exact hcancel _ rfl rfl

/-- The stored status that `HandleCommandResult` writes for the command of the
result when no store call fails and the command has a row. -/
theorem storedStatus_HandleCommandResult_ok (d : Dispatcher) (env : Env)
    (result : CommandResult) (s : CommandStatus)
    (hs : storedStatus d result.CommandID = some s)
    (hok : (d.HandleCommandResult env result).2 = none) (hupd : env.updateStatusErr = false) :
    storedStatus (d.HandleCommandResult env result).1 result.CommandID =
      some (if result.Status = "success" then CommandStatusCompleted else CommandStatusFailed) := by
  unfold HandleCommandResult at hok ⊢
  cases hsave : d.store.SaveCommandResult env result with
  | error err => simp [hsave] at hok
  | ok store1 =>
    have hcmds : store1.commands = d.store.commands := by
      unfold PostgresStore.SaveCommandResult at hsave
      split at hsave
      · cases hsave
      · split at hsave
        · cases hsave
        · cases hsave; rfl
    unfold storedStatus at hs
    cases hrow : d.store.commands result.CommandID with
    | none => simp [hrow] at hs
    | some c =>
      by_cases hsucc : result.Status = "success" <;>
        simp [storedStatus, cancelCommandTimeout_store, updateCommandStatus,
          PostgresStore.UpdateCommandStatus, hupd, hcmds, hrow, hsucc]

/-- The stored status after the callback of an expired timer, when the status
write does not fail and the command of the timer has a row: timeout. -/
theorem storedStatus_timerCallback_expired (d : Dispatcher) (env : Env) (h : Nat) (t : Timer)
    (s : CommandStatus) (ht : d.timers[h]? = some t) (hexp : t.state = TimerState.expired)
    (hs : storedStatus d t.commandID = some s) (hupd : env.updateStatusErr = false) :
    storedStatus (d.timerCallback env h) t.commandID = some CommandStatusTimeout := by
  unfold storedStatus at hs
  cases hrow : d.store.commands t.commandID with
  | none => simp [hrow] at hs
  | some c =>
    simp [timerCallback, ht, hexp, handleCommandTimeout, updateCommandStatus,
      PostgresStore.UpdateCommandStatus, hupd, hrow, storedStatus]

/-- C5, as the code has it.  Once the stored status of a command is completed,
failed or timeout, every later `HandleCommandResult` call, timer firing and
timeout callback leaves it completed, failed or timeout (it never returns to
pending or sent, but the value may change).  A timer recorded for a command in
`commandTimeouts` that has not expired when `HandleCommandResult` returns
without error for the command is stopped: afterwards it neither expires nor
runs its callback, whatever the status of the command was.  A timer of the
command that had expired before is not held back: after `HandleCommandResult`
has written completed or failed, its callback writes timeout. -/
theorem terminal_status_stays_terminal (d : Dispatcher) (env env' : Env) (id : String) :
    (∀ s, storedStatus d id = some s → isTerminal s = true →
      (∀ result, ∃ s', storedStatus (d.HandleCommandResult env result).1 id = some s' ∧
        isTerminal s' = true) ∧
      (∀ h, ∃ s', storedStatus (d.timerFires env h) id = some s' ∧ isTerminal s' = true) ∧
      (∀ h, ∃ s', storedStatus (d.timerCallback env h) id = some s' ∧ isTerminal s' = true)) ∧
    (∀ result h, result.CommandID = id → d.commandTimeouts id = some h →
      (∀ t, d.timers[h]? = some t → t.state ≠ TimerState.expired) →
      (d.HandleCommandResult env result).2 = none →
      (d.HandleCommandResult env result).1.timerExpires h =
          (d.HandleCommandResult env result).1 ∧
        (d.HandleCommandResult env result).1.timerCallback env' h =
          (d.HandleCommandResult env result).1 ∧
        (d.HandleCommandResult env result).1.timerFires env' h =
          (d.HandleCommandResult env result).1) ∧
    (∀ result h t s, result.CommandID = id → d.timers[h]? = some t →
      t.state = TimerState.expired → t.commandID = id → storedStatus d id = some s →
      (d.HandleCommandResult env result).2 = none → env.updateStatusErr = false →
      env'.updateStatusErr = false →
      storedStatus (d.HandleCommandResult env result).1 id =
          some (if result.Status = "success" then CommandStatusCompleted
            else CommandStatusFailed) ∧
        storedStatus ((d.HandleCommandResult env result).1.timerCallback env' h) id =
          some CommandStatusTimeout) := by
  refine ⟨?_, ?_, ?_⟩
  · intro s hs ht
    refine ⟨?_, ?_, ?_⟩
    · intro result
      rcases storedStatus_HandleCommandResult d env result id s hs with h | h | h
      · exact ⟨s, h, ht⟩
      · exact ⟨_, h, isTerminal_completed⟩
      · exact ⟨_, h, isTerminal_failed⟩
    · intro h
      rcases storedStatus_timerFires d env h id s hs with h1 | h1
      · exact ⟨s, h1, ht⟩
      · exact ⟨_, h1, isTerminal_timeout⟩
    · intro h
      rcases storedStatus_timerCallback d env h id s hs with h1 | h1
      · exact ⟨s, h1, ht⟩
      · exact ⟨_, h1, isTerminal_timeout⟩
  · intro result h hid hh hnexp hok
    subst hid
    have htimers := HandleCommandResult_timers d env result hok
    rw [hh] at htimers
    have hna : ∀ t, (d.HandleCommandResult env result).1.timers[h]? = some t →
        t.state ≠ TimerState.armed := by
      intro t ht
      rw [htimers] at ht
      exact stopTimer_not_armed d.timers h t ht
    have hne : ∀ t, (d.HandleCommandResult env result).1.timers[h]? = some t →
        t.state ≠ TimerState.expired := by
      intro t ht
      rw [htimers] at ht
      rcases stopTimer_slot d.timers h h t ht with h0 | h0
      · exact hnexp t h0
      · rw [h0]
        decide
    exact ⟨timerExpires_of_not_armed _ h hna, timerCallback_of_not_expired _ env' h hne,
      timerFires_of_not_armed _ env' h hna⟩
  · intro result h t s hid ht hexp htid hs hok hupd hupd'
    subst hid
    have hstatus := storedStatus_HandleCommandResult_ok d env result s hs hok hupd
    refine ⟨hstatus, ?_⟩
    have htimers := HandleCommandResult_timers d env result hok
    have hslot : (d.HandleCommandResult env result).1.timers[h]? = some t := by
      rw [htimers]
      cases d.commandTimeouts result.CommandID with
      | none => exact ht
      | some k =>
        simp only []
        exact stopTimer_keeps d.timers k h t ht (by rw [hexp]; decide)
    have hcb := storedStatus_timerCallback_expired (d.HandleCommandResult env result).1 env' h t _
      hslot hexp (by rw [htid]; exact hstatus) hupd'
    rw [htid] at hcb
    exact hcb

/-- Witness for C5: the sample command after its timer fired (status timeout)
with any result arriving late; the dispatched sample command (status sent,
timer armed) whose result is handled, after which timer 0 neither expires nor
runs; and the sample command whose timer had expired when the result was
handled, whose callback then writes timeout over completed. -/
theorem terminal_status_stays_terminal_witness :
    (storedStatus Sample.timedOut "cmd-1" = some CommandStatusTimeout ∧
      ∀ result, ∃ s',
        storedStatus (Sample.timedOut.HandleCommandResult Sample.env result).1 "cmd-1" = some s' ∧
          isTerminal s' = true) ∧
    (storedStatus Sample.dispatched "cmd-1" = some CommandStatusSent ∧
      Sample.dispatched.timers =
        [{ commandID := "cmd-1", d := 2 * Second, state := TimerState.armed }] ∧
      (Sample.dispatched.HandleCommandResult Sample.env Sample.result).1.timerExpires 0 =
          (Sample.dispatched.HandleCommandResult Sample.env Sample.result).1 ∧
      (Sample.dispatched.HandleCommandResult Sample.env Sample.result).1.timerCallback
          Sample.env 0 =
        (Sample.dispatched.HandleCommandResult Sample.env Sample.result).1 ∧
      (Sample.dispatched.HandleCommandResult Sample.env Sample.result).1.timerFires
          Sample.env 0 =
        (Sample.dispatched.HandleCommandResult Sample.env Sample.result).1) ∧
    (Sample.timerExpired.timers =
        [{ commandID := "cmd-1", d := 2 * Second, state := TimerState.expired }] ∧
      storedStatus (Sample.timerExpired.HandleCommandResult Sample.env Sample.result).1 "cmd-1" =
        some CommandStatusCompleted ∧
      storedStatus ((Sample.timerExpired.HandleCommandResult Sample.env
        Sample.result).1.timerCallback Sample.env 0) "cmd-1" = some CommandStatusTimeout) :=
  ⟨⟨by decide,
      ((terminal_status_stays_terminal Sample.timedOut Sample.env Sample.env "cmd-1").1
        CommandStatusTimeout (by decide) (by decide)).1⟩,
    ⟨by decide, by decide,
      (terminal_status_stays_terminal Sample.dispatched Sample.env Sample.env "cmd-1").2.1
        Sample.result 0 rfl (by decide)
        (by
          intro t ht
          have h0 : Sample.dispatched.timers[0]? =
              some { commandID := "cmd-1", d := 2 * Second, state := TimerState.armed } := by
            decide
          rw [h0] at ht
          cases ht
          decide)
        (by decide)⟩,
    ⟨by decide,
      (terminal_status_stays_terminal Sample.timerExpired Sample.env Sample.env "cmd-1").2.2
        Sample.result 0 { commandID := "cmd-1", d := 2 * Second, state := TimerState.expired }
        CommandStatusSent rfl (by decide) rfl rfl (by decide) (by decide) rfl rfl⟩⟩

/-- C5 as stated fails in both directions.  The sample command timed out
(stored status timeout), then its success result arrives and
`HandleCommandResult` moves the stored status from timeout to completed.  And
when the timer of the sample command had reached its deadline before the
result was handled, the stored status is completed after the result and the
started callback then moves it from completed to timeout. -/
theorem terminal_status_is_overwritten :
    storedStatus Sample.timedOut "cmd-1" = some CommandStatusTimeout ∧
      (Sample.timedOut.HandleCommandResult Sample.env Sample.result).2 = none ∧
      storedStatus (Sample.timedOut.HandleCommandResult Sample.env Sample.result).1 "cmd-1" =
        some CommandStatusCompleted ∧
      storedStatus Sample.resultAfterExpiry "cmd-1" = some CommandStatusCompleted ∧
      Sample.resultAfterExpiry.timers =
        [{ commandID := "cmd-1", d := 2 * Second, state := TimerState.expired }] ∧
      storedStatus (Sample.resultAfterExpiry.timerCallback Sample.env 0) "cmd-1" =
        some CommandStatusTimeout := by
  decide

/-! ## The timeout callback -/

/-- C6, as the code has it: for an id that is not in `pendingCommands`,
`handleCommandTimeout` leaves `pendingCommands`, `commandTimeouts`, the timers,
the result rows and the row of every other command unchanged, but it is not a
no-op: `commandsTimeout` grows by 1 and, when the status write does not fail,
an existing row of the id gets status timeout. -/
theorem handleCommandTimeout_absent (d : Dispatcher) (env : Env) (id : String)
    (habsent : d.pendingCommands id = none) :
    (d.handleCommandTimeout env id).pendingCommands = d.pendingCommands ∧
      (d.handleCommandTimeout env id).commandTimeouts = d.commandTimeouts ∧
      (d.handleCommandTimeout env id).timers = d.timers ∧
      (d.handleCommandTimeout env id).store.commandResults = d.store.commandResults ∧
      (∀ id', id' ≠ id →
        (d.handleCommandTimeout env id).store.commands id' = d.store.commands id') ∧
      (d.handleCommandTimeout env id).commandsTimeout = d.commandsTimeout + 1 ∧
      (env.updateStatusErr = false → ∀ c, d.store.commands id = some c →
        (d.handleCommandTimeout env id).store.commands id =
          some { c with Status := CommandStatusTimeout, UpdatedAt := env.now }) := by
  unfold handleCommandTimeout updateCommandStatus PostgresStore.UpdateCommandStatus
  refine ⟨?_, rfl, rfl, ?_, ?_, rfl, ?_⟩
  · simp only []
    rw [← habsent]
    exact Function.update_eq_self id d.pendingCommands
  · by_cases he : env.updateStatusErr = true
    · simp [he]
    · cases hc : d.store.commands id <;> simp [he, hc]
  · intro id' hne
    by_cases he : env.updateStatusErr = true
    · simp [he]
    · cases hc : d.store.commands id <;> simp [he, hc, Function.update_noteq hne]
  · intro he c hc
    simp [he, hc]

/-- Witness for C6: the sample command after its result was handled. -/
theorem handleCommandTimeout_absent_witness :
    Sample.resultHandled.pendingCommands "cmd-1" = none ∧
      (Sample.resultHandled.handleCommandTimeout Sample.env "cmd-1").pendingCommands =
        Sample.resultHandled.pendingCommands ∧
      (Sample.resultHandled.handleCommandTimeout Sample.env "cmd-1").commandTimeouts =
        Sample.resultHandled.commandTimeouts ∧
      (Sample.resultHandled.handleCommandTimeout Sample.env "cmd-1").timers =
        Sample.resultHandled.timers ∧
      (Sample.resultHandled.handleCommandTimeout Sample.env "cmd-1").store.commandResults =
        Sample.resultHandled.store.commandResults ∧
      (∀ id', id' ≠ "cmd-1" →
        (Sample.resultHandled.handleCommandTimeout Sample.env "cmd-1").store.commands id' =
          Sample.resultHandled.store.commands id') ∧
      (Sample.resultHandled.handleCommandTimeout Sample.env "cmd-1").commandsTimeout =
        Sample.resultHandled.commandsTimeout + 1 ∧
      (Sample.env.updateStatusErr = false → ∀ c, Sample.resultHandled.store.commands "cmd-1" = some c →
        (Sample.resultHandled.handleCommandTimeout Sample.env "cmd-1").store.commands "cmd-1" =
          some { c with Status := CommandStatusTimeout, UpdatedAt := Sample.env.now }) :=
  ⟨by decide, handleCommandTimeout_absent Sample.resultHandled Sample.env "cmd-1" (by decide)⟩

/-- C6 as stated fails: after the result of the sample command was handled the
id is not in `pendingCommands` and the stored status is completed; calling
`handleCommandTimeout` for it sets the stored status to timeout and moves
`commandsTimeout` from 0 to 1. -/
theorem handleCommandTimeout_not_noop :
    Sample.resultHandled.pendingCommands "cmd-1" = none ∧
      storedStatus Sample.resultHandled "cmd-1" = some CommandStatusCompleted ∧
      Sample.resultHandled.commandsTimeout = 0 ∧
      storedStatus (Sample.resultHandled.handleCommandTimeout Sample.env "cmd-1") "cmd-1" =
        some CommandStatusTimeout ∧
      (Sample.resultHandled.handleCommandTimeout Sample.env "cmd-1").commandsTimeout = 1 := by
  decide

end Dispatcher

end AgentManager

namespace Orchestrator

open Go

namespace Engine

/-! ## Retry of a failing step -/

/-- A step whose dispatch fails on every attempt and whose policy allows at
least one retry never returns: every recursion budget is used up, and with a
known step type each activation invokes the handler once more. -/
theorem executeStep_retries_forever (ex : Executor) (execution : WorkflowExecution)
    (step : WorkflowStep) (policy : RetryPolicy) (hpolicy : step.RetryPolicy = some policy)
    (hmax : 1 ≤ policy.MaxRetries)
    (hfail : ∀ calls, ∃ err, (dispatchStep ex calls execution step).1 = .error err)
    (hcalls : ∀ calls, (dispatchStep ex calls execution step).2 = calls + 1)
    (fuel calls : Nat) :
    (executeStep ex execution step fuel calls).returned = none ∧
      (executeStep ex execution step fuel calls).calls = calls + fuel := by
  induction fuel generalizing calls with
  | zero => exact ⟨rfl, rfl⟩
  | succ n ih =>
    obtain ⟨err, herr⟩ := hfail calls
    have hlt : (0 : Int) < policy.MaxRetries := by omega
    unfold executeStep
    simp only [herr, hpolicy, hlt, if_true]
    rw [hcalls calls]
    obtain ⟨h1, h2⟩ := ih (calls + 1)
    exact ⟨h1, by rw [h2]; omega⟩

/-- C8: on the sample step (a command step with `MaxRetries = 1`) with
handlers that fail on every attempt, `executeStep` does not return within any
recursion budget, and a budget of `fuel` activations makes `fuel` handler
invocations: more than `m + 1 = 2`, with no failed step execution returned. -/
theorem executeStep_sample_never_returns (fuel : Nat) :
    (executeStep Sample.failingExecutor Sample.execution Sample.step fuel 0).returned = none ∧
      (executeStep Sample.failingExecutor Sample.execution Sample.step fuel 0).calls = fuel := by
  have h := executeStep_retries_forever Sample.failingExecutor Sample.execution Sample.step
    Sample.policy rfl (by decide) (fun _ => ⟨"connection refused", rfl⟩) (fun _ => rfl) fuel 0
  simpa using h

/-- Without a retry a failing step returns at once: with no policy, or with
`MaxRetries ≤ 0`, one activation returns the step execution with status failed
and the error. -/
theorem executeStep_no_retry (ex : Executor) (execution : WorkflowExecution)
    (step : WorkflowStep) (err : String) (calls fuel : Nat)
    (hpolicy : ∀ policy, step.RetryPolicy = some policy → policy.MaxRetries ≤ 0)
    (hfail : (dispatchStep ex calls execution step).1 = .error err) :
    ∃ stepExec, (executeStep ex execution step (fuel + 1) calls).returned = some (stepExec, some err) ∧
      stepExec.Status = ExecutionStatusFailed ∧ stepExec.RetryCount = 0 ∧
      (executeStep ex execution step (fuel + 1) calls).sleeps = [] := by
  unfold executeStep
  simp only [hfail]
  cases hp : step.RetryPolicy with
  | none => simp
  | some policy =>
    have hle := hpolicy policy hp
    have hnot : ¬ ((0 : Int) < policy.MaxRetries) := by omega
    simp [hnot]

/-! ## Retry delay -/

/-- The loop of `calculateRetryDelay` from a delay within `[0, MaxDelay]`. -/
theorem calculateRetryDelay_loop_eq (policy : RetryPolicy) (hf : 1 ≤ policy.BackoffFactor)
    (n : Nat) (delay : Duration) (h0 : 0 ≤ delay) (hmax : delay ≤ policy.MaxDelay) :
    calculateRetryDelay.loop policy n delay = min (delay * policy.BackoffFactor ^ n) policy.MaxDelay := by
  induction n generalizing delay with
  | zero => simp [calculateRetryDelay.loop, hmax]
  | succ k ih =>
    unfold calculateRetryDelay.loop
    have hpos : 0 ≤ delay * policy.BackoffFactor := mul_nonneg h0 (le_trans zero_le_one hf)
    have hpow : 1 ≤ policy.BackoffFactor ^ k := one_le_pow₀ hf
    have hassoc : delay * policy.BackoffFactor ^ (k + 1) =
        delay * policy.BackoffFactor * policy.BackoffFactor ^ k := by ring
    by_cases hgt : delay * policy.BackoffFactor > policy.MaxDelay
    · simp only [hgt, if_true]
      have : policy.MaxDelay ≤ delay * policy.BackoffFactor ^ (k + 1) := by
        rw [hassoc]
        have hmul := mul_le_mul_of_nonneg_left hpow hpos
        rw [mul_one] at hmul
        exact le_trans (le_of_lt hgt) hmul
      exact (min_eq_right this).symm
    · simp only [hgt, if_false]
      rw [ih _ hpos (not_lt.mp hgt), hassoc]

/-- Where `0 ≤ InitialDelay ≤ MaxDelay`, `calculateRetryDelay` is the clamped
exponential of the specification. -/
theorem calculateRetryDelay_eq_min (policy : RetryPolicy) (retryCount : Int)
    (hf : 1 ≤ policy.BackoffFactor)
    (h0 : 0 ≤ policy.InitialDelay) (hmax : policy.InitialDelay ≤ policy.MaxDelay) :
    calculateRetryDelay policy retryCount =
      min (policy.InitialDelay * policy.BackoffFactor ^ (retryCount - 1).toNat) policy.MaxDelay :=
  calculateRetryDelay_loop_eq policy hf _ _ h0 hmax

/-- C9: for the first retry the delay is not clamped.  With
`InitialDelay = 5 s`, `MaxDelay = 1 s`, factor 2 and `retryCount = 1` the
returned delay is 5 s, above `MaxDelay`, where the clamped formula gives 1 s. -/
theorem calculateRetryDelay_first_retry_unclamped :
    calculateRetryDelay Sample.policyInitialAboveMax 1 = 5 * Second ∧
      calculateRetryDelay Sample.policyInitialAboveMax 1 > Sample.policyInitialAboveMax.MaxDelay ∧
      min (Sample.policyInitialAboveMax.InitialDelay *
          Sample.policyInitialAboveMax.BackoffFactor ^ (1 - 1))
        Sample.policyInitialAboveMax.MaxDelay = 1 * Second := by
  decide

end Engine

namespace Manager

/-! ## Critical events and strategy matching -/

/-- The payload built by `handleCriticalEvent` has no `event` entry, so no
symptom matches it. -/
theorem symptomMatches_critical (now : Int) (event : AgentManager.Event) (symptom : Symptom) :
    symptomMatches
      (decodeInternalEvent (AgentManager.Processor.handleCriticalEvent.internalEvent now event))
      symptom = false := by
  rfl

/-- Every strategy scores 0 on the internal event built by
`handleCriticalEvent`. -/
theorem calculateMatchScore_critical (now : Int) (event : AgentManager.Event)
    (strategy : Strategy) :
    calculateMatchScore
      (decodeInternalEvent (AgentManager.Processor.handleCriticalEvent.internalEvent now event))
      strategy = 0 := by
  unfold calculateMatchScore
  generalize strategy.Symptoms = symptoms
  induction symptoms with
  | nil => rfl
  | cons s rest ih => simp [List.foldl, symptomMatches_critical]

/-- C10: for every event, the internal event that `handleCriticalEvent` builds
gives every strategy the score 0 (the reason is at `payload.reason`, while
`symptomMatches` reads `payload.event.reason`), so `MatchStrategy` returns the
error "no matching strategy found" whatever strategies are enabled. -/
theorem MatchStrategy_critical_never_matches (now : Int) (event : AgentManager.Event)
    (strategies : List Strategy) :
    (∀ strategy ∈ strategies,
      calculateMatchScore
        (decodeInternalEvent (AgentManager.Processor.handleCriticalEvent.internalEvent now event))
        strategy = 0) ∧
      MatchStrategy (.ok strategies)
        (decodeInternalEvent (AgentManager.Processor.handleCriticalEvent.internalEvent now event)) =
        .error "no matching strategy found" := by
  refine ⟨fun s _ => calculateMatchScore_critical now event s, ?_⟩
  have hloop : MatchStrategy.loop
      (decodeInternalEvent (AgentManager.Processor.handleCriticalEvent.internalEvent now event))
      strategies = (none, 0) := by
    unfold MatchStrategy.loop
    induction strategies with
    | nil => rfl
    | cons s rest ih =>
      simp only [List.foldl, calculateMatchScore_critical] at ih ⊢
      simpa using ih
  simp [MatchStrategy, hloop]

/-- The scenario of the specification: the event with reason `OOMKilling` is
critical, the strategy has the symptom of type event with pattern
`OOMKilling`, and the published internal event scores 0 on it. -/
theorem MatchStrategy_oom_sample :
    AgentManager.Processor.isCriticalEvent AgentManager.Sample.oomEvent = true ∧
      (AgentManager.Processor.handleCriticalEvent [] AgentManager.Sample.env
        AgentManager.Sample.oomEvent).2 = none ∧
      calculateMatchScore
        (decodeInternalEvent
          (AgentManager.Processor.handleCriticalEvent.internalEvent 1000 AgentManager.Sample.oomEvent))
        Sample.oomStrategy = 0 := by
  decide

end Manager

end Orchestrator

namespace AgentManager

open Go

/-! ## Severity filter -/

/-- The lookup in the `severityLevels` map, with 0 for a missing key, is the
rank of the specification. -/
theorem SeverityFilter.lookup_severityLevels (severity : String) :
    (SeverityFilter.severityLevels.lookup severity).getD 0 = SeverityFilter.rank severity := by
  unfold SeverityFilter.severityLevels SeverityFilter.rank
  by_cases h1 : severity = "low"
  · subst h1; decide
  by_cases h2 : severity = "medium"
  · subst h2; decide
  by_cases h3 : severity = "high"
  · subst h3; decide
  by_cases h4 : severity = "critical"
  · subst h4; decide
  have e1 : (severity == "low") = false := beq_eq_false_iff_ne.mpr h1
  have e2 : (severity == "medium") = false := beq_eq_false_iff_ne.mpr h2
  have e3 : (severity == "high") = false := beq_eq_false_iff_ne.mpr h3
  have e4 : (severity == "critical") = false := beq_eq_false_iff_ne.mpr h4
  simp [List.lookup, h1, h2, h3, h4, e1, e2, e3, e4]

/-- The severity filter accepts exactly when the rank of the event is at least
the rank of the minimum. -/
theorem SeverityFilter.ShouldProcess_iff (f : SeverityFilter) (event : Event) :
    f.ShouldProcess event = true ↔
      SeverityFilter.rank event.Severity ≥ SeverityFilter.rank f.MinSeverity := by
  unfold SeverityFilter.ShouldProcess
  simp [SeverityFilter.lookup_severityLevels]

/-- A known severity has a rank of at least 1. -/
theorem SeverityFilter.rank_pos (severity : String)
    (h : severity ∈ ["low", "medium", "high", "critical"]) : 1 ≤ SeverityFilter.rank severity := by
  simp only [List.mem_cons, List.mem_singleton, List.not_mem_nil, or_false] at h
  rcases h with h | h | h | h <;> subst h <;> decide

/-- An unknown severity has rank 0. -/
theorem SeverityFilter.rank_unknown (severity : String)
    (h : severity ∉ ["low", "medium", "high", "critical"]) : SeverityFilter.rank severity = 0 := by
  simp only [List.mem_cons, List.mem_singleton, List.not_mem_nil, or_false, not_or] at h
  obtain ⟨h1, h2, h3, h4⟩ := h
  simp [SeverityFilter.rank, h1, h2, h3, h4]

/-- C13, as the code has it: under a minimum severity that is one of low,
medium, high, critical, an event whose severity is not one of the four is
rejected; and under every minimum severity an event is accepted exactly when
its rank is at least the rank of the minimum, with ranks low 1, medium 2,
high 3, critical 4 and 0 for any other string. -/
theorem SeverityFilter_ShouldProcess_spec (f : SeverityFilter) (event : Event) :
    (f.MinSeverity ∈ ["low", "medium", "high", "critical"] →
      event.Severity ∉ ["low", "medium", "high", "critical"] → f.ShouldProcess event = false) ∧
      (f.ShouldProcess event = true ↔
        SeverityFilter.rank event.Severity ≥ SeverityFilter.rank f.MinSeverity) := by
  refine ⟨?_, SeverityFilter.ShouldProcess_iff f event⟩
  intro hmin hsev
  have h1 := SeverityFilter.rank_pos _ hmin
  have h0 := SeverityFilter.rank_unknown _ hsev
  have hiff := SeverityFilter.ShouldProcess_iff f event
  cases hb : f.ShouldProcess event with
  | false => rfl
  | true =>
    have := hiff.mp hb
    omega

/-- Witness for C13: the configured minimum `medium` and an event of severity
`info`. -/
theorem SeverityFilter_ShouldProcess_spec_witness :
    SeverityFilter.ShouldProcess { MinSeverity := "medium" } Sample.infoEvent = false :=
  (SeverityFilter_ShouldProcess_spec { MinSeverity := "medium" } Sample.infoEvent).1
    (by decide) (by decide)

/-- C13 as stated fails: under the minimum severity `warning`, which is not
one of the four, the event of severity `info`, which is not one of the four
either, is accepted. -/
theorem SeverityFilter_unknown_minimum_accepts :
    Sample.infoEvent.Severity ∉ ["low", "medium", "high", "critical"] ∧
      SeverityFilter.ShouldProcess { MinSeverity := "warning" } Sample.infoEvent = true := by
  decide

/-! ## Cache locks and the duplicate filter -/

/-- Reading a key right after `set`: the value is there until the expiry. -/
theorem RedisStore.get_set_same (s : RedisStore) (now : Int) (key : String) (value : RedisValue)
    (ttl : Duration) (httl : 0 < ttl) (t : Int) (ht : t < now + ttl) :
    (s.set now key value ttl).get t key = some value := by
  have hne : ttl ≠ 0 := ne_of_gt httl
  simp [RedisStore.get, RedisStore.set, RedisStore.expiry, hne, ht]

/-- What `AcquireLock` answers when the cache call does not fail: true exactly
when no live entry was under the lock key. -/
theorem RedisStore.AcquireLock_ok (s : RedisStore) (now : Int) (lockKey : String) (ttl : Duration) :
    (s.AcquireLock now false lockKey ttl).2 =
      .ok (decide (s.get now (RedisStore.lockKey lockKey) = none)) := by
  unfold RedisStore.AcquireLock RedisStore.setNX
  cases h : s.get now (RedisStore.lockKey lockKey) <;> simp [h]

/-- Reading another key after `set`: as before. -/
theorem RedisStore.get_set_other (s : RedisStore) (now : Int) (key other : String)
    (value : RedisValue) (ttl : Duration) (t : Int) (hne : other ≠ key) :
    (s.set now key value ttl).get t other = s.get t other := by
  simp [RedisStore.get, RedisStore.set, Function.update_noteq hne]

/-- Two lock keys are equal only for equal keys. -/
theorem RedisStore.lockKey_injective (a b : String)
    (h : RedisStore.lockKey a = RedisStore.lockKey b) : a = b := by
  have hd := congrArg String.data h
  simp only [RedisStore.lockKey, String.data_append, List.append_cancel_left_eq] at hd
  exact String.ext hd

/-- Taking the lock of one key leaves the lock of every other key as it is. -/
theorem RedisStore.get_AcquireLock_other (s : RedisStore) (now : Int) (fail : Bool)
    (key other : String) (ttl : Duration) (t : Int) (hne : other ≠ key) :
    (s.AcquireLock now fail key ttl).1.get t (RedisStore.lockKey other) =
      s.get t (RedisStore.lockKey other) := by
  have hk : RedisStore.lockKey other ≠ RedisStore.lockKey key :=
    fun h => hne (RedisStore.lockKey_injective _ _ h)
  unfold RedisStore.AcquireLock RedisStore.setNX
  cases fail with
  | true => rfl
  | false =>
    simp only [Bool.false_eq_true, if_false]
    cases hg : s.get now (RedisStore.lockKey key) with
    | some v => rfl
    | none => exact RedisStore.get_set_other _ _ _ _ _ _ _ hk

/-- The answer of `ShouldProcess`: true on a cache error, and otherwise
whether no live lock is held under the key of the event. -/
theorem DuplicateFilter.ShouldProcess_eq (f : DuplicateFilter) (cache : RedisStore)
    (env : PipelineEnv) (event : Event) :
    (f.ShouldProcess cache env event).2 =
      (env.lockErr ||
        decide (cache.get env.now (RedisStore.lockKey (DuplicateFilter.key event)) = none)) := by
  cases herr : env.lockErr with
  | true => simp [DuplicateFilter.ShouldProcess, RedisStore.AcquireLock, herr]
  | false =>
    have hok := RedisStore.AcquireLock_ok cache env.now (DuplicateFilter.key event) f.ttl
    simp only [DuplicateFilter.ShouldProcess, hok, Bool.false_or]
    rw [herr, hok]

/-- The cache after `ShouldProcess` is the cache after `AcquireLock` for the
key of the event. -/
theorem DuplicateFilter.ShouldProcess_cache (f : DuplicateFilter) (cache : RedisStore)
    (env : PipelineEnv) (event : Event) :
    (f.ShouldProcess cache env event).1 =
      (cache.AcquireLock env.now env.lockErr (DuplicateFilter.key event) f.ttl).1 := by
  unfold DuplicateFilter.ShouldProcess
  simp only []
  split <;> rfl

/-- C11: the key of an event is `event:seen:<clusterID>:<reason>:<name>`, with
`<name>` the label `name` (empty when absent), and the lock is kept by the
cache under `lock:<key>`.  When the cache call fails `ShouldProcess` returns
true; when it does not fail, `ShouldProcess` returns what `AcquireLock` answers
for that key, which is true exactly when no live lock was held for the key
(the lock is newly created, first occurrence) and false when the lock was
already held (duplicate); a newly created lock is held for the whole TTL
window that follows, so an event with the same key within the window is a
duplicate; and the lock of one key does not change the answer for an event
with another key. -/
theorem DuplicateFilter_ShouldProcess_spec (f : DuplicateFilter) (cache : RedisStore)
    (env : PipelineEnv) (event : Event) :
    DuplicateFilter.key event =
        "event:seen:" ++ event.ClusterID ++ ":" ++ event.Reason ++ ":" ++
          (event.Labels.lookup "name").getD "" ∧
      RedisStore.lockKey (DuplicateFilter.key event) =
        "lock:event:seen:" ++ event.ClusterID ++ ":" ++ event.Reason ++ ":" ++
          (event.Labels.lookup "name").getD "" ∧
      (env.lockErr = true → (f.ShouldProcess cache env event).2 = true) ∧
      (env.lockErr = false →
        (cache.AcquireLock env.now false (DuplicateFilter.key event) f.ttl).2 =
            .ok (f.ShouldProcess cache env event).2 ∧
          ((f.ShouldProcess cache env event).2 = true ↔
            cache.get env.now (RedisStore.lockKey (DuplicateFilter.key event)) = none) ∧
          ((f.ShouldProcess cache env event).2 = false ↔
            cache.get env.now (RedisStore.lockKey (DuplicateFilter.key event)) ≠ none) ∧
          ((f.ShouldProcess cache env event).2 = true → 0 < f.ttl →
            ∀ t, t < env.now + f.ttl →
              (f.ShouldProcess cache env event).1.get t
                (RedisStore.lockKey (DuplicateFilter.key event)) =
                  some (RedisValue.str "locked")) ∧
          ((f.ShouldProcess cache env event).2 = true → 0 < f.ttl →
            ∀ (env2 : PipelineEnv) (other : Event), env2.lockErr = false →
              DuplicateFilter.key other = DuplicateFilter.key event →
              env2.now < env.now + f.ttl →
              (f.ShouldProcess (f.ShouldProcess cache env event).1 env2 other).2 = false)) ∧
      (∀ (env2 : PipelineEnv) (other : Event),
        DuplicateFilter.key other ≠ DuplicateFilter.key event →
        (f.ShouldProcess (f.ShouldProcess cache env event).1 env2 other).2 =
          (f.ShouldProcess cache env2 other).2) := by
  have hkey : DuplicateFilter.key event =
      "event:seen:" ++ event.ClusterID ++ ":" ++ event.Reason ++ ":" ++
        (event.Labels.lookup "name").getD "" := rfl
  have hheldAll : env.lockErr = false → (f.ShouldProcess cache env event).2 = true →
      0 < f.ttl → ∀ t, t < env.now + f.ttl →
        (f.ShouldProcess cache env event).1.get t
          (RedisStore.lockKey (DuplicateFilter.key event)) = some (RedisValue.str "locked") := by
    intro herr htrue httl t ht
    rw [DuplicateFilter.ShouldProcess_eq, herr] at htrue
    have hnone : cache.get env.now (RedisStore.lockKey (DuplicateFilter.key event)) = none := by
      simpa using htrue
    have hcache : (f.ShouldProcess cache env event).1 =
        cache.set env.now (RedisStore.lockKey (DuplicateFilter.key event))
          (RedisValue.str "locked") f.ttl := by
      simp [DuplicateFilter.ShouldProcess, RedisStore.AcquireLock, RedisStore.setNX, herr, hnone]
    rw [hcache]
    exact RedisStore.get_set_same _ _ _ _ _ httl t ht
  refine ⟨hkey, ?_, ?_, ?_, ?_⟩
  · rw [hkey]
    simp only [RedisStore.lockKey, String.append_assoc]
    rw [← String.append_assoc]
    rfl
  · intro herr
    simp [DuplicateFilter.ShouldProcess, RedisStore.AcquireLock, herr]
  · intro herr
    have hok := RedisStore.AcquireLock_ok cache env.now (DuplicateFilter.key event) f.ttl
    have hres : (f.ShouldProcess cache env event).2 =
        decide (cache.get env.now (RedisStore.lockKey (DuplicateFilter.key event)) = none) := by
      simp only [DuplicateFilter.ShouldProcess, herr, hok]
    refine ⟨by rw [hres]; exact hok, by rw [hres]; simp, by rw [hres]; simp,
      hheldAll herr, ?_⟩
    intro htrue httl env2 other herr2 hsame hwin
    rw [DuplicateFilter.ShouldProcess_eq, herr2, hsame, hheldAll herr htrue httl env2.now hwin]
    simp
  · intro env2 other hne
    rw [DuplicateFilter.ShouldProcess_eq, DuplicateFilter.ShouldProcess_eq f cache env2 other,
      DuplicateFilter.ShouldProcess_cache,
      RedisStore.get_AcquireLock_other _ _ _ _ _ _ _ hne]

/-- Witness for C11: the crash event, whose key is
`event:seen:c1:CrashLoopBackOff:p1`, on the empty cache and on the cache that
already holds its lock; the same with a failing cache; and an event with
another reason, which the lock of the crash event does not make a
duplicate. -/
theorem DuplicateFilter_ShouldProcess_spec_witness :
    DuplicateFilter.key Sample.crashEvent = "event:seen:c1:CrashLoopBackOff:p1" ∧
      (DuplicateFilter.ShouldProcess { ttl := 5 * Minute } Sample.emptyCache Sample.pipelineEnv
        Sample.crashEvent).2 = true ∧
      (DuplicateFilter.ShouldProcess { ttl := 5 * Minute }
        (DuplicateFilter.ShouldProcess { ttl := 5 * Minute } Sample.emptyCache Sample.pipelineEnv
          Sample.crashEvent).1 Sample.pipelineEnvLater Sample.crashEventAgain).2 = false ∧
      (DuplicateFilter.ShouldProcess { ttl := 5 * Minute } Sample.emptyCache
        { Sample.pipelineEnv with lockErr := true } Sample.crashEvent).2 = true ∧
      DuplicateFilter.key Sample.infoEvent = "event:seen:c1:Pulled:p1" ∧
      (DuplicateFilter.ShouldProcess { ttl := 5 * Minute }
        (DuplicateFilter.ShouldProcess { ttl := 5 * Minute } Sample.emptyCache Sample.pipelineEnv
          Sample.crashEvent).1 Sample.pipelineEnvLater Sample.infoEvent).2 =
        (DuplicateFilter.ShouldProcess { ttl := 5 * Minute } Sample.emptyCache
          Sample.pipelineEnvLater Sample.infoEvent).2 ∧
      (DuplicateFilter.ShouldProcess { ttl := 5 * Minute }
        (DuplicateFilter.ShouldProcess { ttl := 5 * Minute } Sample.emptyCache Sample.pipelineEnv
          Sample.crashEvent).1 Sample.pipelineEnvLater Sample.infoEvent).2 = true :=
  ⟨by decide,
    ((DuplicateFilter_ShouldProcess_spec { ttl := 5 * Minute } Sample.emptyCache Sample.pipelineEnv
      Sample.crashEvent).2.2.2.1 (by decide)).2.1.mpr (by decide),
    ((DuplicateFilter_ShouldProcess_spec { ttl := 5 * Minute } Sample.emptyCache Sample.pipelineEnv
      Sample.crashEvent).2.2.2.1 (by decide)).2.2.2.2 (by decide) (by decide)
      Sample.pipelineEnvLater Sample.crashEventAgain (by decide) (by decide) (by decide),
    (DuplicateFilter_ShouldProcess_spec { ttl := 5 * Minute } Sample.emptyCache
      { Sample.pipelineEnv with lockErr := true } Sample.crashEvent).2.2.1 (by decide),
    by decide,
    (DuplicateFilter_ShouldProcess_spec { ttl := 5 * Minute } Sample.emptyCache Sample.pipelineEnv
      Sample.crashEvent).2.2.2.2 Sample.pipelineEnvLater Sample.infoEvent (by decide),
    by decide⟩

/-! ## The event pipeline on a duplicate -/

/-- A counter key is never a lock key: they differ in their first character. -/
theorem RedisStore.eventCounterKey_ne_lockKey (clusterID severity lockKey : String) :
    RedisStore.eventCounterKey clusterID severity ≠ RedisStore.lockKey lockKey := by
  intro h
  have hd := congrArg String.data h
  simp [RedisStore.eventCounterKey, RedisStore.lockKey, String.data_append] at hd

/-- Incrementing a counter leaves every other key as it is. -/
theorem RedisStore.get_incr_other (s : RedisStore) (now t : Int) (key other : String)
    (hne : other ≠ key) : (s.incr now key).1.get t other = s.get t other := by
  unfold RedisStore.incr
  cases h : s.get now key with
  | none => simp [RedisStore.get, Function.update_noteq hne]
  | some v =>
    cases v with
    | int n => simp [RedisStore.get, Function.update_noteq hne]
    | str x => rfl
    | agent a => rfl

/-- The event counter does not touch the locks. -/
theorem RedisStore.get_IncrementEventCounter_lock (s : RedisStore) (now t : Int) (fail : Bool)
    (clusterID severity lockKey : String) :
    (s.IncrementEventCounter now fail clusterID severity).1.get t (RedisStore.lockKey lockKey) =
      s.get t (RedisStore.lockKey lockKey) := by
  unfold RedisStore.IncrementEventCounter
  cases fail with
  | true => rfl
  | false =>
    have h := RedisStore.get_incr_other s now t (RedisStore.eventCounterKey clusterID severity)
      (RedisStore.lockKey lockKey) (RedisStore.eventCounterKey_ne_lockKey _ _ _).symm
    simp only [Bool.false_eq_true, if_false]
    cases hr : (s.incr now (RedisStore.eventCounterKey clusterID severity)).2 <;>
      simpa [hr] using h

/-- A severity of at least medium passes the default severity filter. -/
theorem SeverityFilter.ShouldProcess_medium (event : Event)
    (h : event.Severity ∈ ["medium", "high", "critical"]) :
    SeverityFilter.ShouldProcess { MinSeverity := "medium" } event = true := by
  rw [SeverityFilter.ShouldProcess_iff]
  simp only [List.mem_cons, List.mem_singleton, List.not_mem_nil, or_false] at h
  rcases h with h | h | h <;> rw [h] <;> decide

end AgentManager

namespace AgentManager

open Go

namespace Processor

/-- The default filters accept an event of severity at least medium whose
lock is not held, and leave the lock set. -/
theorem applyFilters_default_first (cache : RedisStore) (env : PipelineEnv) (event : Event)
    (hsev : event.Severity ∈ ["medium", "high", "critical"]) (hlock : env.lockErr = false)
    (hfree : cache.get env.now (RedisStore.lockKey (DuplicateFilter.key event)) = none) :
    applyFilters env event
        [EventFilter.severity { MinSeverity := "medium" },
          EventFilter.duplicate { ttl := 5 * Minute }] cache =
      (cache.set env.now (RedisStore.lockKey (DuplicateFilter.key event))
        (RedisValue.str "locked") (5 * Minute), true) := by
  simp [applyFilters, EventFilter.ShouldProcess, SeverityFilter.ShouldProcess_medium event hsev,
    DuplicateFilter.ShouldProcess, RedisStore.AcquireLock, RedisStore.setNX, hlock, hfree]

/-- The default filters reject an event whose lock is held. -/
theorem applyFilters_default_duplicate (cache : RedisStore) (env : PipelineEnv) (event : Event)
    (hsev : event.Severity ∈ ["medium", "high", "critical"]) (hlock : env.lockErr = false)
    (v : RedisValue)
    (hheld : cache.get env.now (RedisStore.lockKey (DuplicateFilter.key event)) = some v) :
    applyFilters env event
        [EventFilter.severity { MinSeverity := "medium" },
          EventFilter.duplicate { ttl := 5 * Minute }] cache = (cache, false) := by
  simp [applyFilters, EventFilter.ShouldProcess, SeverityFilter.ShouldProcess_medium event hsev,
    DuplicateFilter.ShouldProcess, RedisStore.AcquireLock, RedisStore.setNX, hlock, hheld]

/-- An event that the filters reject only moves `eventsFiltered`. -/
theorem ProcessEvent_rejected (p : Processor) (env : PipelineEnv) (event : Event)
    (cache1 : RedisStore) (h : applyFilters env event p.filters p.cache = (cache1, false)) :
    p.ProcessEvent env event =
      ({ p with cache := cache1, eventsFiltered := p.eventsFiltered + 1 }, event, none) := by
  simp [ProcessEvent, h]

/-- An event that the filters accept and the store saves: one more row, one
more processed event, and a cache that differs from the filtered one by the
event counter only. -/
theorem ProcessEvent_accepted (p : Processor) (env : PipelineEnv) (event : Event)
    (cache1 : RedisStore) (h : applyFilters env event p.filters p.cache = (cache1, true))
    (hsave : env.saveEventErr = false) (hempty : p.store.events = []) :
    (p.ProcessEvent env event).2.2 = none ∧
      (p.ProcessEvent env event).1.store.events.length = 1 ∧
      (p.ProcessEvent env event).1.filters = p.filters ∧
      (p.ProcessEvent env event).1.eventsProcessed = p.eventsProcessed + 1 ∧
      (p.ProcessEvent env event).1.eventsFiltered = p.eventsFiltered ∧
      (p.ProcessEvent env event).1.eventsFailed = p.eventsFailed ∧
      (∃ clusterID severity,
        (p.ProcessEvent env event).1.cache =
          (cache1.IncrementEventCounter env.now env.incrErr clusterID severity).1) := by
  simp only [ProcessEvent, h, PostgresStore.SaveEvent, hsave, hempty]
  simp only [Bool.not_true, Bool.false_eq_true, if_false, List.any_nil, List.nil_append]
  split <;> refine ⟨?_, ?_, ?_, ?_, ?_, ?_, _, _, rfl⟩ <;> first | rfl | trivial

/-- C12: on a store without event rows and an empty cache, with lock and
insert calls that do not fail, two events with the same cluster id, reason and
`name` label and a severity of at least medium, the second within five minutes
of the first, leave exactly one event row, `eventsFiltered` grown by 1 and
`eventsProcessed` grown by 1; neither call returns an error. -/
theorem ProcessEvent_duplicate_pair (store : PostgresStore) (cache : RedisStore)
    (env1 env2 : PipelineEnv) (e1 e2 : Event)
    (hstore : store.events = []) (hcache : ∀ key, cache.data key = none)
    (hcluster : e1.ClusterID = e2.ClusterID) (hreason : e1.Reason = e2.Reason)
    (hname : e1.Labels.lookup "name" = e2.Labels.lookup "name")
    (hsev1 : e1.Severity ∈ ["medium", "high", "critical"])
    (hsev2 : e2.Severity ∈ ["medium", "high", "critical"])
    (hok1 : env1.lockErr = false ∧ env1.saveEventErr = false) (hok2 : env2.lockErr = false)
    (hwindow : env2.now < env1.now + 5 * Minute) :
    ((NewProcessor store cache).ProcessEvent env1 e1).2.2 = none ∧
      ((((NewProcessor store cache).ProcessEvent env1 e1).1).ProcessEvent env2 e2).2.2 = none ∧
      ((((NewProcessor store cache).ProcessEvent env1 e1).1).ProcessEvent env2 e2).1.store.events.length
        = 1 ∧
      ((((NewProcessor store cache).ProcessEvent env1 e1).1).ProcessEvent env2 e2).1.eventsFiltered
        = (NewProcessor store cache).eventsFiltered + 1 ∧
      ((((NewProcessor store cache).ProcessEvent env1 e1).1).ProcessEvent env2 e2).1.eventsProcessed
        = (NewProcessor store cache).eventsProcessed + 1 := by
  have hkey : DuplicateFilter.key e2 = DuplicateFilter.key e1 := by
    simp [DuplicateFilter.key, hcluster, hreason, hname]
  have hfree : cache.get env1.now (RedisStore.lockKey (DuplicateFilter.key e1)) = none := by
    simp [RedisStore.get, hcache]
  have hf1 := applyFilters_default_first cache env1 e1 hsev1 hok1.1 hfree
  obtain ⟨herr1, hlen1, hfil1, hproc1, hflt1, _, cid, sev, hcache1⟩ :=
    ProcessEvent_accepted (NewProcessor store cache) env1 e1 _ hf1 hok1.2 hstore
  have hheld : ((NewProcessor store cache).ProcessEvent env1 e1).1.cache.get env2.now
      (RedisStore.lockKey (DuplicateFilter.key e2)) = some (RedisValue.str "locked") := by
    rw [hcache1, hkey, RedisStore.get_IncrementEventCounter_lock]
    exact RedisStore.get_set_same _ _ _ _ _ (by decide) _ hwindow
  have hf2 := applyFilters_default_duplicate
    ((NewProcessor store cache).ProcessEvent env1 e1).1.cache env2 e2 hsev2 hok2 _ hheld
  have hrej := ProcessEvent_rejected ((NewProcessor store cache).ProcessEvent env1 e1).1 env2 e2 _
    (by rw [hfil1]; exact hf2)
  rw [hrej]
  exact ⟨herr1, rfl, hlen1, by simp [hflt1], by simp [hproc1]⟩

/-- Witness for C12: the crash event twice, one second apart, on the empty
store and cache. -/
theorem ProcessEvent_duplicate_pair_witness :
    ((NewProcessor Sample.emptyStore Sample.emptyCache).ProcessEvent Sample.pipelineEnv
        Sample.crashEvent).2.2 = none ∧
      ((((NewProcessor Sample.emptyStore Sample.emptyCache).ProcessEvent Sample.pipelineEnv
        Sample.crashEvent).1).ProcessEvent Sample.pipelineEnvLater Sample.crashEventAgain).2.2 =
          none ∧
      ((((NewProcessor Sample.emptyStore Sample.emptyCache).ProcessEvent Sample.pipelineEnv
        Sample.crashEvent).1).ProcessEvent Sample.pipelineEnvLater
          Sample.crashEventAgain).1.store.events.length = 1 ∧
      ((((NewProcessor Sample.emptyStore Sample.emptyCache).ProcessEvent Sample.pipelineEnv
        Sample.crashEvent).1).ProcessEvent Sample.pipelineEnvLater
          Sample.crashEventAgain).1.eventsFiltered =
        (NewProcessor Sample.emptyStore Sample.emptyCache).eventsFiltered + 1 ∧
      ((((NewProcessor Sample.emptyStore Sample.emptyCache).ProcessEvent Sample.pipelineEnv
        Sample.crashEvent).1).ProcessEvent Sample.pipelineEnvLater
          Sample.crashEventAgain).1.eventsProcessed =
        (NewProcessor Sample.emptyStore Sample.emptyCache).eventsProcessed + 1 :=
  ProcessEvent_duplicate_pair Sample.emptyStore Sample.emptyCache Sample.pipelineEnv
    Sample.pipelineEnvLater Sample.crashEvent Sample.crashEventAgain rfl (fun _ => rfl) rfl rfl rfl
    (by decide) (by decide) (by decide) (by decide) (by decide)

end Processor

end AgentManager

namespace Orchestrator

open Go

namespace Engine

/-! ## The contains operator -/

/-- The helper `contains` is a test for a leading occurrence: it holds exactly
when `substr` is an initial segment of `s`. -/
theorem contains_iff_initial (s substr : String) :
    contains s substr = true ↔ substr.data <+: s.data := by
  unfold contains
  rw [List.prefix_iff_eq_take]
  constructor
  · intro h
    simp only [Bool.and_eq_true, decide_eq_true_eq, beq_iff_eq] at h
    exact h.2.symm
  · intro h
    simp only [Bool.and_eq_true, decide_eq_true_eq, beq_iff_eq]
    refine ⟨?_, h.symm⟩
    have hlen := congrArg List.length h
    rw [List.length_take] at hlen
    omega

/-- C19: the context value `pod OOMKilled` contains `OOM` (after `pod ` and
before `Killed`), yet the condition `analysis contains "OOM"` evaluates to
false, because `contains` only compares the leading characters. -/
theorem contains_misses_inner_occurrence :
    "OOM".data <:+: "pod OOMKilled".data ∧
      evaluateCondition Sample.oomExecution Sample.containsCondition = some false ∧
      contains "pod OOMKilled" "OOM" = false ∧
      contains "OOMKilled pod" "OOM" = true := by
  refine ⟨⟨"pod ".data, "Killed".data, rfl⟩, rfl, rfl, rfl⟩

/-! ## Context keys of step outputs -/

/-- Two lists that agree after appending the same separator and arbitrary
tails: they are equal, or one followed by the separator starts the other. -/
theorem append_sep_eq (a b x y : List Char) (u : Char) (h : a ++ u :: x = b ++ u :: y) :
    a = b ∨ (a ++ [u]) <+: b ∨ (b ++ [u]) <+: a := by
  rcases List.append_eq_append_iff.mp h with ⟨c, hb, hc⟩ | ⟨c, ha, hc⟩
  · cases c with
    | nil => left; simpa using hb.symm
    | cons v c' =>
      right; left
      simp only [List.cons_append, List.cons.injEq] at hc
      obtain ⟨huv, _⟩ := hc
      subst huv
      exact ⟨c', by simp [hb]⟩
  · cases c with
    | nil => left; simpa using ha
    | cons v c' =>
      right; right
      simp only [List.cons_append, List.cons.injEq] at hc
      obtain ⟨huv, _⟩ := hc
      subst huv
      exact ⟨c', by simp [ha]⟩

/-- Context keys of two steps collide only if the ids are equal or one id
followed by an underscore starts the other id. -/
theorem contextKey_eq (id1 id2 k1 k2 : String) (h : contextKey id1 k1 = contextKey id2 k2) :
    id1 = id2 ∨ (id1.data ++ ['_']) <+: id2.data ∨ (id2.data ++ ['_']) <+: id1.data := by
  have hd := congrArg String.data h
  simp only [contextKey, String.data_append] at hd
  have hd2 : id1.data ++ '_' :: k1.data = id2.data ++ '_' :: k2.data := by
    simpa using hd
  rcases append_sep_eq _ _ _ _ _ hd2 with h1 | h1 | h1
  · left; exact String.ext h1
  · right; left; exact h1
  · right; right; exact h1

/-- Writing a key leaves the entry of every other key as it is. -/
theorem lookup_mapSet_other (m : List (String × Value)) (key other : String) (value : Value)
    (hne : other ≠ key) : (mapSet m key value).lookup other = m.lookup other := by
  unfold mapSet
  induction m with
  | nil =>
    have : (other == key) = false := beq_eq_false_iff_ne.mpr hne
    simp [List.lookup, this]
  | cons kv rest ih =>
    obtain ⟨a, b⟩ := kv
    by_cases hak : a = key
    · subst hak
      have : (other == a) = false := beq_eq_false_iff_ne.mpr hne
      simpa [List.filter, List.lookup, this] using ih
    · have hkeep : (a != key) = true := by simpa using hak
      by_cases hoa : other = a
      · subst hoa
        simp [List.filter, hkeep, List.lookup]
      · have : (other == a) = false := beq_eq_false_iff_ne.mpr hoa
        simpa [List.filter, hkeep, List.lookup, this] using ih

/-- Merging the output of a step leaves every entry whose key is not a key of
that step as it is. -/
theorem lookup_mergeOutput_other (context output : List (String × Value)) (stepID key : String)
    (hne : ∀ k, key ≠ contextKey stepID k) :
    (mergeOutput context stepID output).lookup key = context.lookup key := by
  unfold mergeOutput
  induction output generalizing context with
  | nil => rfl
  | cons kv rest ih =>
    simp only [List.foldl]
    rw [ih, lookup_mapSet_other _ _ _ _ (hne kv.1)]

/-- Completing an execution does not touch its context. -/
theorem completeExecution_context (e : Engine) (execution : WorkflowExecution)
    (status : ExecutionStatus) (errorMsg : String) :
    (completeExecution e execution status errorMsg).2.Context = execution.Context := by
  unfold completeExecution
  by_cases h : errorMsg = "" <;> simp [h]

/-- C20, as the code has it: a context entry written for the step `id1` is
not overwritten while the later steps `rest` of the workflow run, and no key of
a later step equals a key of `id1`, provided every later step id differs from
`id1` and neither id followed by an underscore is the beginning of the other
(as holds for distinct ids without underscores). -/
theorem later_steps_keep_context_entry (ex : Executor) (fuel : Nat) (rest : List WorkflowStep)
    (e : Engine) (execution : WorkflowExecution) (calls : Nat) (id1 k1 : String)
    (hsep : ∀ s ∈ rest, s.ID ≠ id1 ∧ ¬ (id1.data ++ ['_']) <+: s.ID.data ∧
      ¬ (s.ID.data ++ ['_']) <+: id1.data) :
    (∀ s ∈ rest, ∀ k2, contextKey id1 k1 ≠ contextKey s.ID k2) ∧
      (executeWorkflow.loop ex fuel rest e execution calls).execution.Context.lookup
          (contextKey id1 k1) =
        execution.Context.lookup (contextKey id1 k1) := by
  have hkeys : ∀ s ∈ rest, ∀ k2, contextKey id1 k1 ≠ contextKey s.ID k2 := by
    intro s hs k2 heq
    obtain ⟨h1, h2, h3⟩ := hsep s hs
    rcases contextKey_eq _ _ _ _ heq with h | h | h
    · exact h1 h.symm
    · exact h2 h
    · exact h3 h
  refine ⟨hkeys, ?_⟩
  clear hsep
  revert hkeys
  induction rest generalizing e execution calls with
  | nil =>
    intro _
    simp only [executeWorkflow.loop]
    rw [completeExecution_context]
  | cons step rest ih =>
    intro hkeys
    have hstep := hkeys step (List.mem_cons_self _ _)
    have hrest : ∀ s ∈ rest, ∀ k2, contextKey id1 k1 ≠ contextKey s.ID k2 :=
      fun s hs => hkeys s (List.mem_cons_of_mem _ hs)
    unfold executeWorkflow.loop
    cases hshould : shouldExecuteStep execution step with
    | none => rfl
    | some b =>
      cases b with
      | false => exact ih e execution calls hrest
      | true =>
        simp only []
        cases hrun : (executeStep ex execution step fuel calls).returned with
        | none => rfl
        | some r =>
          obtain ⟨stepExec, err⟩ := r
          cases err with
          | some msg =>
            simp only [handleStepFailure]
            rw [completeExecution_context]
          | none =>
            simp only []
            have hmerge : (match stepExec.Output with
                | some output =>
                  { ({ execution with StepExecutions := execution.StepExecutions ++ [stepExec] } :
                      WorkflowExecution) with
                    Context := mergeOutput execution.Context step.ID output }
                | none =>
                  { execution with StepExecutions := execution.StepExecutions ++ [stepExec] }
                ).Context.lookup (contextKey id1 k1) =
                  execution.Context.lookup (contextKey id1 k1) := by
              cases stepExec.Output with
              | none => rfl
              | some output => exact lookup_mergeOutput_other _ _ _ _ hstep
            split
            · split
              · simp only [executeFailureBranch]
                rw [completeExecution_context]
                exact hmerge
              · rw [completeExecution_context]
                exact hmerge
            · rw [ih _ _ _ hrest]
              exact hmerge

/-- Witness for C20: the step `check` followed by the step `report`. -/
theorem later_steps_keep_context_entry_witness :
    (∀ s ∈ [Sample.notifyStep "report"], ∀ k2,
        contextKey "check" "pod_status" ≠ contextKey s.ID k2) ∧
      (executeWorkflow.loop Sample.outputExecutor 1 [Sample.notifyStep "report"] Sample.engine
          { Sample.execution with
            Context := [("step_check_pod_status", Value.str "CrashLoopBackOff")] }
          1).execution.Context.lookup (contextKey "check" "pod_status") =
        ({ Sample.execution with
            Context := [("step_check_pod_status", Value.str "CrashLoopBackOff")] } :
          WorkflowExecution).Context.lookup (contextKey "check" "pod_status") :=
  later_steps_keep_context_entry Sample.outputExecutor 1 [Sample.notifyStep "report"]
    Sample.engine _ 1 "check" "pod_status" (by
      intro s hs
      simp only [List.mem_singleton] at hs
      subst hs
      decide)

/-- C20 as stated fails: the workflow has the two distinct step ids `check`
and `check_pod`.  Step `check` is an analysis step; the reasoning service
answers `{pod_status: "CrashLoopBackOff"}`, which is its output, and the merge
writes the context key `step_check_pod_status`.  Step `check_pod` is a
notification step; the output of `ExecuteNotification` has the entry `status`,
whose key is the same string, and its merge overwrites the entry of the first
step with `sent`. -/
theorem distinct_steps_share_context_key :
    "check" ≠ "check_pod" ∧
      contextKey "check" "pod_status" = contextKey "check_pod" "status" ∧
      (ExecuteNotification 1001 (Sample.notifyStep "check_pod")).map (fun kv => kv.1) =
        ["channel", "message", "sent_at", "status"] ∧
      (executeWorkflow Sample.engine Sample.outputExecutor 1 Sample.firstStepWorkflow
          Sample.execution).execution.Context =
        [("step_check_pod_status", Value.str "CrashLoopBackOff")] ∧
      (executeWorkflow Sample.engine Sample.outputExecutor 1 Sample.twoStepWorkflow
          Sample.execution).outcome = Outcome.returned ∧
      (executeWorkflow Sample.engine Sample.outputExecutor 1 Sample.twoStepWorkflow
          Sample.execution).execution.StepExecutions.map (fun x => (x.StepID, x.Output)) =
        [("check", some [("pod_status", Value.str "CrashLoopBackOff")]),
         ("check_pod", some [("channel", Value.str ""), ("message", Value.str ""),
            ("sent_at", Value.num 1001), ("status", Value.str "sent")])] ∧
      (executeWorkflow Sample.engine Sample.outputExecutor 1 Sample.twoStepWorkflow
          Sample.execution).execution.Context =
        [("step_check_pod_channel", Value.str ""), ("step_check_pod_message", Value.str ""),
         ("step_check_pod_sent_at", Value.num 1001),
         ("step_check_pod_status", Value.str "sent")] := by
  refine ⟨by decide, by decide, rfl, rfl, rfl, rfl, rfl⟩

end Engine

end Orchestrator

namespace Orchestrator

open Go

namespace Manager

/-! ## Strategy selection -/

/-- The score of a strategy is 10 times the number of its symptoms that match
the event. -/
theorem calculateMatchScore_eq (event : InternalEvent) (strategy : Strategy) :
    calculateMatchScore event strategy =
      10 * ((strategy.Symptoms.filter (fun s => symptomMatches event s)).length : Int) := by
  unfold calculateMatchScore
  have key : ∀ (symptoms : List Symptom) (acc : Int),
      symptoms.foldl (fun score symptom => if symptomMatches event symptom then score + 10 else score)
        acc = acc + 10 * ((symptoms.filter (fun s => symptomMatches event s)).length : Int) := by
    intro symptoms
    induction symptoms with
    | nil => intro acc; simp
    | cons s rest ih =>
      intro acc
      simp only [List.foldl]
      rw [ih]
      by_cases hm : symptomMatches event s = true
      · simp [hm, List.filter]
        ring
      · simp [hm, List.filter]
  rw [key]
  simp

/-- The loop of `MatchStrategy`: either no strategy scores above 0 and there
is no best match, or the best match is the first strategy of the list whose
score is the largest one. -/
theorem MatchStrategy_loop_spec (event : InternalEvent) (strategies : List Strategy) :
    (MatchStrategy.loop event strategies = (none, 0) ∧
        ∀ s ∈ strategies, calculateMatchScore event s ≤ 0) ∨
      ∃ best before after,
        MatchStrategy.loop event strategies = (some best, calculateMatchScore event best) ∧
          strategies = before ++ best :: after ∧
          0 < calculateMatchScore event best ∧
          (∀ s ∈ before, calculateMatchScore event s < calculateMatchScore event best) ∧
          ∀ s ∈ after, calculateMatchScore event s ≤ calculateMatchScore event best := by
  unfold MatchStrategy.loop
  induction strategies using List.reverseRecOn with
  | nil => left; exact ⟨rfl, by simp⟩
  | append_singleton l x ih =>
    rw [List.foldl_append]
    simp only [List.foldl]
    rcases ih with ⟨hnone, hall⟩ | ⟨best, before, after, hbest, hl, hpos, hbefore, hafter⟩
    · rw [hnone]
      by_cases hx : calculateMatchScore event x > 0
      · right
        refine ⟨x, l, [], by simp [hx], rfl, hx, ?_, by simp⟩
        intro s hs
        exact lt_of_le_of_lt (hall s hs) hx
      · left
        refine ⟨by simp [hx], ?_⟩
        intro s hs
        rcases List.mem_append.mp hs with h | h
        · exact hall s h
        · simp only [List.mem_singleton] at h
          subst h
          exact not_lt.mp hx
    · rw [hbest]
      right
      by_cases hx : calculateMatchScore event x > calculateMatchScore event best
      · refine ⟨x, l, [], by simp [hx], rfl, lt_trans hpos hx, ?_, by simp⟩
        intro s hs
        rw [hl] at hs
        rcases List.mem_append.mp hs with h | h
        · exact lt_trans (hbefore s h) hx
        · rcases List.mem_cons.mp h with h | h
          · subst h; exact hx
          · exact lt_of_le_of_lt (hafter s h) hx
      · refine ⟨best, before, after ++ [x], by simp [hx], by simp [hl], hpos, hbefore, ?_⟩
        intro s hs
        rcases List.mem_append.mp hs with h | h
        · exact hafter s h
        · simp only [List.mem_singleton] at h
          subst h
          exact not_lt.mp hx

/-- The list returned by `ListStrategies` is ordered by priority, highest
first. -/
theorem ListStrategies_sorted (store : PostgresStore) (enabledOnly : Bool)
    (listed : List Strategy) (h : store.ListStrategies false enabledOnly = .ok listed) :
    listed.Pairwise (fun a b => a.Priority ≥ b.Priority) := by
  haveI : IsTotal Strategy (fun a b => a.Priority ≥ b.Priority) :=
    ⟨fun a b => le_total b.Priority a.Priority⟩
  haveI : IsTrans Strategy (fun a b => a.Priority ≥ b.Priority) :=
    ⟨fun a b c hab hbc => le_trans hbc hab⟩
  simp only [PostgresStore.ListStrategies, Bool.false_eq_true, if_false, Except.ok.injEq] at h
  rw [← h]
  exact List.sorted_insertionSort _ _

/-- C18, as the code has it: for a list of strategies ordered by priority,
highest first (as `ListStrategies` returns it), `MatchStrategy` returns an
error exactly when no strategy scores above 0, the score being 10 times the
number of matching symptoms; otherwise it returns the first strategy of the
list that has the largest score, so every strategy before it scores strictly
less and every strategy after it scores at most as much and has at most its
priority.  Among strategies of equal score and equal priority the one listed
first is returned, whatever the ids. -/
theorem MatchStrategy_first_of_max_score (listed : List Strategy) (event : InternalEvent)
    (hsorted : listed.Pairwise (fun a b => a.Priority ≥ b.Priority)) :
    ((∃ err, MatchStrategy (.ok listed) event = .error err) ↔
        ∀ s ∈ listed, calculateMatchScore event s ≤ 0) ∧
      (∀ s : Strategy, calculateMatchScore event s =
        10 * ((s.Symptoms.filter (fun x => symptomMatches event x)).length : Int)) ∧
      (∀ best, MatchStrategy (.ok listed) event = .ok best →
        ∃ before after, listed = before ++ best :: after ∧
          0 < calculateMatchScore event best ∧
          (∀ s ∈ before, calculateMatchScore event s < calculateMatchScore event best) ∧
          ∀ s ∈ after, calculateMatchScore event s ≤ calculateMatchScore event best ∧
            s.Priority ≤ best.Priority) := by
  refine ⟨?_, calculateMatchScore_eq event, ?_⟩
  · rcases MatchStrategy_loop_spec event listed with ⟨hnone, hall⟩ |
      ⟨best, before, after, hbest, hl, hpos, _, _⟩
    · constructor
      · intro _; exact hall
      · intro _; exact ⟨"no matching strategy found", by simp [MatchStrategy, hnone]⟩
    · constructor
      · rintro ⟨err, herr⟩
        simp [MatchStrategy, hbest] at herr
      · intro hall
        have hmem : best ∈ listed := by rw [hl]; simp
        have := hall best hmem
        omega
  · intro best hok
    rcases MatchStrategy_loop_spec event listed with ⟨hnone, _⟩ |
      ⟨best', before, after, hbest, hl, hpos, hbefore, hafter⟩
    · simp [MatchStrategy, hnone] at hok
    · simp only [MatchStrategy, hbest, Except.ok.injEq] at hok
      subst hok
      refine ⟨before, after, hl, hpos, hbefore, ?_⟩
      intro s hs
      refine ⟨hafter s hs, ?_⟩
      rw [hl] at hsorted
      have h2 := (List.pairwise_append.mp hsorted).2.1
      exact (List.pairwise_cons.mp h2).1 s hs

/-- Witness for C18: the two sample strategies as the store lists them. -/
theorem MatchStrategy_first_of_max_score_witness :
    ((∃ err, MatchStrategy (.ok [Sample.oomStrategyWithID "b", Sample.oomStrategyWithID "a"])
          Sample.nestedOomEvent = .error err) ↔
        ∀ s ∈ [Sample.oomStrategyWithID "b", Sample.oomStrategyWithID "a"],
          calculateMatchScore Sample.nestedOomEvent s ≤ 0) ∧
      (∀ s : Strategy, calculateMatchScore Sample.nestedOomEvent s =
        10 * ((s.Symptoms.filter (fun x => symptomMatches Sample.nestedOomEvent x)).length : Int)) ∧
      (∀ best, MatchStrategy (.ok [Sample.oomStrategyWithID "b", Sample.oomStrategyWithID "a"])
          Sample.nestedOomEvent = .ok best →
        ∃ before after,
          [Sample.oomStrategyWithID "b", Sample.oomStrategyWithID "a"] = before ++ best :: after ∧
          0 < calculateMatchScore Sample.nestedOomEvent best ∧
          (∀ s ∈ before, calculateMatchScore Sample.nestedOomEvent s <
            calculateMatchScore Sample.nestedOomEvent best) ∧
          ∀ s ∈ after, calculateMatchScore Sample.nestedOomEvent s ≤
              calculateMatchScore Sample.nestedOomEvent best ∧
            s.Priority ≤ best.Priority) :=
  MatchStrategy_first_of_max_score [Sample.oomStrategyWithID "b", Sample.oomStrategyWithID "a"]
    Sample.nestedOomEvent (by decide)

/-- C18 as stated fails: the store lists the enabled strategies `b` and `a`,
both of priority 1 and both of score 10 on the event; the lexicographically
smallest id is `a`, and `MatchStrategy` returns the strategy `b`. -/
theorem MatchStrategy_ignores_id_order :
    (Sample.store.ListStrategies false true).map (fun l => l.map (fun s => s.ID)) =
        .ok ["b", "a"] ∧
      calculateMatchScore Sample.nestedOomEvent (Sample.oomStrategyWithID "b") = 10 ∧
      calculateMatchScore Sample.nestedOomEvent (Sample.oomStrategyWithID "a") = 10 ∧
      (Sample.oomStrategyWithID "b").Priority = (Sample.oomStrategyWithID "a").Priority ∧
      "a" < "b" ∧
      (MatchStrategy (Sample.store.ListStrategies false true) Sample.nestedOomEvent).map
        (fun s => s.ID) = .ok "b" := by
  refine ⟨rfl, rfl, rfl, rfl, ?_, rfl⟩
  rw [String.lt_iff_toList_lt]
  decide

end Manager

end Orchestrator

namespace AgentManager

open Go

namespace Registry

/-! ## Heartbeats after a sweep -/

/-- A heartbeat never writes the status column of the store. -/
theorem UpdateHeartbeat_store_status (s : RegistryState) (env : RegistryEnv) (agentID : String) :
    (UpdateHeartbeat s env agentID).1.store.agents.map (fun a => (a.ID, a.Status)) =
      s.store.agents.map (fun a => (a.ID, a.Status)) := by
  unfold UpdateHeartbeat PostgresStore.UpdateAgentHeartbeat
  by_cases hfail : env.updateHeartbeatErr = true
  · simp [hfail]
  · simp only [hfail, Bool.false_eq_true, if_false, List.map_map]
    apply List.map_congr_left
    intro a _
    by_cases ha : a.ID = agentID <;> simp [ha]

/-- C17: agent `a1` registers at instant 0, the sweeper marks it offline at
61 s, and its heartbeat arrives at 70 s.  `UpdateHeartbeat` returns no error
and the agent is online in memory with the new heartbeat, but its store row
still has status offline (only `last_heartbeat` was written), so the list of
online agents, which the store answers, does not include it. -/
theorem heartbeat_after_sweep_leaves_store_offline :
    Sample.swept.registry.agents.map (fun a => (a.ID, a.Status)) = [("a1", AgentStatusOffline)] ∧
      Sample.swept.store.agents.map (fun a => (a.ID, a.Status)) = [("a1", AgentStatusOffline)] ∧
      (UpdateHeartbeat Sample.swept (Sample.registryEnv (70 * Second)) "a1").2 = none ∧
      (UpdateHeartbeat Sample.swept (Sample.registryEnv (70 * Second)) "a1").1.registry.agents.map
        (fun a => (a.ID, a.Status, a.LastHeartbeat)) = [("a1", AgentStatusOnline, 70 * Second)] ∧
      (UpdateHeartbeat Sample.swept (Sample.registryEnv (70 * Second)) "a1").1.store.agents.map
        (fun a => (a.ID, a.Status, a.LastHeartbeat)) = [("a1", AgentStatusOffline, 70 * Second)] ∧
      ListAgents (UpdateHeartbeat Sample.swept (Sample.registryEnv (70 * Second)) "a1").1
        (some AgentStatusOnline) = [] := by
  decide

/-! ## The heartbeat sweeper -/

/-- C16 as stated fails: agent `a1` is online with a heartbeat 61 s old and the
status update of the store fails during the sweep.  The agent is offline in
memory afterwards, but its store row is still online. -/
theorem sweep_store_failure_leaves_store_online :
    Sample.registered.registry.agents.map (fun a => (a.ID, a.Status, a.LastHeartbeat)) =
        [("a1", AgentStatusOnline, 0)] ∧
      (checkHeartbeats Sample.registered
        (Sample.registryEnvStatusFails (61 * Second))).registry.agents.map
          (fun a => (a.ID, a.Status)) = [("a1", AgentStatusOffline)] ∧
      (checkHeartbeats Sample.registered
        (Sample.registryEnvStatusFails (61 * Second))).store.agents.map
          (fun a => (a.ID, a.Status)) = [("a1", AgentStatusOnline)] := by
  decide

/-- The sweeper never adds or removes a store row. -/
theorem checkHeartbeats_visit_store_ids (timeout : Duration) (env : RegistryEnv) (agent : Agent)
    (store : PostgresStore) :
    (checkHeartbeats.visit timeout env agent store).2.agents.map (fun a => a.ID) =
      store.agents.map (fun a => a.ID) := by
  unfold checkHeartbeats.visit PostgresStore.UpdateAgentStatus
  split
  · split
    · by_cases hf : env.updateStatusErr agent.ID = true
      · simp [hf]
      · simp only [hf, Bool.false_eq_true, if_false, List.map_map]
        apply List.map_congr_left
        intro a _
        by_cases ha : a.ID = agent.ID <;> simp [ha]
    · rfl
  · rfl

/-- One visit of the sweeper keeps the rows of an id offline once they all
are. -/
theorem checkHeartbeats_visit_keeps_offline (timeout : Duration) (env : RegistryEnv)
    (agent : Agent) (store : PostgresStore) (id : String)
    (h : ∀ row ∈ store.agents, row.ID = id → row.Status = AgentStatusOffline) :
    ∀ row ∈ (checkHeartbeats.visit timeout env agent store).2.agents,
      row.ID = id → row.Status = AgentStatusOffline := by
  unfold checkHeartbeats.visit PostgresStore.UpdateAgentStatus
  split
  · split
    · by_cases hf : env.updateStatusErr agent.ID = true
      · simpa [hf] using h
      · simp only [hf, Bool.false_eq_true, if_false]
        intro row hrow hid
        obtain ⟨a, ha, rfl⟩ := List.mem_map.mp hrow
        by_cases hq : a.ID = agent.ID
        · simp [hq]
        · simp only [hq, if_false] at hid ⊢
          exact h a ha hid
    · exact h
  · exact h

/-- One visit of the sweeper to a stale online agent, with a status update
that does not fail, leaves every row of its id offline. -/
theorem checkHeartbeats_visit_sets_offline (timeout : Duration) (env : RegistryEnv)
    (agent : Agent) (store : PostgresStore)
    (hstale : env.now - agent.LastHeartbeat > timeout) (honline : agent.Status = AgentStatusOnline)
    (hok : env.updateStatusErr agent.ID = false) :
    ∀ row ∈ (checkHeartbeats.visit timeout env agent store).2.agents,
      row.ID = agent.ID → row.Status = AgentStatusOffline := by
  unfold checkHeartbeats.visit PostgresStore.UpdateAgentStatus
  simp only [hstale, honline, hok, if_true, Bool.false_eq_true, if_false]
  intro row hrow hid
  obtain ⟨a, _, rfl⟩ := List.mem_map.mp hrow
  by_cases hq : a.ID = agent.ID
  · simp [hq]
  · simp [hq] at hid

/-- The loop of the sweeper: what it leaves in memory, and the rows of the
store. -/
theorem checkHeartbeats_loop_spec (timeout : Duration) (env : RegistryEnv) (agents : List Agent)
    (store : PostgresStore) :
    (checkHeartbeats.loop timeout env agents store).1 = agents.map (sweptAgent timeout env.now) ∧
      (checkHeartbeats.loop timeout env agents store).2.agents.map (fun a => a.ID) =
        store.agents.map (fun a => a.ID) ∧
      (∀ id, (∀ row ∈ store.agents, row.ID = id → row.Status = AgentStatusOffline) →
        ∀ row ∈ (checkHeartbeats.loop timeout env agents store).2.agents,
          row.ID = id → row.Status = AgentStatusOffline) ∧
      (∀ a ∈ agents, env.now - a.LastHeartbeat > timeout → a.Status = AgentStatusOnline →
        env.updateStatusErr a.ID = false →
        ∀ row ∈ (checkHeartbeats.loop timeout env agents store).2.agents,
          row.ID = a.ID → row.Status = AgentStatusOffline) := by
  induction agents generalizing store with
  | nil => exact ⟨rfl, rfl, fun _ h => h, fun a ha => by simp at ha⟩
  | cons agent rest ih =>
    obtain ⟨ih1, ih2, ih3, ih4⟩ := ih (checkHeartbeats.visit timeout env agent store).2
    simp only [checkHeartbeats.loop]
    refine ⟨?_, ?_, ?_, ?_⟩
    · rw [ih1, List.map_cons]
      congr 1
      unfold checkHeartbeats.visit sweptAgent
      by_cases h1 : env.now - agent.LastHeartbeat > timeout <;>
        by_cases h2 : agent.Status = AgentStatusOnline <;> simp [h1, h2]
    · rw [ih2, checkHeartbeats_visit_store_ids]
    · intro id h
      exact ih3 id (checkHeartbeats_visit_keeps_offline timeout env agent store id h)
    · intro a ha hstale honline hok
      rcases List.mem_cons.mp ha with h | h
      · subst h
        exact ih3 a.ID
          (checkHeartbeats_visit_sets_offline timeout env a store hstale honline hok)
      · exact ih4 a h hstale honline hok

/-- C16, as the code has it: after `checkHeartbeats` has run at instant `now`
with the timeout of 60 s, every in-memory agent with status online has a
heartbeat at most 60 s old; every agent that was online with an older
heartbeat is offline in memory, and every store row of its id is offline when
the status update of the store for it did not fail; the map and the store
keep their ids, none added or removed; and an agent whose heartbeat is at most
60 s old is unchanged. -/
theorem checkHeartbeats_spec (s : RegistryState) (env : RegistryEnv)
    (htimeout : s.registry.heartbeatTimeout = 60 * Second) :
    (∀ a ∈ (checkHeartbeats s env).registry.agents, a.Status = AgentStatusOnline →
        env.now - a.LastHeartbeat ≤ 60 * Second) ∧
      (checkHeartbeats s env).registry.agents =
        s.registry.agents.map (sweptAgent (60 * Second) env.now) ∧
      (∀ a, a.Status = AgentStatusOnline → env.now - a.LastHeartbeat > 60 * Second →
        sweptAgent (60 * Second) env.now a =
          { a with Status := AgentStatusOffline, UpdatedAt := env.now }) ∧
      (∀ a, env.now - a.LastHeartbeat ≤ 60 * Second → sweptAgent (60 * Second) env.now a = a) ∧
      (∀ a ∈ s.registry.agents, a.Status = AgentStatusOnline →
        env.now - a.LastHeartbeat > 60 * Second → env.updateStatusErr a.ID = false →
        ∀ row ∈ (checkHeartbeats s env).store.agents,
          row.ID = a.ID → row.Status = AgentStatusOffline) ∧
      (checkHeartbeats s env).registry.agents.map (fun a => a.ID) =
        s.registry.agents.map (fun a => a.ID) ∧
      (checkHeartbeats s env).store.agents.map (fun a => a.ID) =
        s.store.agents.map (fun a => a.ID) := by
  obtain ⟨h1, h2, _, h4⟩ :=
    checkHeartbeats_loop_spec (60 * Second) env s.registry.agents s.store
  have hmem : (checkHeartbeats s env).registry.agents =
      s.registry.agents.map (sweptAgent (60 * Second) env.now) := by
    simp only [checkHeartbeats, htimeout]
    exact h1
  have hstore : (checkHeartbeats s env).store =
      (checkHeartbeats.loop (60 * Second) env s.registry.agents s.store).2 := by
    simp only [checkHeartbeats, htimeout]
  have hid : ∀ a : Agent, (sweptAgent (60 * Second) env.now a).ID = a.ID := by
    intro a
    unfold sweptAgent
    split <;> rfl
  refine ⟨?_, hmem, ?_, ?_, ?_, ?_, ?_⟩
  · intro a ha honline
    rw [hmem] at ha
    obtain ⟨b, _, rfl⟩ := List.mem_map.mp ha
    unfold sweptAgent at honline ⊢
    by_cases hb : env.now - b.LastHeartbeat > 60 * Second ∧ b.Status = AgentStatusOnline
    · simp only [hb, and_self, if_true] at honline
      exact absurd honline (by decide)
    · simp only [hb, if_false] at honline ⊢
      by_contra hgt
      exact hb ⟨not_le.mp hgt, honline⟩
  · intro a honline hstale
    simp [sweptAgent, honline, hstale]
  · intro a hfresh
    have : ¬ (env.now - a.LastHeartbeat > 60 * Second) := not_lt.mpr hfresh
    simp [sweptAgent, this]
  · intro a ha honline hstale hok
    rw [hstore]
    exact h4 a ha hstale honline hok
  · rw [hmem, List.map_map]
    apply List.map_congr_left
    intro a _
    exact hid a
  · rw [hstore]
    exact h2

/-- Witness for C16: the registry of agent `a1`, swept at 61 s. -/
theorem checkHeartbeats_spec_witness :
    Sample.registered.registry.heartbeatTimeout = 60 * Second ∧
      (checkHeartbeats Sample.registered (Sample.registryEnv (61 * Second))).registry.agents =
        Sample.registered.registry.agents.map
          (sweptAgent (60 * Second) (Sample.registryEnv (61 * Second)).now) :=
  ⟨by decide,
    (checkHeartbeats_spec Sample.registered (Sample.registryEnv (61 * Second)) (by decide)).2.1⟩

end Registry

end AgentManager

namespace AgentManager

open Go

/-! ## Registration -/

/-- The row selected by `First` is one of the rows. -/
theorem PostgresStore.firstByID_mem (rows : List Agent) (a : Agent)
    (h : PostgresStore.firstByID rows = some a) : a ∈ rows := by
  unfold PostgresStore.firstByID at h
  induction rows using List.reverseRecOn generalizing a with
  | nil => simp at h
  | append_singleton l x ih =>
    rw [List.foldl_append] at h
    simp only [List.foldl] at h
    cases hb : List.foldl
        (fun best a =>
          match best with
          | none => some a
          | some b => if a.ID < b.ID then some a else some b)
        none l with
    | none =>
      rw [hb] at h
      simp only [Option.some.injEq] at h
      subst h
      simp
    | some b =>
      rw [hb] at h
      by_cases hlt : x.ID < b.ID
      · simp only [hlt, if_true, Option.some.injEq] at h
        subst h
        simp
      · simp only [hlt, if_false, Option.some.injEq] at h
        subst h
        exact List.mem_append_left _ (ih b hb)

/-- A lookup by cluster id that succeeds returns a row of that cluster. -/
theorem PostgresStore.GetAgentByClusterID_ok (s : PostgresStore) (clusterID : String) (a : Agent)
    (h : s.GetAgentByClusterID clusterID = .ok a) : a ∈ s.agents ∧ a.ClusterID = clusterID := by
  unfold PostgresStore.GetAgentByClusterID at h
  cases hf : PostgresStore.firstByID (s.agents.filter (fun a => a.ClusterID == clusterID)) with
  | none => simp [hf] at h
  | some b =>
    simp only [hf, Except.ok.injEq] at h
    subst h
    have hm := PostgresStore.firstByID_mem _ _ hf
    simpa using List.mem_filter.mp hm

/-- A lookup by cluster id on a table with exactly one row of the cluster
returns that row. -/
theorem PostgresStore.GetAgentByClusterID_single (s : PostgresStore) (clusterID : String)
    (x : Agent) (h : s.agents.filter (fun a => a.ClusterID == clusterID) = [x]) :
    s.GetAgentByClusterID clusterID = .ok x := by
  simp [PostgresStore.GetAgentByClusterID, h, PostgresStore.firstByID]

/-- A lookup by cluster id on a table without a row of the cluster fails. -/
theorem PostgresStore.GetAgentByClusterID_none (s : PostgresStore) (clusterID : String)
    (h : s.agents.filter (fun a => a.ClusterID == clusterID) = []) :
    s.GetAgentByClusterID clusterID = .error "record not found" := by
  simp [PostgresStore.GetAgentByClusterID, h, PostgresStore.firstByID]

namespace Registry

/-- What the block before the save always does: status online, heartbeat now,
same cluster id, same agent map. -/
theorem RegisterAgent_prepare_basic (s : RegistryState) (env : RegistryEnv) (agent : Agent) :
    (RegisterAgent.prepare s env agent).1.Status = AgentStatusOnline ∧
      (RegisterAgent.prepare s env agent).1.ClusterID = agent.ClusterID ∧
      (RegisterAgent.prepare s env agent).1.LastHeartbeat = env.now ∧
      (RegisterAgent.prepare s env agent).2.agents = s.registry.agents := by
  unfold RegisterAgent.prepare
  simp only []
  split <;> exact ⟨rfl, rfl, rfl, rfl⟩

/-- The block before the save when the store has no row of the cluster: the
request keeps its id and is registered at `now`. -/
theorem RegisterAgent_prepare_new (s : RegistryState) (env : RegistryEnv) (agent : Agent)
    (hlookup : env.getAgentErr = false)
    (hnone : s.store.agents.filter (fun a => a.ClusterID == agent.ClusterID) = []) :
    (RegisterAgent.prepare s env agent).1.ID = agent.ID ∧
      (RegisterAgent.prepare s env agent).1.RegisteredAt = env.now := by
  unfold RegisterAgent.prepare
  simp only [hlookup, Bool.false_eq_true, if_false]
  rw [PostgresStore.GetAgentByClusterID_none _ _ hnone]
  exact ⟨rfl, rfl⟩

/-- The block before the save when the store has exactly one row of the
cluster: id and registration instant are taken from that row, and the
registry is left as it is. -/
theorem RegisterAgent_prepare_existing (s : RegistryState) (env : RegistryEnv) (agent x : Agent)
    (hlookup : env.getAgentErr = false)
    (hone : s.store.agents.filter (fun a => a.ClusterID == agent.ClusterID) = [x]) :
    (RegisterAgent.prepare s env agent).1.ID = x.ID ∧
      (RegisterAgent.prepare s env agent).1.RegisteredAt = x.RegisteredAt ∧
      (RegisterAgent.prepare s env agent).2 = s.registry := by
  unfold RegisterAgent.prepare
  simp only [hlookup, Bool.false_eq_true, if_false]
  rw [PostgresStore.GetAgentByClusterID_single _ _ x hone]
  exact ⟨rfl, rfl, rfl⟩

/-- The id of the prepared agent is the id of the request or of a store row. -/
theorem RegisterAgent_prepare_id (s : RegistryState) (env : RegistryEnv) (agent : Agent) :
    (RegisterAgent.prepare s env agent).1.ID = agent.ID ∨
      ∃ row ∈ s.store.agents, (RegisterAgent.prepare s env agent).1.ID = row.ID := by
  unfold RegisterAgent.prepare
  simp only []
  split
  · rename_i existing hex
    right
    by_cases hl : env.getAgentErr = true
    · simp [hl] at hex
    · simp only [hl, Bool.false_eq_true, if_false] at hex
      exact ⟨existing, (PostgresStore.GetAgentByClusterID_ok _ _ _ hex).1, rfl⟩
  · left; rfl

/-- The outcome of `RegisterAgent` when the save succeeds: the store is the
saved one and the prepared agent is put into the agent map. -/
theorem RegisterAgent_saved (s : RegistryState) (env : RegistryEnv) (agent : Agent)
    (store1 : PostgresStore)
    (hsave : s.store.SaveAgent env.saveAgentErr (RegisterAgent.prepare s env agent).1 = .ok store1) :
    (RegisterAgent s env agent).2.2 = none ∧
      (RegisterAgent s env agent).2.1 = (RegisterAgent.prepare s env agent).1 ∧
      (RegisterAgent s env agent).1.store = store1 ∧
      (RegisterAgent s env agent).1.registry.agents =
        put s.registry.agents (RegisterAgent.prepare s env agent).1 := by
  unfold RegisterAgent
  simp [hsave, (RegisterAgent_prepare_basic s env agent).2.2.2]

/-- The outcome of `RegisterAgent` when the save fails: an error, and the
store, the cache and the agent map are as before. -/
theorem RegisterAgent_failed (s : RegistryState) (env : RegistryEnv) (agent : Agent) (err : String)
    (hsave : s.store.SaveAgent env.saveAgentErr (RegisterAgent.prepare s env agent).1 =
      .error err) :
    (RegisterAgent s env agent).2.2 = some ("failed to save agent: " ++ err) ∧
      (RegisterAgent s env agent).1.store = s.store ∧
      (RegisterAgent s env agent).1.cache = s.cache ∧
      (RegisterAgent s env agent).1.registry.agents = s.registry.agents := by
  unfold RegisterAgent
  simp [hsave, (RegisterAgent_prepare_basic s env agent).2.2.2]

/-- Saving an agent with a non-empty id does not fail unless the database
does, and the saved row is in the table. -/
theorem SaveAgent_ok (store : PostgresStore) (agent : Agent) (hid : agent.ID ≠ "") :
    ∃ store1, store.SaveAgent false agent = .ok store1 ∧ agent ∈ store1.agents := by
  unfold PostgresStore.SaveAgent
  simp [hid]

/-- C15, as the code has it: `RegisterAgent` does not look at the cluster id.
It returns an error only when the save fails, and then the durable store, the
cache and the in-memory agent map are unchanged; with a database that does not
fail and non-empty ids it returns no error whatever the cluster id, the empty
one included, and the agent is a store row and an in-memory entry with status
online under the cluster id of the request. -/
theorem RegisterAgent_no_validation (s : RegistryState) (env : RegistryEnv) (agent : Agent) :
    ((RegisterAgent s env agent).2.2 ≠ none →
        (RegisterAgent s env agent).1.store = s.store ∧
          (RegisterAgent s env agent).1.cache = s.cache ∧
          (RegisterAgent s env agent).1.registry.agents = s.registry.agents) ∧
      (env.saveAgentErr = false → agent.ID ≠ "" → (∀ row ∈ s.store.agents, row.ID ≠ "") →
        (RegisterAgent s env agent).2.2 = none ∧
          (RegisterAgent s env agent).2.1 ∈ (RegisterAgent s env agent).1.registry.agents ∧
          (RegisterAgent s env agent).2.1 ∈ (RegisterAgent s env agent).1.store.agents ∧
          (RegisterAgent s env agent).2.1.Status = AgentStatusOnline ∧
          (RegisterAgent s env agent).2.1.ClusterID = agent.ClusterID) := by
  constructor
  · intro herr
    cases hsave : s.store.SaveAgent env.saveAgentErr (RegisterAgent.prepare s env agent).1 with
    | error err => exact (RegisterAgent_failed s env agent err hsave).2
    | ok store1 => exact absurd (RegisterAgent_saved s env agent store1 hsave).1 herr
  · intro hdb hid hrows
    have hpid : (RegisterAgent.prepare s env agent).1.ID ≠ "" := by
      rcases RegisterAgent_prepare_id s env agent with h | ⟨row, hrow, h⟩
      · rw [h]; exact hid
      · rw [h]; exact hrows row hrow
    obtain ⟨store1, hsave, hmem⟩ := SaveAgent_ok s.store _ hpid
    rw [← hdb] at hsave
    obtain ⟨h1, h2, h3, h4⟩ := RegisterAgent_saved s env agent store1 hsave
    obtain ⟨b1, b2, _, _⟩ := RegisterAgent_prepare_basic s env agent
    refine ⟨h1, ?_, ?_, ?_, ?_⟩
    · rw [h2, h4]
      simp [put]
    · rw [h2, h3]
      exact hmem
    · rw [h2]; exact b1
    · rw [h2]; exact b2

/-- Witness for C15: a registration request with an empty cluster id on the
fresh registry. -/
theorem RegisterAgent_no_validation_witness :
    (RegisterAgent (NewRegistry Sample.emptyStore Sample.emptyCache) (Sample.registryEnv 0)
        { Sample.agentA1 with ClusterID := "" }).2.2 = none ∧
      (RegisterAgent (NewRegistry Sample.emptyStore Sample.emptyCache) (Sample.registryEnv 0)
        { Sample.agentA1 with ClusterID := "" }).2.1 ∈
          (RegisterAgent (NewRegistry Sample.emptyStore Sample.emptyCache) (Sample.registryEnv 0)
            { Sample.agentA1 with ClusterID := "" }).1.registry.agents ∧
      (RegisterAgent (NewRegistry Sample.emptyStore Sample.emptyCache) (Sample.registryEnv 0)
        { Sample.agentA1 with ClusterID := "" }).2.1 ∈
          (RegisterAgent (NewRegistry Sample.emptyStore Sample.emptyCache) (Sample.registryEnv 0)
            { Sample.agentA1 with ClusterID := "" }).1.store.agents ∧
      (RegisterAgent (NewRegistry Sample.emptyStore Sample.emptyCache) (Sample.registryEnv 0)
        { Sample.agentA1 with ClusterID := "" }).2.1.Status = AgentStatusOnline ∧
      (RegisterAgent (NewRegistry Sample.emptyStore Sample.emptyCache) (Sample.registryEnv 0)
        { Sample.agentA1 with ClusterID := "" }).2.1.ClusterID = "" :=
  (RegisterAgent_no_validation (NewRegistry Sample.emptyStore Sample.emptyCache)
    (Sample.registryEnv 0) { Sample.agentA1 with ClusterID := "" }).2 rfl (by decide)
    (by intro row hrow; simp [NewRegistry, Sample.emptyStore] at hrow)

/-- C15 as stated fails: a registration request whose cluster id is empty, on
the fresh registry with a store that does not fail, returns no error, and
afterwards the store and the agent map each hold the agent, online, under the
empty cluster id. -/
theorem RegisterAgent_accepts_empty_cluster_id :
    (RegisterAgent (NewRegistry Sample.emptyStore Sample.emptyCache) (Sample.registryEnv 0)
        { Sample.agentA1 with ClusterID := "" }).2.2 = none ∧
      (RegisterAgent (NewRegistry Sample.emptyStore Sample.emptyCache) (Sample.registryEnv 0)
        { Sample.agentA1 with ClusterID := "" }).1.store.agents.map
          (fun a => (a.ID, a.ClusterID, a.Status)) = [("a1", "", AgentStatusOnline)] ∧
      (RegisterAgent (NewRegistry Sample.emptyStore Sample.emptyCache) (Sample.registryEnv 0)
        { Sample.agentA1 with ClusterID := "" }).1.registry.agents.map
          (fun a => (a.ID, a.ClusterID, a.Status)) = [("a1", "", AgentStatusOnline)] ∧
      (RegisterAgent (NewRegistry Sample.emptyStore Sample.emptyCache) (Sample.registryEnv 0)
        { Sample.agentA1 with ClusterID := "" }).1.cache.get 0 (RedisStore.agentStatusKey "a1") =
          some (RedisValue.str "online") := by
  decide

/-- Filtering twice does not depend on the order. -/
theorem filter_swap (rows : List Agent) (p q : Agent → Bool) :
    (rows.filter q).filter p = (rows.filter p).filter q := by
  rw [List.filter_filter, List.filter_filter]
  congr 1
  funext a
  exact Bool.and_comm _ _

/-- Writing an agent of cluster `c` after dropping the rows `q` rejects: if no
row of the cluster survives `q`, the agent is the one row of the cluster. -/
theorem filter_cluster_write (rows : List Agent) (a : Agent) (c : String) (q : Agent → Bool)
    (hrows : (rows.filter (fun r => r.ClusterID == c)).filter q = []) (ha : a.ClusterID = c) :
    (rows.filter q ++ [a]).filter (fun r => r.ClusterID == c) = [a] := by
  rw [List.filter_append, filter_swap, hrows]
  simp [List.filter, ha]

/-- The rows of cluster `c` after a save that succeeds, when before the save
either no row is of the cluster or the one row of the cluster has the id of
the saved agent. -/
theorem SaveAgent_cluster_rows (store store1 : PostgresStore) (fail : Bool) (a : Agent)
    (c : String) (ha : a.ClusterID = c)
    (hrows : store.agents.filter (fun r => r.ClusterID == c) = [] ∨
      ∃ x, store.agents.filter (fun r => r.ClusterID == c) = [x] ∧ x.ID = a.ID)
    (hsave : store.SaveAgent fail a = .ok store1) :
    store1.agents.filter (fun r => r.ClusterID == c) = [a] := by
  unfold PostgresStore.SaveAgent at hsave
  by_cases hf : fail = true
  · simp [hf] at hsave
  simp only [hf, if_false] at hsave
  by_cases hid : a.ID = ""
  · simp only [hid, if_true] at hsave
    by_cases hany : (store.agents.any fun r => r.ID == "") = true
    · simp [hany] at hsave
    · simp only [hany, Bool.false_eq_true, if_false, Except.ok.injEq] at hsave
      subst hsave
      rcases hrows with h | ⟨x, hx, hxid⟩
      · simp only []
        rw [List.filter_append, h]
        simp [List.filter, ha]
      · exfalso
        apply hany
        have hmem : x ∈ store.agents := by
          have : x ∈ store.agents.filter (fun r => r.ClusterID == c) := by rw [hx]; simp
          exact (List.mem_filter.mp this).1
        rw [List.any_eq_true]
        exact ⟨x, hmem, by simp [hxid, hid]⟩
  · simp only [hid, Bool.false_eq_true, if_false, Except.ok.injEq] at hsave
    subst hsave
    apply filter_cluster_write _ _ _ _ _ ha
    rcases hrows with h | ⟨x, hx, hxid⟩
    · rw [h]; rfl
    · rw [hx]
      simp [List.filter, hxid]

/-- The entries of cluster `c` in the agent map after `put`, under the same
condition. -/
theorem put_cluster_entries (agents : List Agent) (a : Agent) (c : String) (ha : a.ClusterID = c)
    (hrows : agents.filter (fun r => r.ClusterID == c) = [] ∨
      ∃ x, agents.filter (fun r => r.ClusterID == c) = [x] ∧ x.ID = a.ID) :
    (put agents a).filter (fun r => r.ClusterID == c) = [a] := by
  unfold put
  apply filter_cluster_write _ _ _ _ _ ha
  rcases hrows with h | ⟨x, hx, hxid⟩
  · rw [h]; rfl
  · rw [hx]
    simp [List.filter, hxid]

/-- The rows and entries of cluster `c` after a registration that returns no
error, when before it either none is of the cluster or the single store row
and the single entry of the cluster are the same agent: afterwards the single
row and the single entry are the prepared agent. -/
theorem RegisterAgent_cluster_rows (s : RegistryState) (env : RegistryEnv) (agent : Agent)
    (c : String) (hc : agent.ClusterID = c)
    (hstore : s.store.agents.filter (fun r => r.ClusterID == c) = [] ∨
      ∃ x, s.store.agents.filter (fun r => r.ClusterID == c) = [x] ∧
        x.ID = (RegisterAgent.prepare s env agent).1.ID)
    (hmem : s.registry.agents.filter (fun r => r.ClusterID == c) = [] ∨
      ∃ x, s.registry.agents.filter (fun r => r.ClusterID == c) = [x] ∧
        x.ID = (RegisterAgent.prepare s env agent).1.ID)
    (hok : (RegisterAgent s env agent).2.2 = none) :
    (RegisterAgent s env agent).1.store.agents.filter (fun r => r.ClusterID == c) =
        [(RegisterAgent.prepare s env agent).1] ∧
      (RegisterAgent s env agent).1.registry.agents.filter (fun r => r.ClusterID == c) =
        [(RegisterAgent.prepare s env agent).1] := by
  have hpc : (RegisterAgent.prepare s env agent).1.ClusterID = c := by
    rw [(RegisterAgent_prepare_basic s env agent).2.1, hc]
  cases hsave : s.store.SaveAgent env.saveAgentErr (RegisterAgent.prepare s env agent).1 with
  | error err =>
    rw [(RegisterAgent_failed s env agent err hsave).1] at hok
    simp at hok
  | ok store1 =>
    obtain ⟨_, _, hst, hag⟩ := RegisterAgent_saved s env agent store1 hsave
    rw [hst, hag]
    exact ⟨SaveAgent_cluster_rows _ _ _ _ c hpc hstore hsave,
      put_cluster_entries _ _ c hpc hmem⟩

/-- C14: on a registry whose store and agent map hold nothing for cluster `c`
and with store lookups that do not fail, a registration for `c` that returns
no error followed by a second registration for `c` (whatever id and
registered-at the second request carries) leaves exactly one store row and
exactly one in-memory entry for the cluster; both have the id of the first
request and the instant of the first call as registered-at, and status
online. -/
theorem RegisterAgent_twice (s : RegistryState) (env1 env2 : RegistryEnv) (a1 a2 : Agent)
    (c : String) (hc1 : a1.ClusterID = c) (hc2 : a2.ClusterID = c)
    (hstore0 : s.store.agents.filter (fun r => r.ClusterID == c) = [])
    (hmem0 : s.registry.agents.filter (fun r => r.ClusterID == c) = [])
    (hlookup1 : env1.getAgentErr = false) (hlookup2 : env2.getAgentErr = false)
    (hfirst : (RegisterAgent s env1 a1).2.2 = none) :
    ∃ row entry,
      (RegisterAgent (RegisterAgent s env1 a1).1 env2 a2).1.store.agents.filter
          (fun r => r.ClusterID == c) = [row] ∧
        (RegisterAgent (RegisterAgent s env1 a1).1 env2 a2).1.registry.agents.filter
          (fun r => r.ClusterID == c) = [entry] ∧
        row.ID = a1.ID ∧ row.RegisteredAt = env1.now ∧ row.Status = AgentStatusOnline ∧
        entry.ID = a1.ID ∧ entry.RegisteredAt = env1.now ∧ entry.Status = AgentStatusOnline := by
  have hnone1 : s.store.agents.filter (fun a => a.ClusterID == a1.ClusterID) = [] := by
    rw [hc1]; exact hstore0
  obtain ⟨hid1, hreg1⟩ := RegisterAgent_prepare_new s env1 a1 hlookup1 hnone1
  have hon1 := (RegisterAgent_prepare_basic s env1 a1).1
  obtain ⟨hrows1, hents1⟩ :=
    RegisterAgent_cluster_rows s env1 a1 c hc1 (Or.inl hstore0) (Or.inl hmem0) hfirst
  generalize RegisterAgent.prepare s env1 a1 = p1 at hid1 hreg1 hon1 hrows1 hents1
  generalize (RegisterAgent s env1 a1).1 = s1 at hrows1 hents1
  have hone2 : s1.store.agents.filter (fun a => a.ClusterID == a2.ClusterID) = [p1.1] := by
    rw [hc2]; exact hrows1
  obtain ⟨hid2, hreg2, _⟩ := RegisterAgent_prepare_existing s1 env2 a2 p1.1 hlookup2 hone2
  have hon2 := (RegisterAgent_prepare_basic s1 env2 a2).1
  cases hsave : s1.store.SaveAgent env2.saveAgentErr (RegisterAgent.prepare s1 env2 a2).1 with
  | error err =>
    obtain ⟨_, hst, _, hag⟩ := RegisterAgent_failed s1 env2 a2 err hsave
    refine ⟨p1.1, p1.1, ?_, ?_, hid1, hreg1, hon1, hid1, hreg1, hon1⟩
    · rw [hst]; exact hrows1
    · rw [hag]; exact hents1
  | ok store2 =>
    have hok2 := (RegisterAgent_saved s1 env2 a2 store2 hsave).1
    obtain ⟨hrows2, hents2⟩ := RegisterAgent_cluster_rows s1 env2 a2 c hc2
      (Or.inr ⟨p1.1, hrows1, hid2.symm⟩) (Or.inr ⟨p1.1, hents1, hid2.symm⟩) hok2
    exact ⟨_, _, hrows2, hents2, hid2.trans hid1, hreg2.trans hreg1, hon2,
      hid2.trans hid1, hreg2.trans hreg1, hon2⟩

/-- The statement of `RegisterAgent_twice` on the sample registry: agent `a1`
registers cluster `c1` at instant 0, then a request with id `a2` and
registered-at 77 arrives for `c1` ten seconds later. -/
theorem RegisterAgent_twice_witness :
    ∃ row entry,
      (RegisterAgent (RegisterAgent (NewRegistry Sample.emptyStore Sample.emptyCache)
          (Sample.registryEnv 0) Sample.agentA1).1 (Sample.registryEnv (10 * Second))
          Sample.agentA2).1.store.agents.filter (fun r => r.ClusterID == "c1") = [row] ∧
        (RegisterAgent (RegisterAgent (NewRegistry Sample.emptyStore Sample.emptyCache)
          (Sample.registryEnv 0) Sample.agentA1).1 (Sample.registryEnv (10 * Second))
          Sample.agentA2).1.registry.agents.filter (fun r => r.ClusterID == "c1") = [entry] ∧
        row.ID = "a1" ∧ row.RegisteredAt = 0 ∧ row.Status = AgentStatusOnline ∧
        entry.ID = "a1" ∧ entry.RegisteredAt = 0 ∧ entry.Status = AgentStatusOnline :=
  RegisterAgent_twice (NewRegistry Sample.emptyStore Sample.emptyCache) (Sample.registryEnv 0)
    (Sample.registryEnv (10 * Second)) Sample.agentA1 Sample.agentA2 "c1" rfl rfl rfl rfl rfl rfl
    rfl

end Registry

end AgentManager

namespace CollectAgent

open Go

/-! ## Configuration -/

/-- The lookup in the `validLogLevels` map is true exactly on its five keys. -/
theorem validLogLevels_lookup (level : String) :
    (validLogLevels.lookup level).getD false = true ↔
      level ∈ ["debug", "info", "warn", "error", "fatal"] := by
  unfold validLogLevels
  by_cases h1 : level = "debug"
  · subst h1; decide
  by_cases h2 : level = "info"
  · subst h2; decide
  by_cases h3 : level = "warn"
  · subst h3; decide
  by_cases h4 : level = "error"
  · subst h4; decide
  by_cases h5 : level = "fatal"
  · subst h5; decide
  have e1 : (level == "debug") = false := beq_eq_false_iff_ne.mpr h1
  have e2 : (level == "info") = false := beq_eq_false_iff_ne.mpr h2
  have e3 : (level == "warn") = false := beq_eq_false_iff_ne.mpr h3
  have e4 : (level == "error") = false := beq_eq_false_iff_ne.mpr h4
  have e5 : (level == "fatal") = false := beq_eq_false_iff_ne.mpr h5
  simp [List.lookup, h1, h2, h3, h4, h5, e1, e2, e3, e4, e5]

/-- C28: `validateConfig` returns no error exactly when the central endpoint
is non-empty, the reconnect delay is at least 1 s, the heartbeat interval at
least 10 s, the metrics interval at least 30 s, the buffer size at least 10,
the maximum of retries at least 1, and the log level is one of debug, info,
warn, error, fatal. -/
theorem validateConfig_eq_none_iff (config : AgentConfig) :
    validateConfig config = none ↔
      config.CentralEndpoint ≠ "" ∧ config.ReconnectDelay ≥ Second ∧
        config.HeartbeatInterval ≥ 10 * Second ∧ config.MetricsInterval ≥ 30 * Second ∧
        config.BufferSize ≥ 10 ∧ config.MaxRetries ≥ 1 ∧
        config.LogLevel ∈ ["debug", "info", "warn", "error", "fatal"] := by
  rw [← validLogLevels_lookup]
  unfold validateConfig
  by_cases h1 : config.CentralEndpoint = ""
  · simp [h1]
  by_cases h2 : config.ReconnectDelay < Second
  · simp [h1, h2]
  by_cases h3 : config.HeartbeatInterval < 10 * Second
  · simp [h1, h2, h3]
  by_cases h4 : config.MetricsInterval < 30 * Second
  · simp [h1, h2, h3, h4]
  by_cases h5 : config.BufferSize < 10
  · simp [h1, h2, h3, h4, h5]
  by_cases h6 : config.MaxRetries < 1
  · simp [h1, h2, h3, h4, h5, h6]
  by_cases h7 : (validLogLevels.lookup config.LogLevel).getD false = true
  · simp only [h1, h2, h3, h4, h5, h6, h7, if_false, Bool.not_true, Bool.false_eq_true, ne_eq,
      not_false_eq_true, true_and, and_true, true_iff]
    exact ⟨not_lt.mp h2, not_lt.mp h3, not_lt.mp h4, not_lt.mp h5, not_lt.mp h6⟩
  · simp [h1, h2, h3, h4, h5, h6, h7]

/-! ## Command validation on the agent -/

namespace CommandExecutor

/-- The tools of the `allowedTools` table of the agent are its twelve keys. -/
theorem allowedTools_keys (clusterID tool : String) :
    (NewCommandExecutor clusterID).allowedTools.lookup tool ≠ none ↔
      tool ∈ ["kubectl", "ps", "df", "free", "uptime", "uname", "whoami", "ping", "nslookup",
        "dig", "curl", "wget"] := by
  unfold NewCommandExecutor
  dsimp only
  by_cases h1 : tool = "kubectl"
  · subst h1; decide
  by_cases h2 : tool = "ps"
  · subst h2; decide
  by_cases h3 : tool = "df"
  · subst h3; decide
  by_cases h4 : tool = "free"
  · subst h4; decide
  by_cases h5 : tool = "uptime"
  · subst h5; decide
  by_cases h6 : tool = "uname"
  · subst h6; decide
  by_cases h7 : tool = "whoami"
  · subst h7; decide
  by_cases h8 : tool = "ping"
  · subst h8; decide
  by_cases h9 : tool = "nslookup"
  · subst h9; decide
  by_cases h10 : tool = "dig"
  · subst h10; decide
  by_cases h11 : tool = "curl"
  · subst h11; decide
  by_cases h12 : tool = "wget"
  · subst h12; decide
  have e1 : (tool == "kubectl") = false := beq_eq_false_iff_ne.mpr h1
  have e2 : (tool == "ps") = false := beq_eq_false_iff_ne.mpr h2
  have e3 : (tool == "df") = false := beq_eq_false_iff_ne.mpr h3
  have e4 : (tool == "free") = false := beq_eq_false_iff_ne.mpr h4
  have e5 : (tool == "uptime") = false := beq_eq_false_iff_ne.mpr h5
  have e6 : (tool == "uname") = false := beq_eq_false_iff_ne.mpr h6
  have e7 : (tool == "whoami") = false := beq_eq_false_iff_ne.mpr h7
  have e8 : (tool == "ping") = false := beq_eq_false_iff_ne.mpr h8
  have e9 : (tool == "nslookup") = false := beq_eq_false_iff_ne.mpr h9
  have e10 : (tool == "dig") = false := beq_eq_false_iff_ne.mpr h10
  have e11 : (tool == "curl") = false := beq_eq_false_iff_ne.mpr h11
  have e12 : (tool == "wget") = false := beq_eq_false_iff_ne.mpr h12
  simp [List.lookup, h1, h2, h3, h4, h5, h6, h7, h8, h9, h10, h11, h12, e1, e2, e3, e4, e5, e6,
    e7, e8, e9, e10, e11, e12]

/-- A command that `validateCommand` accepts names a tool of the table. -/
theorem validateCommand_tool (ce : CommandExecutor) (cmd : Command)
    (h : ce.validateCommand cmd = none) : ce.allowedTools.lookup cmd.Tool ≠ none := by
  unfold validateCommand at h
  intro hnone
  rw [hnone] at h
  simp at h

/-- The lookup in the tool allow-list of the control plane, as a list
membership. -/
theorem dispatcher_allowedTools_lookup (tool : String) :
    (AgentManager.Dispatcher.allowedTools.lookup tool).getD false = true ↔
      tool ∈ ["kubectl", "ps", "df", "netstat", "curl", "ping", "top"] :=
  AgentManager.Dispatcher.allowedTools_lookup tool

/-- C25, as the code has it: the two allow-lists overlap and neither contains
the other.  The agent accepts the twelve tools of its table; a tool is accepted
on both sides exactly when it is one of kubectl, ps, df, ping, curl; so a
command accepted by the agent-side validation names a tool that the
control-plane validation accepts exactly when its tool is one of those five
(the agent also accepts free, uptime, uname, whoami, nslookup, dig and wget,
which the control plane rejects, and the control plane accepts netstat and
top, which the agent rejects). -/
theorem allow_lists_overlap (clusterID : String) :
    (∀ tool, ((NewCommandExecutor clusterID).allowedTools.lookup tool ≠ none ∧
        (AgentManager.Dispatcher.allowedTools.lookup tool).getD false = true) ↔
      tool ∈ ["kubectl", "ps", "df", "ping", "curl"]) ∧
    (∀ cmd : Command, (NewCommandExecutor clusterID).validateCommand cmd = none →
      cmd.Tool ∈ ["kubectl", "ps", "df", "free", "uptime", "uname", "whoami", "ping",
        "nslookup", "dig", "curl", "wget"] ∧
      ((AgentManager.Dispatcher.allowedTools.lookup cmd.Tool).getD false = true ↔
        cmd.Tool ∈ ["kubectl", "ps", "df", "ping", "curl"])) ∧
    (∀ tool, (AgentManager.Dispatcher.allowedTools.lookup tool).getD false = true →
      (NewCommandExecutor clusterID).allowedTools.lookup tool = none →
      tool = "netstat" ∨ tool = "top") := by
  have hboth : ∀ tool, ((NewCommandExecutor clusterID).allowedTools.lookup tool ≠ none ∧
        (AgentManager.Dispatcher.allowedTools.lookup tool).getD false = true) ↔
      tool ∈ ["kubectl", "ps", "df", "ping", "curl"] := by
    intro tool
    rw [allowedTools_keys, dispatcher_allowedTools_lookup]
    constructor
    · rintro ⟨h1, h2⟩
      simp only [List.mem_cons, List.mem_singleton, List.not_mem_nil, or_false] at h1 h2 ⊢
      rcases h2 with h | h | h | h | h | h | h <;> subst h <;> simp at h1 ⊢
    · intro h
      simp only [List.mem_cons, List.mem_singleton, List.not_mem_nil, or_false] at h ⊢
      rcases h with h | h | h | h | h <;> subst h <;> simp
  refine ⟨hboth, ?_, ?_⟩
  · intro cmd hcmd
    have hkey := validateCommand_tool _ cmd hcmd
    refine ⟨(allowedTools_keys clusterID cmd.Tool).mp hkey, ?_⟩
    constructor
    · intro hd
      exact (hboth cmd.Tool).mp ⟨hkey, hd⟩
    · intro h5
      exact ((hboth cmd.Tool).mpr h5).2
  · intro tool hd hnone
    rw [dispatcher_allowedTools_lookup] at hd
    have hnot : ¬ tool ∈ ["kubectl", "ps", "df", "free", "uptime", "uname", "whoami", "ping",
        "nslookup", "dig", "curl", "wget"] := by
      intro hmem
      exact (allowedTools_keys clusterID tool).mpr hmem hnone
    simp only [List.mem_cons, List.mem_singleton, List.not_mem_nil, or_false] at hd hnot
    rcases hd with h | h | h | h | h | h | h <;> subst h <;> simp at hnot ⊢

/-- Witness for C25: the command `kubectl get pods && rm -rf /` is accepted
by the agent and names a tool of both lists. -/
theorem allow_lists_overlap_witness :
    (NewCommandExecutor "c1").validateCommand Sample.kubectlInjection = none ∧
      Sample.kubectlInjection.Tool ∈ ["kubectl", "ps", "df", "free", "uptime", "uname",
        "whoami", "ping", "nslookup", "dig", "curl", "wget"] ∧
      ((AgentManager.Dispatcher.allowedTools.lookup Sample.kubectlInjection.Tool).getD false
          = true ↔
        Sample.kubectlInjection.Tool ∈ ["kubectl", "ps", "df", "ping", "curl"]) :=
  ⟨by decide, (allow_lists_overlap "c1").2.1 Sample.kubectlInjection (by decide)⟩

/-- C25 as stated fails: the agent-side validation accepts the command `free
-h`, and the control-plane validation rejects the same tool and action on
cluster `c1` because `free` is not in its allow-list. -/
theorem agent_accepts_tool_the_control_plane_rejects :
    (NewCommandExecutor "c1").validateCommand Sample.freeCommand = none ∧
      (NewCommandExecutor "c1").allowedTools.lookup "free" = some ["-h"] ∧
      AgentManager.Dispatcher.allowedTools.lookup "free" = none ∧
      AgentManager.Dispatcher.validateCommand
        { AgentManager.Sample.cmd with Tool := "free", Action := "-h", Args := [] } =
          some "tool free is not allowed" := by
  decide

/-- C26: the arguments `pods && rm -rf /` are rejected by
`checkArgumentSafety`, and a non-kubectl command carrying a pipe is rejected by
`validateCommand`; but for the allowed tool kubectl `validateCommand` returns
before the argument check, so `kubectl get` with those arguments is accepted,
with any arguments at all, and `Execute` runs the process and reports
success. -/
theorem validateCommand_kubectl_skips_argument_check :
    checkArgumentSafety Sample.kubectlInjection.Args =
        some "dangerous pattern detected in arguments: 'rm '" ∧
      checkArgumentSafety ["pods", "&&", "ls"] =
        some "dangerous pattern detected in arguments: '&&'" ∧
      (NewCommandExecutor "c1").validateCommand Sample.psPipe =
        some "dangerous pattern detected in arguments: '|'" ∧
      (NewCommandExecutor "c1").validateCommand Sample.kubectlInjection = none ∧
      (∀ args : List String, (NewCommandExecutor "c1").validateCommand
        { Sample.kubectlInjection with Args := args } = none) ∧
      ((NewCommandExecutor "c1").Execute Sample.quietEnv Sample.kubectlInjection).1.Status =
        "success" ∧
      ((NewCommandExecutor "c1").Execute Sample.quietEnv Sample.kubectlInjection).1.Error = "" ∧
      ((NewCommandExecutor "c1").Execute Sample.quietEnv Sample.kubectlInjection).2 =
        [{ name := "kubectl", args := ["get", "pods", "&&", "rm", "-rf", "/"], env := none }] := by
  refine ⟨by decide, by decide, by decide, by decide, ?_, by decide, by decide, by decide⟩
  intro args
  simp [validateCommand, NewCommandExecutor, Sample.kubectlInjection, List.lookup,
    validateKubectlCommand]

/-- C27: the output placed in the result by `executeDiagnosticCommand` is the
raw output `o` of the process when `o` has at most 1,048,576 bytes, and the
first 1,048,576 bytes of `o` followed by the marker when it has more. -/
theorem executeDiagnosticCommand_output (env : ExecEnv) (cmd : Command) (result : CommandResult)
    (o : List Byte) (ho : (env.run (executeDiagnosticCommand.process env cmd)).output = o) :
    (o.length ≤ 1048576 → (executeDiagnosticCommand env cmd result).1.Output = o) ∧
      (o.length > 1048576 →
        (executeDiagnosticCommand env cmd result).1.Output =
          o.take 1048576 ++ asciiBytes "\n... (output truncated)") := by
  unfold executeDiagnosticCommand
  simp only [ho, maxOutputSize, truncationMarker]
  constructor
  · intro hle
    have hnot : ¬ o.length > 1024 * 1024 := by omega
    simp only [hnot, if_false]
  · intro hgt
    have hyes : o.length > 1024 * 1024 := by omega
    simp only [hyes, if_true]

/-- Witness for C27: an output of exactly 1 MiB is kept as it is, and an
output of 1 MiB and one byte is cut to 1 MiB and marked. -/
theorem executeDiagnosticCommand_output_witness :
    (executeDiagnosticCommand
        { run := fun _ => { output := List.replicate 1048576 0, err := none,
                            deadlineExceeded := false },
          environ := [] }
        Sample.freeCommand
        { CommandID := "cmd-2", ClusterID := "c1", Status := "success", Output := [],
          Error := "" }).1.Output = List.replicate 1048576 0 ∧
      (executeDiagnosticCommand
        { run := fun _ => { output := List.replicate 1048577 0, err := none,
                            deadlineExceeded := false },
          environ := [] }
        Sample.freeCommand
        { CommandID := "cmd-2", ClusterID := "c1", Status := "success", Output := [],
          Error := "" }).1.Output =
        (List.replicate 1048577 (0 : Byte)).take 1048576 ++
          asciiBytes "\n... (output truncated)" :=
  ⟨(executeDiagnosticCommand_output _ Sample.freeCommand _ (List.replicate 1048576 0) rfl).1
      (le_of_eq (List.length_replicate ..)),
    (executeDiagnosticCommand_output _ Sample.freeCommand _ (List.replicate 1048577 0) rfl).2
      (lt_of_lt_of_eq (Nat.lt_succ_self 1048576) (List.length_replicate ..).symm)⟩

end CommandExecutor

end CollectAgent

namespace CollectAgent

open Go

/-! ## Retry with backoff -/

/-- The loop never invokes `fn` more often than it has iterations left. -/
theorem RetryWithBackoff_loop_calls (config : RetryConfig) (fn : Nat → Option GoError)
    (remaining attempt : Nat) (delay : Duration) (lastErr : Option GoError)
    (sleeps : List Duration) :
    (RetryWithBackoff.loop config fn remaining attempt delay lastErr sleeps).calls ≤
      attempt + remaining := by
  induction remaining generalizing attempt delay lastErr sleeps with
  | zero =>
    unfold RetryWithBackoff.loop
    cases lastErr <;> simp
  | succ n ih =>
    unfold RetryWithBackoff.loop
    simp only []
    cases hfn : fn attempt with
    | none => simp only []; omega
    | some err =>
      simp only []
      by_cases hr : IsRetryableError err = true
      · simp only [hr, Bool.not_true, Bool.false_eq_true, if_false]
        have := ih (attempt + 1)
          (if attempt > 0 then
            if delay * config.BackoffFactor > config.MaxDelay then config.MaxDelay
            else delay * config.BackoffFactor
          else delay) (some err) (if attempt > 0 then sleeps ++ [delay] else sleeps)
        omega
      · simp only [hr, Bool.not_false, if_true]
        omega

/-- The loop stops at the first invocation whose outcome is not a retryable
error: when the invocations `attempt .. attempt + k - 1` fail with retryable
errors and invocation `attempt + k` does not, and at least `k + 1` iterations
are left, the loop returns the outcome of invocation `attempt + k` after
`attempt + k + 1` invocations. -/
theorem RetryWithBackoff_loop_stops (config : RetryConfig) (fn : Nat → Option GoError)
    (k remaining attempt : Nat) (delay : Duration) (lastErr : Option GoError)
    (sleeps : List Duration) (hk : k < remaining)
    (hbefore : ∀ j, j < k → ∃ e, fn (attempt + j) = some e ∧ IsRetryableError e = true)
    (hstop : ∀ e, fn (attempt + k) = some e → IsRetryableError e = false) :
    (RetryWithBackoff.loop config fn remaining attempt delay lastErr sleeps).result =
        fn (attempt + k) ∧
      (RetryWithBackoff.loop config fn remaining attempt delay lastErr sleeps).calls =
        attempt + k + 1 := by
  induction k generalizing remaining attempt delay lastErr sleeps with
  | zero =>
    obtain ⟨n, rfl⟩ : ∃ n, remaining = n + 1 := ⟨remaining - 1, by omega⟩
    unfold RetryWithBackoff.loop
    simp only [Nat.add_zero] at hstop ⊢
    cases hfn : fn attempt with
    | none => simp
    | some err =>
      have hr := hstop err hfn
      simp [hr]
  | succ k ih =>
    obtain ⟨n, rfl⟩ : ∃ n, remaining = n + 1 := ⟨remaining - 1, by omega⟩
    obtain ⟨e, he, hre⟩ := hbefore 0 (Nat.succ_pos k)
    simp only [Nat.add_zero] at he
    unfold RetryWithBackoff.loop
    simp only [he, hre, Bool.not_true, Bool.false_eq_true, if_false]
    have hshift : attempt + (k + 1) = attempt + 1 + k := by omega
    rw [hshift]
    apply ih
    · omega
    · intro j hj
      have := hbefore (j + 1) (by omega)
      have hs : attempt + (j + 1) = attempt + 1 + j := by omega
      rwa [hs] at this
    · intro e' he'
      apply hstop e'
      rwa [hshift]

/-- When every remaining invocation fails with a retryable error, the loop
uses all its iterations and returns the last error wrapped. -/
theorem RetryWithBackoff_loop_exhausts (config : RetryConfig) (fn : Nat → Option GoError)
    (remaining attempt : Nat) (delay : Duration) (lastErr : Option GoError)
    (sleeps : List Duration) (last : GoError)
    (hall : ∀ j, j < remaining → ∃ e, fn (attempt + j) = some e ∧ IsRetryableError e = true)
    (hzero : remaining = 0 → lastErr = some last)
    (hlast : 0 < remaining → fn (attempt + remaining - 1) = some last) :
    (RetryWithBackoff.loop config fn remaining attempt delay lastErr sleeps).result =
        some (.wrap "max retries exceeded" last) ∧
      (RetryWithBackoff.loop config fn remaining attempt delay lastErr sleeps).calls =
        attempt + remaining := by
  induction remaining generalizing attempt delay lastErr sleeps with
  | zero =>
    unfold RetryWithBackoff.loop
    rw [hzero rfl]
    simp
  | succ n ih =>
    obtain ⟨e, he, hre⟩ := hall 0 (Nat.succ_pos n)
    simp only [Nat.add_zero] at he
    unfold RetryWithBackoff.loop
    simp only [he, hre, Bool.not_true, Bool.false_eq_true, if_false]
    have hshift : attempt + (n + 1) = attempt + 1 + n := by omega
    rw [hshift]
    apply ih
    · intro j hj
      have := hall (j + 1) (by omega)
      have hs : attempt + (j + 1) = attempt + 1 + j := by omega
      rwa [hs] at this
    · intro hn
      subst hn
      have := hlast (Nat.succ_pos 0)
      simp only [Nat.zero_add, Nat.add_sub_cancel] at this
      rw [he] at this
      exact this
    · intro hn
      have := hlast (Nat.succ_pos n)
      have hs : attempt + (n + 1) - 1 = attempt + 1 + n - 1 := by omega
      rwa [hs] at this

/-- C29: with `MaxRetries = m ≥ 0`, `RetryWithBackoff` invokes `fn` at most
`m + 1` times.  It returns `nil` at the first invocation that succeeds, and the
error itself at the first error that is not retryable, in both cases without a
further invocation; when all `m + 1` invocations fail with retryable errors it
returns the last error wrapped in `max retries exceeded` after exactly `m + 1`
invocations. -/
theorem RetryWithBackoff_spec (config : RetryConfig) (fn : Nat → Option GoError) (m : Nat)
    (hm : config.MaxRetries = (m : Int)) :
    (RetryWithBackoff config fn).calls ≤ m + 1 ∧
      (∀ k, k ≤ m → fn k = none →
        (∀ j, j < k → ∃ e, fn j = some e ∧ IsRetryableError e = true) →
        (RetryWithBackoff config fn).result = none ∧
          (RetryWithBackoff config fn).calls = k + 1) ∧
      (∀ k err, k ≤ m → fn k = some err → IsRetryableError err = false →
        (∀ j, j < k → ∃ e, fn j = some e ∧ IsRetryableError e = true) →
        (RetryWithBackoff config fn).result = some err ∧
          (RetryWithBackoff config fn).calls = k + 1) ∧
      ((∀ j, j ≤ m → ∃ e, fn j = some e ∧ IsRetryableError e = true) →
        ∃ last, fn m = some last ∧
          (RetryWithBackoff config fn).result = some (.wrap "max retries exceeded" last) ∧
          (RetryWithBackoff config fn).calls = m + 1) := by
  have hn : (config.MaxRetries + 1).toNat = m + 1 := by
    rw [hm]
    omega
  unfold RetryWithBackoff
  rw [hn]
  refine ⟨?_, ?_, ?_, ?_⟩
  · have := RetryWithBackoff_loop_calls config fn (m + 1) 0 config.InitialDelay none []
    omega
  · intro k hk hfn hbefore
    have h := RetryWithBackoff_loop_stops config fn k (m + 1) 0 config.InitialDelay none []
      (by omega) (by simpa using hbefore) (by simp [hfn])
    simpa [hfn] using h
  · intro k err hk hfn hnr hbefore
    have h := RetryWithBackoff_loop_stops config fn k (m + 1) 0 config.InitialDelay none []
      (by omega) (by simpa using hbefore)
      (by intro e he; simp only [Nat.zero_add] at he; rw [hfn] at he; cases he; exact hnr)
    simpa [hfn] using h
  · intro hall
    obtain ⟨last, hlast, _⟩ := hall m (le_refl m)
    refine ⟨last, hlast, ?_⟩
    have h := RetryWithBackoff_loop_exhausts config fn (m + 1) 0 config.InitialDelay none [] last
      (by intro j hj; simpa using hall j (by omega)) (by omega) (by intro _; simpa using hlast)
    simpa using h

/-- Witness for C29 with the default configuration (three retries): an `fn`
that succeeds at its third invocation, one that meets an error that is not
retryable at its second, and one that always fails with a retryable error. -/
theorem RetryWithBackoff_spec_witness :
    DefaultRetryConfig.MaxRetries = ((3 : Nat) : Int) ∧
      (RetryWithBackoff DefaultRetryConfig Sample.thirdTimeLucky).calls ≤ 3 + 1 ∧
      ((RetryWithBackoff DefaultRetryConfig Sample.thirdTimeLucky).result = none ∧
        (RetryWithBackoff DefaultRetryConfig Sample.thirdTimeLucky).calls = 2 + 1) ∧
      ((RetryWithBackoff DefaultRetryConfig Sample.thenInvalidConfig).result =
          some ErrInvalidConfig ∧
        (RetryWithBackoff DefaultRetryConfig Sample.thenInvalidConfig).calls = 1 + 1) ∧
      (∃ last, Sample.alwaysDisconnected 3 = some last ∧
        (RetryWithBackoff DefaultRetryConfig Sample.alwaysDisconnected).result =
          some (.wrap "max retries exceeded" last) ∧
        (RetryWithBackoff DefaultRetryConfig Sample.alwaysDisconnected).calls = 3 + 1) :=
  ⟨rfl,
    (RetryWithBackoff_spec DefaultRetryConfig Sample.thirdTimeLucky 3 rfl).1,
    (RetryWithBackoff_spec DefaultRetryConfig Sample.thirdTimeLucky 3 rfl).2.1 2 (by decide)
      (by decide) (by intro j hj; interval_cases j <;> exact ⟨_, rfl, by decide⟩),
    (RetryWithBackoff_spec DefaultRetryConfig Sample.thenInvalidConfig 3 rfl).2.2.1 1
      ErrInvalidConfig (by decide) (by decide) (by decide)
      (by intro j hj; interval_cases j; exact ⟨_, rfl, by decide⟩),
    (RetryWithBackoff_spec DefaultRetryConfig Sample.alwaysDisconnected 3 rfl).2.2.2
      (by intro j _; exact ⟨_, rfl, by decide⟩)⟩

end CollectAgent

namespace CollectAgent

open Go

/-! ## Bus subjects -/

namespace CommunicationManager

/-- The first token of every subject of the agent is `agent`. -/
theorem splitTokens_agent (rest : List Char) :
    ∃ tail, Nats.splitTokens ('a' :: 'g' :: 'e' :: 'n' :: 't' :: '.' :: rest) [] =
      ['a', 'g', 'e', 'n', 't'] :: tail := by
  refine ⟨Nats.splitTokens rest [], ?_⟩
  simp [Nats.splitTokens]

/-- The first token of every subject of the control plane is `aetherius`. -/
theorem splitTokens_aetherius (rest : List Char) :
    ∃ tail, Nats.splitTokens
        ('a' :: 'e' :: 't' :: 'h' :: 'e' :: 'r' :: 'i' :: 'u' :: 's' :: '.' :: rest) [] =
      ['a', 'e', 't', 'h', 'e', 'r', 'i', 'u', 's'] :: tail := by
  refine ⟨Nats.splitTokens rest [], ?_⟩
  simp [Nats.splitTokens]

/-- No subject beginning with `agent.` matches a subscription beginning with
`aetherius.`, and none beginning with `aetherius.` matches a subscription
beginning with `agent.`. -/
theorem subjects_disjoint (r1 r2 : List Char) :
    Nats.matchTokens
        (Nats.splitTokens
          ('a' :: 'e' :: 't' :: 'h' :: 'e' :: 'r' :: 'i' :: 'u' :: 's' :: '.' :: r1) [])
        (Nats.splitTokens ('a' :: 'g' :: 'e' :: 'n' :: 't' :: '.' :: r2) []) = false ∧
      Nats.matchTokens
        (Nats.splitTokens ('a' :: 'g' :: 'e' :: 'n' :: 't' :: '.' :: r2) [])
        (Nats.splitTokens
          ('a' :: 'e' :: 't' :: 'h' :: 'e' :: 'r' :: 'i' :: 'u' :: 's' :: '.' :: r1) []) = false := by
  obtain ⟨t1, h1⟩ := splitTokens_aetherius r1
  obtain ⟨t2, h2⟩ := splitTokens_agent r2
  rw [h1, h2]
  constructor <;> simp [Nats.matchTokens]

/-- C24: for cluster `c1` the control plane publishes a command on
`aetherius.agent.c1.command`, but the agent subscribes for commands on
`agent.command.c1`, which is another subject and does not receive it; and the
agent publishes register, heartbeat, event, metrics and result messages on
`agent.<kind>.c1`, which no subscription `aetherius.agent.*.<kind>` of the
control plane matches (a subject of the shape the control plane expects would
match).  The same holds for every cluster id. -/
theorem agent_and_control_plane_subjects_differ :
    (AgentManager.Server.PublishCommand
        { messagesReceived := 0, messagesSent := 0, errorCount := 0, published := [] }
        AgentManager.Sample.env "c1" AgentManager.Sample.cmd).1.published =
        [("aetherius.agent.c1.command", AgentManager.Sample.cmd)] ∧
      subscribeToCommands.subject "c1" = "agent.command.c1" ∧
      Nats.subjectMatches (subscribeToCommands.subject "c1") "aetherius.agent.c1.command" = false ∧
      publishSubjects "c1" =
        [("register", "agent.register.c1"), ("heartbeat", "agent.heartbeat.c1"),
         ("event", "agent.event.c1"), ("metrics", "agent.metrics.c1"),
         ("result", "agent.result.c1")] ∧
      (AgentManager.Server.subscriptions.map (fun p =>
        (publishSubjects "c1").map (fun s => Nats.subjectMatches p.2 s.2))) =
        List.replicate 5 (List.replicate 5 false) ∧
      Nats.subjectMatches AgentManager.Server.subscribeRegister.subject
        "aetherius.agent.c1.register" = true ∧
      (∀ c : String,
        Nats.subjectMatches (subscribeToCommands.subject c)
          ("aetherius.agent." ++ c ++ ".command") = false ∧
        ∀ p ∈ AgentManager.Server.subscriptions, ∀ s ∈ publishSubjects c,
          Nats.subjectMatches p.2 s.2 = false) := by
  refine ⟨by decide, by decide, by decide, by decide, by decide, by decide, ?_⟩
  intro c
  constructor
  · exact (subjects_disjoint (String.data "agent." ++ c.data ++ ".command".data |>.drop 6)
      ("command.".data ++ c.data)).2
  · intro p hp s hs
    simp only [AgentManager.Server.subscriptions, List.mem_cons, List.mem_singleton,
      List.not_mem_nil, or_false] at hp
    simp only [publishSubjects, List.mem_cons, List.mem_singleton, List.not_mem_nil,
      or_false] at hs
    rcases hp with rfl | rfl | rfl | rfl | rfl <;> rcases hs with rfl | rfl | rfl | rfl | rfl <;>
      exact (subjects_disjoint _ _).1

end CommunicationManager

end CollectAgent

namespace AgentManager

open Go

/-! ## The event aggregator -/

/-- Keeping the last ten of a list that already is the last ten of `l`, with
one more element, gives the last ten of `l` with that element. -/
theorem lastTen_append (l : List Event) (e : Event) :
    (l.drop (l.length - 10) ++ [e]).drop ((l.drop (l.length - 10) ++ [e]).length - 10) =
      (l ++ [e]).drop ((l ++ [e]).length - 10) := by
  by_cases h : l.length < 10
  · have h0 : l.length - 10 = 0 := by omega
    have h1 : (l ++ [e]).length - 10 = 0 := by simp; omega
    rw [h0, List.drop_zero, h1]
  · have hlen : (l.drop (l.length - 10) ++ [e]).length - 10 = 1 := by
      simp
      omega
    have hlen2 : (l ++ [e]).length - 10 = l.length - 10 + 1 := by
      simp
      omega
    rw [hlen, hlen2]
    rw [List.drop_append_of_le_length (by simp; omega),
      List.drop_append_of_le_length (by omega), List.drop_drop]

/-- The group that `Add` writes: an existing group gets the event appended,
its list cut to the last ten, and its count raised by one; a missing group is
created with the event alone. -/
theorem Aggregator.Add_groups (a : Aggregator) (event : Event) (key : String) :
    (a.Add event).groups key =
      if key = Aggregator.groupKey event then
        some
          { Key := ((a.groups key).map (fun g => g.Key)).getD key,
            Events :=
              (((a.groups key).map (fun g => g.Events)).getD [] ++ [event]).drop
                ((((a.groups key).map (fun g => g.Events)).getD [] ++ [event]).length - 10),
            FirstSeen := ((a.groups key).map (fun g => g.FirstSeen)).getD event.Timestamp,
            LastSeen := event.Timestamp,
            Count := ((a.groups key).map (fun g => g.Count)).getD 0 + 1 }
      else a.groups key := by
  unfold Aggregator.Add Aggregator.groupKey
  by_cases hk : key = event.ClusterID ++ ":" ++ event.Namespace ++ ":" ++
      (event.Labels.lookup "name").getD ""
  · subst hk
    simp only [Function.update_same, if_true]
    cases hg : a.groups (event.ClusterID ++ ":" ++ event.Namespace ++ ":" ++
        (event.Labels.lookup "name").getD "") with
    | none => simp
    | some g =>
      simp only [Option.map_some', Option.getD_some]
      by_cases hlen : (g.Events ++ [event]).length > 10
      · simp only [hlen, if_true]
      · have h0 : (g.Events ++ [event]).length - 10 = 0 := by omega
        simp only [hlen, if_false, h0, List.drop_zero]
  · simp only [hk, if_false]
    exact Function.update_noteq hk _ _

/-- The state of a group after a run of `Add` calls from the empty
aggregator, in terms of the events of the run that carry its key. -/
theorem Aggregator.foldl_Add_groups (events : List Event) (key : String) :
    ((events.foldl Aggregator.Add NewAggregator).groups key).map
        (fun g => (g.Key, g.Count, g.Events)) =
      if (events.filter (fun e => Aggregator.groupKey e == key)).isEmpty then none
      else some (key, (events.filter (fun e => Aggregator.groupKey e == key)).length,
        (events.filter (fun e => Aggregator.groupKey e == key)).drop
          ((events.filter (fun e => Aggregator.groupKey e == key)).length - 10)) := by
  induction events using List.reverseRecOn with
  | nil => simp [NewAggregator]
  | append_singleton l e ih =>
    rw [List.foldl_append, List.foldl_cons, List.foldl_nil, Aggregator.Add_groups,
      List.filter_append]
    by_cases hk : key = Aggregator.groupKey e
    · have hb : (Aggregator.groupKey e == key) = true := by simp [hk]
      have hf : List.filter (fun e => Aggregator.groupKey e == key) [e] = [e] := by
        simp [List.filter, hb]
      rw [hf, if_pos hk]
      have hne : (l.filter (fun e => Aggregator.groupKey e == key) ++ [e]).isEmpty = false := by
        cases l.filter (fun e => Aggregator.groupKey e == key) <;> rfl
      rw [hne]
      simp only [Bool.false_eq_true, if_false, Option.map_some', Option.some.injEq,
        Prod.mk.injEq]
      cases hg : (l.foldl Aggregator.Add NewAggregator).groups key with
      | none =>
        rw [hg] at ih
        simp only [Option.map_none'] at ih
        have hnil : l.filter (fun e => Aggregator.groupKey e == key) = [] := by
          cases hl : l.filter (fun e => Aggregator.groupKey e == key) with
          | nil => rfl
          | cons x xs =>
            rw [hl] at ih
            simp at ih
        rw [hnil]
        simp
      | some g =>
        rw [hg] at ih
        simp only [Option.map_some'] at ih
        cases hl : l.filter (fun e => Aggregator.groupKey e == key) with
        | nil =>
          rw [hl] at ih
          simp at ih
        | cons x xs =>
          rw [hl] at ih
          simp only [List.isEmpty_cons, Bool.false_eq_true, if_false, Option.some.injEq,
            Prod.mk.injEq] at ih
          obtain ⟨hkey, hcount, hevents⟩ := ih
          simp only [Option.map_some', Option.getD_some, hkey, hcount, hevents]
          refine ⟨trivial, by simp, ?_⟩
          exact lastTen_append (x :: xs) e
    · have hb : (Aggregator.groupKey e == key) = false := by
        simp only [beq_eq_false_iff_ne, ne_eq]
        exact fun h => hk h.symm
      have hf : List.filter (fun e => Aggregator.groupKey e == key) [e] = [] := by
        simp [List.filter, hb]
      rw [hf, List.append_nil, if_neg hk]
      exact ih

/-- C23: after any sequence of `Add` calls from the empty aggregator, a key has
a group exactly when some event was added under it, and every group has as its
count the number of events added under its key, and as its events the last
`min(Count, 10)` of them, in arrival order. -/
theorem Aggregator_Add_spec (events : List Event) (key : String) :
    ((events.foldl Aggregator.Add NewAggregator).groups key = none ↔
      events.filter (fun e => Aggregator.groupKey e == key) = []) ∧
    ∀ g, (events.foldl Aggregator.Add NewAggregator).groups key = some g →
      g.Key = key ∧
      g.Count = (events.filter (fun e => Aggregator.groupKey e == key)).length ∧
      g.Events.length = min g.Count 10 ∧
      g.Events = (events.filter (fun e => Aggregator.groupKey e == key)).drop
        ((events.filter (fun e => Aggregator.groupKey e == key)).length - min g.Count 10) := by
  have h := Aggregator.foldl_Add_groups events key
  constructor
  · constructor
    · intro hnone
      rw [hnone] at h
      cases hl : events.filter (fun e => Aggregator.groupKey e == key) with
      | nil => rfl
      | cons x xs =>
        rw [hl] at h
        simp at h
    · intro hnil
      rw [hnil] at h
      simpa using h
  · intro g hg
    rw [hg] at h
    cases hl : events.filter (fun e => Aggregator.groupKey e == key) with
    | nil =>
      rw [hl] at h
      simp at h
    | cons x xs =>
      rw [hl] at h
      simp only [List.isEmpty_cons, Bool.false_eq_true, if_false, Option.map_some',
        Option.some.injEq, Prod.mk.injEq] at h
      obtain ⟨hkey, hcount, hevents⟩ := h
      refine ⟨hkey, hcount, ?_, ?_⟩
      · rw [hevents, hcount, List.length_drop]
        omega
      · rw [hevents, hcount]
        congr 1
        omega

/-- Witness for C23: twelve events of one pod leave a group with count 12 that
holds the ten events with the ids 2 to 11, in that order. -/
theorem Aggregator_Add_spec_witness :
    ∃ g, (Sample.twelveEvents.foldl Aggregator.Add NewAggregator).groups "c1:default:p1" =
        some g ∧
      g.Count = 12 ∧ g.Events.length = min g.Count 10 ∧
      g.Events.map (fun e => e.ID) = ["2", "3", "4", "5", "6", "7", "8", "9", "10", "11"] ∧
      g.Key = "c1:default:p1" ∧
      g.Count =
        (Sample.twelveEvents.filter
          (fun e => Aggregator.groupKey e == "c1:default:p1")).length :=
  ⟨_, rfl, rfl, rfl, rfl,
    ((Aggregator_Add_spec Sample.twelveEvents "c1:default:p1").2 _ rfl).1,
    ((Aggregator_Add_spec Sample.twelveEvents "c1:default:p1").2 _ rfl).2.1⟩

/-! ## A failed insert and the deduplication window -/

/-- A lock entry is gone once its time-to-live has passed. -/
theorem RedisStore.get_set_expired (s : RedisStore) (now : Int) (key : String)
    (value : RedisValue) (ttl : Duration) (httl : 0 < ttl) (t : Int) (ht : now + ttl ≤ t) :
    (s.set now key value ttl).get t key = none := by
  have hne : ttl ≠ 0 := ne_of_gt httl
  have hnot : ¬ t < now + ttl := not_lt.mpr ht
  simp [RedisStore.get, RedisStore.set, RedisStore.expiry, hne, hnot]

namespace Processor

/-- A `ProcessEvent` that returns an error was accepted by the filters and
failed at the insert: one more failed event, the cache as the filters left it,
nothing else changed. -/
theorem ProcessEvent_error (p : Processor) (env : PipelineEnv) (event : Event) (err : String)
    (h : (p.ProcessEvent env event).2.2 = some err) :
    (applyFilters env event p.filters p.cache).2 = true ∧
      (p.ProcessEvent env event).1 =
        { p with cache := (applyFilters env event p.filters p.cache).1,
                 eventsFailed := p.eventsFailed + 1 } := by
  unfold ProcessEvent at h ⊢
  cases hf : (applyFilters env event p.filters p.cache).2 with
  | false => simp [hf] at h
  | true =>
    simp only [hf, Bool.not_true, Bool.false_eq_true, if_false] at h ⊢
    split
    · exact ⟨trivial, rfl⟩
    · rename_i store1 hsave
      rw [hsave] at h
      simp at h

/-- The enrichers leave the id of an event as it is. -/
theorem enrich_ID (store : PostgresStore) (env : PipelineEnv) (enrichers : List EventEnricher)
    (event : Event) :
    (enrichers.foldl (fun ev en => en.Enrich store env ev) event).ID = event.ID := by
  induction enrichers generalizing event with
  | nil => rfl
  | cons en rest ih =>
    rw [List.foldl_cons, ih]
    cases en
    simp only [EventEnricher.Enrich, ClusterEnricher.Enrich]
    split <;> rfl

/-- An event that the filters accept reaches the insert: it is not counted as
filtered, and it is either saved and counted as processed or not saved and
counted as failed; it is saved when the insert does not fail and no row has
its id. -/
theorem ProcessEvent_reaches_insert (p : Processor) (env : PipelineEnv) (event : Event)
    (h : (applyFilters env event p.filters p.cache).2 = true) :
    (p.ProcessEvent env event).1.eventsFiltered = p.eventsFiltered ∧
      (p.ProcessEvent env event).1.eventsProcessed + (p.ProcessEvent env event).1.eventsFailed =
        p.eventsProcessed + p.eventsFailed + 1 ∧
      (env.saveEventErr = false → (∀ row ∈ p.store.events, row.ID ≠ event.ID) →
        (p.ProcessEvent env event).2.2 = none ∧
          (p.ProcessEvent env event).1.eventsProcessed = p.eventsProcessed + 1 ∧
          (p.ProcessEvent env event).1.store.events.length = p.store.events.length + 1) := by
  unfold ProcessEvent
  simp only [h, Bool.not_true, Bool.false_eq_true, if_false]
  have hid := enrich_ID p.store env p.enrichers event
  cases hsave : p.store.SaveEvent env.saveEventErr
      { p.enrichers.foldl (fun ev en => en.Enrich p.store env ev) event with
        ProcessedAt := env.now } with
  | error e =>
    refine ⟨rfl, ?_, ?_⟩
    · simp only []
      omega
    · intro hok hfresh
      exfalso
      unfold PostgresStore.SaveEvent at hsave
      have hany : (p.store.events.any fun e =>
          e.ID == ({ p.enrichers.foldl (fun ev en => en.Enrich p.store env ev) event with
            ProcessedAt := env.now } : Event).ID) = false := by
        rw [List.any_eq_false]
        intro row hrow
        simp only [hid, beq_iff_eq]
        exact hfresh row hrow
      simp [hok, hany] at hsave
  | ok store1 =>
    have hlen : store1.events.length = p.store.events.length + 1 := by
      unfold PostgresStore.SaveEvent at hsave
      split at hsave
      · cases hsave
      · split at hsave
        · cases hsave
        · cases hsave
          simp
    simp only []
    split <;> refine ⟨?_, ?_, fun _ _ => ⟨?_, ?_, ?_⟩⟩ <;>
      first | rfl | trivial | exact hlen | (simp only []; omega)

/-- The default filters on a cache that holds the lock of the event, with a
cache call that does not fail: the event is rejected and the cache is left as
it is, whatever its severity. -/
theorem applyFilters_default_locked (cache : RedisStore) (env : PipelineEnv) (event : Event)
    (hlock : env.lockErr = false) (v : RedisValue)
    (hheld : cache.get env.now (RedisStore.lockKey (DuplicateFilter.key event)) = some v) :
    applyFilters env event
        [EventFilter.severity { MinSeverity := "medium" },
          EventFilter.duplicate { ttl := 5 * Minute }] cache = (cache, false) := by
  cases hsev : SeverityFilter.ShouldProcess { MinSeverity := "medium" } event <;>
    simp [applyFilters, EventFilter.ShouldProcess, hsev, DuplicateFilter.ShouldProcess,
      RedisStore.AcquireLock, RedisStore.setNX, hlock, hheld]

/-- The default filters accepted the event with a cache call that did not
fail: the lock of the event was free and is set in the cache they leave. -/
theorem applyFilters_default_accepted (cache : RedisStore) (env : PipelineEnv) (event : Event)
    (hlock : env.lockErr = false)
    (h : (applyFilters env event
        [EventFilter.severity { MinSeverity := "medium" },
          EventFilter.duplicate { ttl := 5 * Minute }] cache).2 = true) :
    (applyFilters env event
        [EventFilter.severity { MinSeverity := "medium" },
          EventFilter.duplicate { ttl := 5 * Minute }] cache).1 =
      cache.set env.now (RedisStore.lockKey (DuplicateFilter.key event))
        (RedisValue.str "locked") (5 * Minute) := by
  cases hsev : SeverityFilter.ShouldProcess { MinSeverity := "medium" } event with
  | false =>
    simp [applyFilters, EventFilter.ShouldProcess, hsev] at h
  | true =>
    cases hg : cache.get env.now (RedisStore.lockKey (DuplicateFilter.key event)) with
    | some v =>
      simp [applyFilters, EventFilter.ShouldProcess, hsev, DuplicateFilter.ShouldProcess,
        RedisStore.AcquireLock, RedisStore.setNX, hlock, hg] at h
    | none =>
      simp [applyFilters, EventFilter.ShouldProcess, hsev, DuplicateFilter.ShouldProcess,
        RedisStore.AcquireLock, RedisStore.setNX, hlock, hg]

/-- C30, as the code has it: the duplicate filter takes the lock before the
event is saved and nothing releases it, so a failed insert does consume the
deduplication window.  For every processor with the filters of `NewProcessor`,
whatever its store, cache and counters: when a `ProcessEvent` whose cache call
did not fail returns an error (which only the insert can cause), the event is
counted as failed and the lock of its key stays set; a later event with the
same cluster id, reason and `name` label within five minutes, with a cache
call that does not fail, is rejected by the duplicate filter, counted as
filtered, and reaches neither the store nor the other counters; once the five
minutes have passed the duplicate filter accepts it and, with a severity of at
least medium, it reaches the insert again. -/
theorem failed_save_consumes_window (p : Processor) (env1 env2 : PipelineEnv) (e1 e2 : Event)
    (err : String)
    (hfilters : p.filters = [EventFilter.severity { MinSeverity := "medium" },
      EventFilter.duplicate { ttl := 5 * Minute }])
    (hfail : (p.ProcessEvent env1 e1).2.2 = some err)
    (hlock1 : env1.lockErr = false) (hlock2 : env2.lockErr = false)
    (hcluster : e1.ClusterID = e2.ClusterID) (hreason : e1.Reason = e2.Reason)
    (hname : e1.Labels.lookup "name" = e2.Labels.lookup "name") :
    ((p.ProcessEvent env1 e1).1.eventsFailed = p.eventsFailed + 1 ∧
        (p.ProcessEvent env1 e1).1.eventsFiltered = p.eventsFiltered ∧
        (p.ProcessEvent env1 e1).1.eventsProcessed = p.eventsProcessed ∧
        (p.ProcessEvent env1 e1).1.store = p.store ∧
        (p.ProcessEvent env1 e1).1.filters = p.filters) ∧
      (env2.now < env1.now + 5 * Minute →
        (DuplicateFilter.ShouldProcess { ttl := 5 * Minute } (p.ProcessEvent env1 e1).1.cache env2
          e2).2 = false ∧
        (((p.ProcessEvent env1 e1).1).ProcessEvent env2 e2).2.2 = none ∧
        (((p.ProcessEvent env1 e1).1).ProcessEvent env2 e2).1.eventsFiltered =
          p.eventsFiltered + 1 ∧
        (((p.ProcessEvent env1 e1).1).ProcessEvent env2 e2).1.eventsProcessed =
          p.eventsProcessed ∧
        (((p.ProcessEvent env1 e1).1).ProcessEvent env2 e2).1.eventsFailed =
          p.eventsFailed + 1 ∧
        (((p.ProcessEvent env1 e1).1).ProcessEvent env2 e2).1.store = p.store) ∧
      (env1.now + 5 * Minute ≤ env2.now →
        (DuplicateFilter.ShouldProcess { ttl := 5 * Minute } (p.ProcessEvent env1 e1).1.cache env2
          e2).2 = true ∧
        (e2.Severity ∈ ["medium", "high", "critical"] →
          (((p.ProcessEvent env1 e1).1).ProcessEvent env2 e2).1.eventsFiltered =
            p.eventsFiltered ∧
          (((p.ProcessEvent env1 e1).1).ProcessEvent env2 e2).1.eventsProcessed +
              (((p.ProcessEvent env1 e1).1).ProcessEvent env2 e2).1.eventsFailed =
            p.eventsProcessed + p.eventsFailed + 2 ∧
          (env2.saveEventErr = false → (∀ row ∈ p.store.events, row.ID ≠ e2.ID) →
            (((p.ProcessEvent env1 e1).1).ProcessEvent env2 e2).2.2 = none ∧
            (((p.ProcessEvent env1 e1).1).ProcessEvent env2 e2).1.eventsProcessed =
              p.eventsProcessed + 1 ∧
            (((p.ProcessEvent env1 e1).1).ProcessEvent env2 e2).1.store.events.length =
              p.store.events.length + 1))) := by
  have hkey : DuplicateFilter.key e2 = DuplicateFilter.key e1 := by
    simp [DuplicateFilter.key, hcluster, hreason, hname]
  obtain ⟨hacc, hp1⟩ := ProcessEvent_error p env1 e1 err hfail
  rw [hfilters] at hacc
  have hcache := applyFilters_default_accepted p.cache env1 e1 hlock1 hacc
  rw [hp1, hfilters, hcache]
  refine ⟨⟨rfl, rfl, rfl, rfl, rfl⟩, ?_, ?_⟩
  · intro hwindow
    have hheld : (p.cache.set env1.now (RedisStore.lockKey (DuplicateFilter.key e1))
        (RedisValue.str "locked") (5 * Minute)).get env2.now
        (RedisStore.lockKey (DuplicateFilter.key e2)) = some (RedisValue.str "locked") := by
      rw [hkey]
      exact RedisStore.get_set_same _ _ _ _ _ (by decide) _ hwindow
    have hf2 := applyFilters_default_locked _ env2 e2 hlock2 _ hheld
    have hrej := ProcessEvent_rejected
      { p with
        cache := p.cache.set env1.now (RedisStore.lockKey (DuplicateFilter.key e1))
          (RedisValue.str "locked") (5 * Minute),
        filters := [EventFilter.severity { MinSeverity := "medium" },
          EventFilter.duplicate { ttl := 5 * Minute }],
        eventsFailed := p.eventsFailed + 1 } env2 e2 _ hf2
    refine ⟨?_, ?_⟩
    · rw [DuplicateFilter.ShouldProcess_eq, hlock2]
      simp [hheld]
    · rw [hrej]
      exact ⟨rfl, rfl, rfl, rfl, rfl⟩
  · intro hafter
    have hgone : (p.cache.set env1.now (RedisStore.lockKey (DuplicateFilter.key e1))
        (RedisValue.str "locked") (5 * Minute)).get env2.now
        (RedisStore.lockKey (DuplicateFilter.key e2)) = none := by
      rw [hkey]
      exact RedisStore.get_set_expired _ _ _ _ _ (by decide) _ hafter
    refine ⟨?_, ?_⟩
    · rw [DuplicateFilter.ShouldProcess_eq, hlock2]
      simp [hgone]
    · intro hsev2
      have hf2 := applyFilters_default_first _ env2 e2 hsev2 hlock2 hgone
      have hreach := ProcessEvent_reaches_insert
        { p with
          cache := p.cache.set env1.now (RedisStore.lockKey (DuplicateFilter.key e1))
            (RedisValue.str "locked") (5 * Minute),
          filters := [EventFilter.severity { MinSeverity := "medium" },
            EventFilter.duplicate { ttl := 5 * Minute }],
          eventsFailed := p.eventsFailed + 1 } env2 e2 (by rw [hf2])
      obtain ⟨h1, h2, h3⟩ := hreach
      refine ⟨h1, ?_, h3⟩
      simp only [] at h2
      omega

/-- Witness for C30: the crash event when the insert fails, and the same
observation one second later with a store that works. -/
theorem failed_save_consumes_window_witness :
    ((NewProcessor Sample.emptyStore Sample.emptyCache).ProcessEvent Sample.pipelineEnvSaveFails
        Sample.crashEvent).2.2 = some "failed to save event: database error" ∧
      (Sample.pipelineEnvLater.now < Sample.pipelineEnvSaveFails.now + 5 * Minute) ∧
      (DuplicateFilter.ShouldProcess { ttl := 5 * Minute }
        ((NewProcessor Sample.emptyStore Sample.emptyCache).ProcessEvent
          Sample.pipelineEnvSaveFails Sample.crashEvent).1.cache Sample.pipelineEnvLater
        Sample.crashEventAgain).2 = false ∧
      ((((NewProcessor Sample.emptyStore Sample.emptyCache).ProcessEvent
        Sample.pipelineEnvSaveFails Sample.crashEvent).1).ProcessEvent Sample.pipelineEnvLater
          Sample.crashEventAgain).1.eventsFiltered =
        (NewProcessor Sample.emptyStore Sample.emptyCache).eventsFiltered + 1 ∧
      ((((NewProcessor Sample.emptyStore Sample.emptyCache).ProcessEvent
        Sample.pipelineEnvSaveFails Sample.crashEvent).1).ProcessEvent Sample.pipelineEnvLater
          Sample.crashEventAgain).1.store =
        (NewProcessor Sample.emptyStore Sample.emptyCache).store :=
  ⟨by decide, by decide,
    ((failed_save_consumes_window (NewProcessor Sample.emptyStore Sample.emptyCache)
      Sample.pipelineEnvSaveFails Sample.pipelineEnvLater Sample.crashEvent Sample.crashEventAgain
      "failed to save event: database error" rfl (by decide) rfl rfl rfl rfl rfl).2.1
        (by decide)).1,
    ((failed_save_consumes_window (NewProcessor Sample.emptyStore Sample.emptyCache)
      Sample.pipelineEnvSaveFails Sample.pipelineEnvLater Sample.crashEvent Sample.crashEventAgain
      "failed to save event: database error" rfl (by decide) rfl rfl rfl rfl rfl).2.1
        (by decide)).2.2.1,
    ((failed_save_consumes_window (NewProcessor Sample.emptyStore Sample.emptyCache)
      Sample.pipelineEnvSaveFails Sample.pipelineEnvLater Sample.crashEvent Sample.crashEventAgain
      "failed to save event: database error" rfl (by decide) rfl rfl rfl rfl rfl).2.1
        (by decide)).2.2.2.2.2⟩

/-- C30 as stated fails: the insert of the crash event fails, and the same
observation arriving one second later, with a store and a cache that work, is
rejected by the duplicate filter: it is counted as filtered, no event is
processed and the store has no event row. -/
theorem failed_save_blocks_retry :
    ((NewProcessor Sample.emptyStore Sample.emptyCache).ProcessEvent Sample.pipelineEnvSaveFails
        Sample.crashEvent).2.2 = some "failed to save event: database error" ∧
      ((NewProcessor Sample.emptyStore Sample.emptyCache).ProcessEvent
        Sample.pipelineEnvSaveFails Sample.crashEvent).1.eventsFailed = 1 ∧
      (DuplicateFilter.ShouldProcess { ttl := 5 * Minute }
        ((NewProcessor Sample.emptyStore Sample.emptyCache).ProcessEvent
          Sample.pipelineEnvSaveFails Sample.crashEvent).1.cache Sample.pipelineEnvLater
        Sample.crashEventAgain).2 = false ∧
      ((((NewProcessor Sample.emptyStore Sample.emptyCache).ProcessEvent
        Sample.pipelineEnvSaveFails Sample.crashEvent).1).ProcessEvent Sample.pipelineEnvLater
          Sample.crashEventAgain).2.2 = none ∧
      ((((NewProcessor Sample.emptyStore Sample.emptyCache).ProcessEvent
        Sample.pipelineEnvSaveFails Sample.crashEvent).1).ProcessEvent Sample.pipelineEnvLater
          Sample.crashEventAgain).1.eventsFiltered = 1 ∧
      ((((NewProcessor Sample.emptyStore Sample.emptyCache).ProcessEvent
        Sample.pipelineEnvSaveFails Sample.crashEvent).1).ProcessEvent Sample.pipelineEnvLater
          Sample.crashEventAgain).1.eventsProcessed = 0 ∧
      ((((NewProcessor Sample.emptyStore Sample.emptyCache).ProcessEvent
        Sample.pipelineEnvSaveFails Sample.crashEvent).1).ProcessEvent Sample.pipelineEnvLater
          Sample.crashEventAgain).1.store.events.length = 0 := by
  decide

end Processor

end AgentManager

namespace Orchestrator

open Go

/-! ## Decision steps -/

/-- The loop of `ExecuteDecision` passes over the entries whose `if` does not
hold. -/
theorem ExecuteDecision_loop_skip (execution : WorkflowExecution) (pre rest : List Value)
    (hpre : ∀ p ∈ pre, ∀ mp, p = Value.obj mp →
      evaluateDecisionCondition execution (Value.asString (mp.lookup "if")) = false) :
    ExecuteDecision.loop execution (pre ++ rest) = ExecuteDecision.loop execution rest := by
  induction pre with
  | nil => rfl
  | cons p pre ih =>
    have hrest : ∀ q ∈ pre, ∀ mq, q = Value.obj mq →
        evaluateDecisionCondition execution (Value.asString (mq.lookup "if")) = false :=
      fun q hq => hpre q (List.mem_cons_of_mem _ hq)
    rw [List.cons_append]
    cases p with
    | obj m =>
      have hm := hpre (Value.obj m) (List.mem_cons_self _ _) m rfl
      simp only [ExecuteDecision.loop, hm, Bool.false_eq_true, if_false]
      exact ih hrest
    | null => simp only [ExecuteDecision.loop]; exact ih hrest
    | str _ => simp only [ExecuteDecision.loop]; exact ih hrest
    | num _ => simp only [ExecuteDecision.loop]; exact ih hrest
    | arr _ => simp only [ExecuteDecision.loop]; exact ih hrest
    | bool _ => simp only [ExecuteDecision.loop]; exact ih hrest

/-- C22: for a step whose config holds the list `conditions`, `ExecuteDecision`
returns, with `matched = true`, the `then` value of the first entry of the list
whose `if` evaluates true, and `decision = "default"` with `matched = false`
when no entry evaluates true; with `analysis_root_cause = "OOM"` in the context
and the first condition `{if: "analysis.root_cause == 'OOM'", then:
"scale_up"}` the output has decision `scale_up` and matched true. -/
theorem ExecuteDecision_first_match (execution : WorkflowExecution) (step : WorkflowStep)
    (conds : List Value) (hconf : step.Config.lookup "conditions" = some (Value.arr conds)) :
    (∀ pre m post, conds = pre ++ Value.obj m :: post →
      evaluateDecisionCondition execution (Value.asString (m.lookup "if")) = true →
      (∀ p ∈ pre, ∀ mp, p = Value.obj mp →
        evaluateDecisionCondition execution (Value.asString (mp.lookup "if")) = false) →
      ExecuteDecision execution step =
        .ok [("decision", Value.str (Value.asString (m.lookup "then"))),
             ("condition", Value.str (Value.asString (m.lookup "if"))),
             ("matched", Value.bool true)]) ∧
    ((∀ c ∈ conds, ∀ m, c = Value.obj m →
        evaluateDecisionCondition execution (Value.asString (m.lookup "if")) = false) →
      ExecuteDecision execution step =
        .ok [("decision", Value.str "default"), ("matched", Value.bool false)]) ∧
    (∀ rest, execution.Context.lookup "analysis_root_cause" = some (Value.str "OOM") →
      conds = Value.obj [("if", Value.str "analysis.root_cause == 'OOM'"),
                         ("then", Value.str "scale_up")] :: rest →
      ∃ output, ExecuteDecision execution step = .ok output ∧
        output.lookup "decision" = some (Value.str "scale_up") ∧
        output.lookup "matched" = some (Value.bool true)) := by
  have hfirstMatch : ∀ pre m post, conds = pre ++ Value.obj m :: post →
      evaluateDecisionCondition execution (Value.asString (m.lookup "if")) = true →
      (∀ p ∈ pre, ∀ mp, p = Value.obj mp →
        evaluateDecisionCondition execution (Value.asString (mp.lookup "if")) = false) →
      ExecuteDecision execution step =
        .ok [("decision", Value.str (Value.asString (m.lookup "then"))),
             ("condition", Value.str (Value.asString (m.lookup "if"))),
             ("matched", Value.bool true)] := by
    intro pre m post hsplit hif hpre
    unfold ExecuteDecision
    rw [hconf, hsplit]
    simp only [ExecuteDecision_loop_skip execution pre _ hpre, ExecuteDecision.loop, hif, if_true]
  refine ⟨hfirstMatch, ?_, ?_⟩
  · intro hnone
    unfold ExecuteDecision
    rw [hconf]
    have h := ExecuteDecision_loop_skip execution conds [] hnone
    rw [List.append_nil] at h
    simp only [h, ExecuteDecision.loop]
  · intro rest hctx hfirst
    have hif : evaluateDecisionCondition execution
        (Value.asString (List.lookup "if"
          [("if", Value.str "analysis.root_cause == 'OOM'"), ("then", Value.str "scale_up")])) =
        true := by
      have hl : Value.asString (List.lookup "if"
          [("if", Value.str "analysis.root_cause == 'OOM'"), ("then", Value.str "scale_up")]) =
          "analysis.root_cause == 'OOM'" := rfl
      rw [hl]
      simp [evaluateDecisionCondition, hctx]
    exact ⟨_, hfirstMatch [] _ rest hfirst hif (by simp), rfl, rfl⟩

/-- Witness for C22: the sample decision step on the context with
`analysis_root_cause = "OOM"`, also as a step run by `executeStep`. -/
theorem ExecuteDecision_first_match_witness :
    (∃ output, ExecuteDecision Sample.rootCauseExecution Sample.decisionStep = .ok output ∧
        output.lookup "decision" = some (Value.str "scale_up") ∧
        output.lookup "matched" = some (Value.bool true)) ∧
      (Engine.executeStep Sample.decisionExecutor Sample.rootCauseExecution Sample.decisionStep 1
          0).returned.map (fun r => (r.1.StepID, r.1.Status, r.1.Output, r.2)) =
        some ("decide", ExecutionStatusCompleted,
          some [("decision", Value.str "scale_up"),
                ("condition", Value.str "analysis.root_cause == 'OOM'"),
                ("matched", Value.bool true)], none) ∧
      ExecuteDecision Sample.execution Sample.decisionStep =
        .ok [("decision", Value.str "default"), ("matched", Value.bool false)] :=
  ⟨(ExecuteDecision_first_match Sample.rootCauseExecution Sample.decisionStep _ rfl).2.2 _ rfl
      rfl,
    rfl,
    (ExecuteDecision_first_match Sample.execution Sample.decisionStep _ rfl).2.1 (by
      intro c hc m hm
      simp only [List.mem_cons, List.mem_singleton, List.not_mem_nil, or_false] at hc
      rcases hc with rfl | rfl <;> cases hm <;> rfl)⟩

/-! ## The history of a workflow execution -/

namespace Engine

/-- A step execution returned by `executeStep` carries the id of the step. -/
theorem executeStep_StepID (ex : Executor) (execution : WorkflowExecution) (step : WorkflowStep)
    (fuel calls : Nat) (stepExec : StepExecution) (err : Option String)
    (h : (executeStep ex execution step fuel calls).returned = some (stepExec, err)) :
    stepExec.StepID = step.ID := by
  induction fuel generalizing calls with
  | zero => simp [executeStep] at h
  | succ n ih =>
    unfold executeStep at h
    simp only [] at h
    split at h
    · split at h
      · split at h
        · exact ih _ h
        · simp only [Option.some.injEq, Prod.mk.injEq] at h
          rw [← h.1]
      · simp only [Option.some.injEq, Prod.mk.injEq] at h
        rw [← h.1]
    · simp only [Option.some.injEq, Prod.mk.injEq] at h
      rw [← h.1]

/-- Completing an execution does not touch its history. -/
theorem completeExecution_history (e : Engine) (execution : WorkflowExecution)
    (status : ExecutionStatus) (errorMsg : String) :
    (completeExecution e execution status errorMsg).2.StepExecutions =
      execution.StepExecutions := by
  unfold completeExecution
  by_cases h : errorMsg = "" <;> simp [h]

/-- The execution after `n + 1` passes is the execution after `n` passes of
the remaining ones, counted from where the first pass ended. -/
theorem executeWorkflow_after_cons (start : WorkflowExecution) (pass : Iteration)
    (tail : List Iteration) (n : Nat) :
    executeWorkflow.after start (pass :: tail) (n + 1) =
      executeWorkflow.after pass.left tail n := by
  unfold executeWorkflow.after
  rw [List.take_succ_cons]
  cases htake : tail.take n with
  | nil => rfl
  | cons y ys =>
    rw [List.getLast?_cons_cons]
    cases hlast : (y :: ys).getLast? with
    | some z => rfl
    | none => simp at hlast

/-- The first pass through the loop body, and what follows it: the pass starts
at the current execution, records the value of `shouldExecuteStep` there, and
ends with a history that is the one it started with, or that with the step
execution of this step appended.  Either `executeWorkflow` ends within the
pass, or the loop goes on from where the pass ended; it goes on only after a
skipped step (nothing appended, execution unchanged) or a satisfied step whose
execution was appended. -/
theorem executeWorkflow_iterations_cons (ex : Executor) (fuel : Nat) (step : WorkflowStep)
    (rest : List WorkflowStep) (e : Engine) (x : WorkflowExecution) (c : Nat) :
    ∃ (s : Option Bool) (x1 : WorkflowExecution) (new : List StepExecution)
      (tail : List Iteration),
      executeWorkflow.iterations ex fuel (step :: rest) e x c =
        { step := step, reached := x, satisfied := s, left := x1 } :: tail ∧
      s = shouldExecuteStep x step ∧
      x1.StepExecutions = x.StepExecutions ++ new ∧
      (s = some false → x1 = x) ∧
      ((tail = [] ∧ (new = [] ∨ (s = some true ∧ ∃ se, new = [se] ∧ se.StepID = step.ID)) ∧
          (executeWorkflow.loop ex fuel (step :: rest) e x c).execution.StepExecutions =
            x1.StepExecutions ∧
          (executeWorkflow.loop ex fuel (step :: rest) e x c).execution.Context = x1.Context) ∨
        (∃ e1 c1, tail = executeWorkflow.iterations ex fuel rest e1 x1 c1 ∧
          executeWorkflow.loop ex fuel (step :: rest) e x c =
            executeWorkflow.loop ex fuel rest e1 x1 c1 ∧
          ((s = some false ∧ new = []) ∨
            (s = some true ∧ ∃ se, new = [se] ∧ se.StepID = step.ID)))) := by
  generalize hI : executeWorkflow.iterations ex fuel (step :: rest) e x c = passes
  generalize hL : executeWorkflow.loop ex fuel (step :: rest) e x c = run
  unfold executeWorkflow.iterations at hI
  unfold executeWorkflow.loop at hL
  cases hshould : shouldExecuteStep x step with
  | none =>
    simp only [hshould] at hI hL
    subst hI hL
    exact ⟨none, x, [], [], rfl, rfl, (List.append_nil _).symm, fun _ => rfl,
      Or.inl ⟨rfl, Or.inl rfl, rfl, rfl⟩⟩
  | some b =>
    cases b with
    | false =>
      simp only [hshould] at hI hL
      subst hI hL
      exact ⟨some false, x, [], _, rfl, rfl, (List.append_nil _).symm, fun _ => rfl,
        Or.inr ⟨e, c, rfl, rfl, Or.inl ⟨rfl, rfl⟩⟩⟩
    | true =>
      simp only [hshould] at hI hL
      cases hrun : (executeStep ex x step fuel c).returned with
      | none =>
        simp only [hrun] at hI hL
        subst hI hL
        exact ⟨some true, x, [], [], rfl, rfl, (List.append_nil _).symm, fun _ => rfl,
          Or.inl ⟨rfl, Or.inl rfl, rfl, rfl⟩⟩
      | some r =>
        obtain ⟨se, err⟩ := r
        cases err with
        | some msg =>
          simp only [hrun] at hI hL
          subst hI hL
          refine ⟨some true, (handleStepFailure e x msg).2, [], [], rfl, rfl, ?_, ?_,
            Or.inl ⟨rfl, Or.inl rfl, rfl, rfl⟩⟩
          · rw [List.append_nil]
            exact completeExecution_history _ _ _ _
          · intro h
            cases h
        | none =>
          have hid := executeStep_StepID ex x step fuel c se none hrun
          simp only [hrun] at hI hL
          have hhist : (match se.Output with
              | some output =>
                { ({ x with StepExecutions := x.StepExecutions ++ [se] } : WorkflowExecution) with
                  Context := mergeOutput x.Context step.ID output }
              | none => { x with StepExecutions := x.StepExecutions ++ [se] }).StepExecutions =
                x.StepExecutions ++ [se] := by
            cases se.Output <;> rfl
          by_cases hfailed : se.Status = ExecutionStatusFailed
          · simp only [hfailed, if_true] at hI hL
            subst hI hL
            refine ⟨some true, _, [se], [], rfl, rfl, ?_, ?_,
              Or.inl ⟨rfl, Or.inr ⟨rfl, se, rfl, hid⟩, rfl, rfl⟩⟩
            · split
              · simp only [executeFailureBranch]
                rw [completeExecution_history]
                exact hhist
              · rw [completeExecution_history]
                exact hhist
            · intro h
              cases h
          · simp only [hfailed, if_false] at hI hL
            subst hI hL
            refine ⟨some true, _, [se], _, rfl, rfl, hhist, ?_,
              Or.inr ⟨_, _, rfl, rfl, Or.inr ⟨rfl, se, rfl, hid⟩⟩⟩
            intro h
            cases h

/-- The passes go through the steps of the workflow in order, from the first
one on. -/
theorem executeWorkflow_iterations_steps (ex : Executor) (fuel : Nat) (steps : List WorkflowStep)
    (e : Engine) (x : WorkflowExecution) (c : Nat) :
    (executeWorkflow.iterations ex fuel steps e x c).map (fun pass => pass.step) <+: steps := by
  induction steps generalizing e x c with
  | nil => simp [executeWorkflow.iterations]
  | cons step rest ih =>
    obtain ⟨s, x1, new, tail, hcons, _, _, _, hnext⟩ :=
      executeWorkflow_iterations_cons ex fuel step rest e x c
    rw [hcons, List.map_cons]
    rcases hnext with ⟨htail, _⟩ | ⟨e1, c1, htail, _⟩
    · rw [htail]
      exact ⟨rest, rfl⟩
    · rw [htail]
      exact (List.prefix_cons_inj step).mpr (ih e1 x1 c1)

/-- Every pass records the value of `shouldExecuteStep` where it started, ends
with a history that extends the one it started with, and leaves the execution
as it was when the step was skipped. -/
theorem executeWorkflow_iterations_pass (ex : Executor) (fuel : Nat) (steps : List WorkflowStep)
    (e : Engine) (x : WorkflowExecution) (c : Nat) :
    ∀ pass ∈ executeWorkflow.iterations ex fuel steps e x c,
      pass.satisfied = shouldExecuteStep pass.reached pass.step ∧
      (∃ new, pass.left.StepExecutions = pass.reached.StepExecutions ++ new) ∧
      (pass.satisfied = some false → pass.left = pass.reached) := by
  induction steps generalizing e x c with
  | nil => simp [executeWorkflow.iterations]
  | cons step rest ih =>
    obtain ⟨s, x1, new, tail, hcons, hs, hnew, hskip, hnext⟩ :=
      executeWorkflow_iterations_cons ex fuel step rest e x c
    rw [hcons]
    intro pass hpass
    rcases List.mem_cons.mp hpass with rfl | htailmem
    · exact ⟨hs, ⟨new, hnew⟩, hskip⟩
    · rcases hnext with ⟨htail, _⟩ | ⟨e1, c1, htail, _⟩
      · rw [htail] at htailmem
        simp at htailmem
      · rw [htail] at htailmem
        exact ih e1 x1 c1 pass htailmem

/-- Every pass starts with the execution that the passes before it left. -/
theorem executeWorkflow_iterations_chain (ex : Executor) (fuel : Nat) (steps : List WorkflowStep)
    (e : Engine) (x : WorkflowExecution) (c : Nat) (n : Nat) (pass : Iteration)
    (h : (executeWorkflow.iterations ex fuel steps e x c)[n]? = some pass) :
    pass.reached =
      executeWorkflow.after x (executeWorkflow.iterations ex fuel steps e x c) n := by
  induction steps generalizing e x c n with
  | nil => simp [executeWorkflow.iterations] at h
  | cons step rest ih =>
    obtain ⟨s, x1, new, tail, hcons, _, _, _, hnext⟩ :=
      executeWorkflow_iterations_cons ex fuel step rest e x c
    rw [hcons] at h ⊢
    cases n with
    | zero =>
      simp only [List.getElem?_cons_zero, Option.some.injEq] at h
      rw [← h]
      rfl
    | succ m =>
      rw [List.getElem?_cons_succ] at h
      rw [executeWorkflow_after_cons]
      rcases hnext with ⟨htail, _⟩ | ⟨e1, c1, htail, _⟩
      · rw [htail] at h
        simp at h
      · rw [htail] at h ⊢
        exact ih e1 x1 c1 m h

/-- After any number of passes the history is the one the execution started
with, followed by step executions whose step ids are a prefix of the ids of
the steps that were satisfied when reached, in order. -/
theorem executeWorkflow_iterations_history (ex : Executor) (fuel : Nat)
    (steps : List WorkflowStep) (e : Engine) (x : WorkflowExecution) (c : Nat) (n : Nat) :
    ∃ done,
      (executeWorkflow.after x (executeWorkflow.iterations ex fuel steps e x c) n).StepExecutions =
        x.StepExecutions ++ done ∧
      done.map (fun se => se.StepID) <+:
        satisfiedIDs ((executeWorkflow.iterations ex fuel steps e x c).take n) := by
  induction steps generalizing e x c n with
  | nil =>
    refine ⟨[], ?_, ?_⟩
    · simp [executeWorkflow.iterations, executeWorkflow.after]
    · simp
  | cons step rest ih =>
    obtain ⟨s, x1, new, tail, hcons, _, hnew, _, hnext⟩ :=
      executeWorkflow_iterations_cons ex fuel step rest e x c
    rw [hcons]
    cases n with
    | zero =>
      refine ⟨[], ?_, ?_⟩
      · simp [executeWorkflow.after]
      · simp
    | succ m =>
      rw [executeWorkflow_after_cons, List.take_succ_cons]
      rcases hnext with ⟨htail, hnewcase, _⟩ | ⟨e1, c1, htail, _, hnewcase⟩
      · rw [htail]
        refine ⟨new, ?_, ?_⟩
        · simp only [executeWorkflow.after, List.take_nil, List.getLast?_nil]
          exact hnew
        · rcases hnewcase with hnil | ⟨hs, se, hse, hid⟩
          · rw [hnil]
            simp
          · rw [hse, hs]
            simp [satisfiedIDs, hid]
      · rw [htail]
        obtain ⟨done, hdone, hpfx⟩ := ih e1 x1 c1 m
        refine ⟨new ++ done, ?_, ?_⟩
        · rw [hdone, hnew, List.append_assoc]
        · rcases hnewcase with ⟨hs, hnil⟩ | ⟨hs, se, hse, hid⟩
          · rw [hnil, hs]
            simpa [satisfiedIDs] using hpfx
          · rw [hse, hs]
            simp only [satisfiedIDs, List.singleton_append, List.map_cons, hid] at hpfx ⊢
            simp only [List.filter, beq_self_eq_true, List.map_cons]
            exact (List.prefix_cons_inj step.ID).mpr hpfx

/-- History and context of the execution when the loop of `executeWorkflow`
ends are those the last pass left. -/
theorem executeWorkflow_loop_final (ex : Executor) (fuel : Nat) (steps : List WorkflowStep)
    (e : Engine) (x : WorkflowExecution) (c : Nat) :
    (executeWorkflow.loop ex fuel steps e x c).execution.StepExecutions =
        (executeWorkflow.after x (executeWorkflow.iterations ex fuel steps e x c)
          (executeWorkflow.iterations ex fuel steps e x c).length).StepExecutions ∧
      (executeWorkflow.loop ex fuel steps e x c).execution.Context =
        (executeWorkflow.after x (executeWorkflow.iterations ex fuel steps e x c)
          (executeWorkflow.iterations ex fuel steps e x c).length).Context := by
  induction steps generalizing e x c with
  | nil =>
    simp only [executeWorkflow.loop, executeWorkflow.iterations, executeWorkflow.after,
      List.take_nil, List.getLast?_nil]
    exact ⟨completeExecution_history _ _ _ _, completeExecution_context _ _ _ _⟩
  | cons step rest ih =>
    obtain ⟨s, x1, new, tail, hcons, _, _, _, hnext⟩ :=
      executeWorkflow_iterations_cons ex fuel step rest e x c
    rw [hcons, List.length_cons, executeWorkflow_after_cons]
    rcases hnext with ⟨htail, _, hse, hctx⟩ | ⟨e1, c1, htail, hloop, _⟩
    · rw [htail]
      simp only [executeWorkflow.after, List.take_nil, List.getLast?_nil]
      exact ⟨hse, hctx⟩
    · rw [htail, hloop]
      exact ih e1 x1 c1

/-- C21: for every workflow, every outcome of the step handlers and an
execution that starts with an empty history, the passes of `executeWorkflow`
through its loop go through `workflow.Steps` in order; each pass starts with
the execution the passes before it left and records whether the conditions of
its step were satisfied there.  After any number of passes, and when
`executeWorkflow` ends, the step ids of the history are, in order, a prefix of
the ids of the steps whose conditions were satisfied when they were reached,
themselves taken from `workflow.Steps` in order; a pass only appends to the
history, and a pass whose step is skipped leaves history and context as they
were. -/
theorem executeWorkflow_history_invariant (e : Engine) (ex : Executor) (fuel : Nat)
    (workflow : Workflow) (execution : WorkflowExecution) (passes : List Iteration)
    (hstart : execution.StepExecutions = [])
    (hpasses : passes = executeWorkflow.iterations ex fuel workflow.Steps
      (executeWorkflow.startEngine e execution) (executeWorkflow.start execution) 0) :
    passes.map (fun pass => pass.step) <+: workflow.Steps ∧
      (∀ pass ∈ passes, pass.satisfied = shouldExecuteStep pass.reached pass.step) ∧
      (∀ n pass, passes[n]? = some pass →
        pass.reached = executeWorkflow.after (executeWorkflow.start execution) passes n) ∧
      (∀ n, (executeWorkflow.after (executeWorkflow.start execution) passes n).StepExecutions.map
          (fun se => se.StepID) <+: satisfiedIDs (passes.take n)) ∧
      (satisfiedIDs passes).Sublist (workflow.Steps.map (fun step => step.ID)) ∧
      (∀ pass ∈ passes, ∃ new, pass.left.StepExecutions = pass.reached.StepExecutions ++ new) ∧
      (∀ pass ∈ passes, pass.satisfied = some false →
        pass.left.StepExecutions = pass.reached.StepExecutions ∧
          pass.left.Context = pass.reached.Context) ∧
      (executeWorkflow e ex fuel workflow execution).execution.StepExecutions =
        (executeWorkflow.after (executeWorkflow.start execution) passes
          passes.length).StepExecutions ∧
      (executeWorkflow e ex fuel workflow execution).execution.Context =
        (executeWorkflow.after (executeWorkflow.start execution) passes passes.length).Context := by
  subst hpasses
  have hsteps := executeWorkflow_iterations_steps ex fuel workflow.Steps
    (executeWorkflow.startEngine e execution) (executeWorkflow.start execution) 0
  have hpass := executeWorkflow_iterations_pass ex fuel workflow.Steps
    (executeWorkflow.startEngine e execution) (executeWorkflow.start execution) 0
  have hfinal := executeWorkflow_loop_final ex fuel workflow.Steps
    (executeWorkflow.startEngine e execution) (executeWorkflow.start execution) 0
  have hexec : (executeWorkflow e ex fuel workflow execution).execution =
      (executeWorkflow.loop ex fuel workflow.Steps (executeWorkflow.startEngine e execution)
        (executeWorkflow.start execution) 0).execution := by
    unfold executeWorkflow
    simp only []
    split <;> rfl
  refine ⟨hsteps, fun pass h => (hpass pass h).1, ?_, ?_, ?_, fun pass h => (hpass pass h).2.1,
    ?_, ?_, ?_⟩
  · intro n pass h
    exact executeWorkflow_iterations_chain ex fuel workflow.Steps _ _ 0 n pass h
  · intro n
    obtain ⟨done, hdone, hpfx⟩ := executeWorkflow_iterations_history ex fuel workflow.Steps
      (executeWorkflow.startEngine e execution) (executeWorkflow.start execution) 0 n
    rw [hdone]
    have h0 : (executeWorkflow.start execution).StepExecutions = [] := hstart
    rw [h0, List.nil_append]
    exact hpfx
  · unfold satisfiedIDs
    have h1 : ((executeWorkflow.iterations ex fuel workflow.Steps
        (executeWorkflow.startEngine e execution) (executeWorkflow.start execution) 0).filter
          (fun pass => pass.satisfied == some true)).map (fun pass => pass.step.ID) =
        (((executeWorkflow.iterations ex fuel workflow.Steps
          (executeWorkflow.startEngine e execution) (executeWorkflow.start execution) 0).filter
            (fun pass => pass.satisfied == some true)).map (fun pass => pass.step)).map
              (fun step => step.ID) := by
      rw [List.map_map]
      rfl
    rw [h1]
    exact (((List.filter_sublist _).map _).trans hsteps.sublist).map _
  · intro pass h hskip
    rw [(hpass pass h).2.2 hskip]
    exact ⟨rfl, rfl⟩
  · rw [hexec]
    exact hfinal.1
  · rw [hexec]
    exact hfinal.2

/-- Witness for C21: the workflow `first`, `skipped`, `last`, whose second step
is skipped by its condition, run with handlers that succeed: three passes, the
history `first`, `last`; and run with handlers that fail: one pass, whose step
was satisfied, and an empty history. -/
theorem executeWorkflow_history_invariant_witness :
    Sample.execution.StepExecutions = [] ∧
      (executeWorkflow.iterations Sample.outputExecutor 1 Sample.skippingWorkflow.Steps
          (executeWorkflow.startEngine Sample.engine Sample.execution)
          (executeWorkflow.start Sample.execution) 0).map
        (fun pass => (pass.step.ID, pass.satisfied)) =
        [("first", some true), ("skipped", some false), ("last", some true)] ∧
      ((executeWorkflow.after (executeWorkflow.start Sample.execution)
          (executeWorkflow.iterations Sample.outputExecutor 1 Sample.skippingWorkflow.Steps
            (executeWorkflow.startEngine Sample.engine Sample.execution)
            (executeWorkflow.start Sample.execution) 0) 3).StepExecutions.map
          (fun se => se.StepID) <+:
        satisfiedIDs
          ((executeWorkflow.iterations Sample.outputExecutor 1 Sample.skippingWorkflow.Steps
            (executeWorkflow.startEngine Sample.engine Sample.execution)
            (executeWorkflow.start Sample.execution) 0).take 3)) ∧
      (executeWorkflow Sample.engine Sample.outputExecutor 1 Sample.skippingWorkflow
          Sample.execution).execution.StepExecutions.map (fun se => se.StepID) =
        ["first", "last"] ∧
      (executeWorkflow.iterations Sample.failingExecutor 1 Sample.skippingWorkflow.Steps
          (executeWorkflow.startEngine Sample.engine Sample.execution)
          (executeWorkflow.start Sample.execution) 0).map
        (fun pass => (pass.step.ID, pass.satisfied)) = [("first", some true)] ∧
      (executeWorkflow Sample.engine Sample.failingExecutor 1 Sample.skippingWorkflow
          Sample.execution).execution.StepExecutions.map (fun se => se.StepID) = [] :=
  ⟨rfl, by decide,
    (executeWorkflow_history_invariant Sample.engine Sample.outputExecutor 1 Sample.skippingWorkflow
      Sample.execution _ rfl rfl).2.2.2.1 3,
    by decide, by decide, by decide⟩

end Engine

end Orchestrator
